import Mathlib

/-!
# RGF boosting controller (`src/boosting/rgf.hpp`)

A shallow embedding of `RGF::TrainOneIter` and `RGF::FullyCorrectiveUpdate`.

* `double` and `score_t` values are exact rationals.
* `iter_`, `num_tree_per_iteration_`, `num_data_` are natural numbers (the C++ `int`s are
  never negative here and their overflow is not modelled).
* A raw pointer into a score or gradient buffer is a function `Nat → ℚ`; `p + bias` is `shift p bias`.
* The tree learner and the objective function are external collaborators: they are fields of
  `Collaborators`, and the learner carries an abstract state of type `L` that every call may change.
* A failed `assert` aborts the run: the fallible functions return `Option`, `none` being the abort.
* The functions also return a list of `Event`s, a ghost record of what was done in which order;
  no control flow reads it.
-/

namespace LightGBM

/-! ## Trees -/

/-- Modelled from the spec: the split structure of a `Tree` (tree.h is not under src/), a binary
structure whose inner nodes test one covariate against a threshold and whose leaves are numbered. -/
inductive Node where
  | leaf (index : Nat)
  | split (feature : Nat) (threshold : ℚ) (left right : Node)
  deriving DecidableEq

/-- Modelled from the spec: the leaf that a data point's covariates are routed to ("the tree's
predicted leaf value for that point's covariates"). -/
def Node.GetLeaf : Node → List ℚ → Nat
  | .leaf index, _ => index
  | .split feature threshold left right, row =>
    if row.getD feature 0 ≤ threshold then left.GetLeaf row else right.GetLeaf row

/-- Modelled from the spec: `Tree` (tree.h is not under src/), "a binary structure with leaf
outputs (floating-point per leaf)"; `leaf_value_` holds one output per leaf, so the leaf count is
its length. -/
structure Tree where
  leaf_value_ : List ℚ
  root : Node
  deriving DecidableEq

namespace Tree

/-- Modelled from the spec: the constructor `Tree(max_leaves)`, the "placeholder degenerate tree":
one leaf, output zero. -/
def new (_max_leaves : Nat) : Tree := ⟨[0], .leaf 0⟩

/-- Modelled from the spec: `leafCount()`. -/
def num_leaves (t : Tree) : Nat := t.leaf_value_.length

/-- Modelled from the spec: `leafOutput(i)`. -/
def LeafOutput (t : Tree) (i : Nat) : ℚ := t.leaf_value_.getD i 0

/-- Modelled from the spec: `shrink(rate)`, "uniform shrinkage by a learning-rate scalar". -/
def Shrinkage (t : Tree) (rate : ℚ) : Tree := { t with leaf_value_ := t.leaf_value_.map (· * rate) }

/-- Modelled from the spec: `addBias(value)`, "add that bias to every leaf of the tree". -/
def AddBias (t : Tree) (val : ℚ) : Tree := { t with leaf_value_ := t.leaf_value_.map (val + ·) }

/-- Modelled from the spec: `asConstant(value)`, the single-leaf "constant-tree entry". -/
def AsConstantTree (_t : Tree) (val : ℚ) : Tree := ⟨[val], .leaf 0⟩

/-- Modelled from the spec: "the tree's predicted leaf value for that point's covariates". -/
def Predict (t : Tree) (row : List ℚ) : ℚ := t.LeafOutput (t.root.GetLeaf row)

end Tree

/-! ## Score caches -/

/-- Pointer arithmetic `p + bias` on a buffer. -/
def shift (p : Nat → ℚ) (bias : Nat) : Nat → ℚ := fun i => p (bias + i)

/-- Modelled from the spec: `ScoreUpdater` (score_updater.hpp is not under src/), the ScoreCache of
one data partition: "one accumulated prediction value per (data point, channel)". The slice of
channel `c` starts at `c * num_data_`, as `train_score_updater_->score() + bias` in
`TrainOneIter` shows. -/
structure ScoreUpdater where
  data_ : Nat → List ℚ
  num_data_ : Nat
  score_ : Nat → ℚ

namespace ScoreUpdater

/-- Modelled from the spec: `AddScore(constant, channel)` "adds a fixed scalar to every data
point's cached score for that channel". -/
def AddScoreConstant (u : ScoreUpdater) (val : ℚ) (cur_tree_id : Nat) : ScoreUpdater :=
  let offset := u.num_data_ * cur_tree_id
  { u with score_ := fun j =>
      if offset ≤ j ∧ j < offset + u.num_data_ then u.score_ j + val else u.score_ j }

/-- Modelled from the spec: `AddScore(tree, channel)` "for every data point owned by this
partition, adds the tree's predicted leaf value for that point's covariates to the cached score
for that channel". -/
def AddScore (u : ScoreUpdater) (tree : Tree) (cur_tree_id : Nat) : ScoreUpdater :=
  let offset := u.num_data_ * cur_tree_id
  { u with score_ := fun j =>
      if offset ≤ j ∧ j < offset + u.num_data_
      then u.score_ j + tree.Predict (u.data_ (j - offset)) else u.score_ j }

/-- Modelled from the spec: the overload `AddScore(tree_learner, tree, channel)` used on the
training partition; the spec gives `AddScore` over a tree one meaning, the one of `AddScore`. -/
def AddScoreLearner (u : ScoreUpdater) (tree : Tree) (cur_tree_id : Nat) : ScoreUpdater :=
  u.AddScore tree cur_tree_id

end ScoreUpdater

/-! ## The booster state and its collaborators -/

/-- The members of `GBDT` that `RGF` reads or writes. -/
structure RGF (L : Type) where
  iter_ : Nat
  num_tree_per_iteration_ : Nat
  num_data_ : Nat
  models_ : List Tree
  class_need_train_ : Nat → Bool
  class_default_output_ : Nat → ℚ
  shrinkage_rate_ : ℚ
  is_constant_hessian_ : Bool
  gradients_ : Nat → ℚ
  hessians_ : Nat → ℚ
  bag_data_indices_ : List Nat
  bag_data_cnt_ : Nat
  train_score_updater_ : ScoreUpdater
  valid_score_updater_ : List ScoreUpdater
  tree_learner_ : L

/-- The external collaborators: the constant `kEpsilon`, the objective function and the tree
learner (none of them under src/). -/
structure Collaborators (L : Type) where
  kEpsilon : ℚ
  /-- The "current mean objective response" of the objective function. -/
  MeanResponse : ScoreUpdater → ℚ
  /-- The call `objective_function_->GetGradients(score, gradients, hessians)`. -/
  GetGradients : (Nat → ℚ) → (Nat → ℚ) × (Nat → ℚ)
  /-- The call `tree_learner_->Train(grad, hess, is_constant_hessian_)`. -/
  Train : L → (Nat → ℚ) → (Nat → ℚ) → Bool → Tree × L
  /-- The call `tree_learner_->RenewTreeOutput(tree, objective, score, num_data, bag, bag_cnt)`. -/
  RenewTreeOutput : L → Tree → (Nat → ℚ) → Nat → List Nat → Nat → Tree × L
  /-- The call `tree_learner_->FitByExistingTree(old_tree, gradients, hessians)`. -/
  FitByExistingTree : L → Tree → (Nat → ℚ) → (Nat → ℚ) → Tree × L

/-- Ghost record of one action of a boosting round. -/
inductive Event where
  /-- The tree `new_tree` of a channel as it is tested at line 95. -/
  | acquired (cur_tree_id : Nat) (tree : Tree)
  /-- The call `UpdateScore(new_tree, cur_tree_id)`, with the tree as it is at the call. -/
  | updateScore (cur_tree_id : Nat) (tree : Tree)
  /-- The call `new_tree->AddBias(init_score)`. -/
  | addBias (cur_tree_id : Nat) (init_score : ℚ)
  /-- The calls `AddScore(output, cur_tree_id)` of the default output, on every partition. -/
  | defaultOutput (cur_tree_id : Nat) (output : ℚ)
  /-- The call `models_.push_back(new_tree)`. -/
  | pushBack (cur_tree_id : Nat) (tree : Tree)
  /-- A completed call of `FullyCorrectiveUpdate`, with the flat indices it visited. -/
  | refit (visited : List Nat)
  deriving DecidableEq

variable {L : Type}

/-- Modelled from the spec: `GBDT::BoostFromAverage` (gbdt.cpp is not under src/): "compute a
cold-start bias value from the current mean objective response (used only on the very first
round, per channel)". -/
def BoostFromAverage (env : Collaborators L) (s : RGF L) : ℚ :=
  if s.models_.isEmpty then env.MeanResponse s.train_score_updater_ else 0

/-- Modelled from the spec: `GBDT::Boosting` (gbdt.cpp is not under src/): "invoke the external
objective to populate GradientBuffer from the training ScoreCache". -/
def Boosting (env : Collaborators L) (s : RGF L) : RGF L :=
  let gh := env.GetGradients s.train_score_updater_.score_
  { s with gradients_ := gh.1, hessians_ := gh.2 }

/-- Modelled from the spec: `GBDT::UpdateScore` (gbdt.cpp is not under src/): "propagate the
resulting tree's contribution additively into the training ScoreCache and every validation
ScoreCache". -/
def UpdateScore (s : RGF L) (tree : Tree) (cur_tree_id : Nat) : RGF L :=
  { s with
    train_score_updater_ := s.train_score_updater_.AddScore tree cur_tree_id
    valid_score_updater_ := s.valid_score_updater_.map fun u => u.AddScore tree cur_tree_id }

/-! ## `FullyCorrectiveUpdate` (lines 140-167) -/

/-- Lines 144-163: the body of the inner loop, for one `(iter, tree_id)`. The `std::cout` lines
are output only. `models_[model_index]` is read with a default, which is never used: the loops
only reach indices below `models_.size()`. -/
def FullyCorrectiveUpdate.body (env : Collaborators L) (iter tree_id : Nat)
    (st : RGF L × List Nat) : Option (RGF L × List Nat) :=
  let s : RGF L := st.1
  let model_index := iter * s.num_tree_per_iteration_ + tree_id
  let gh := env.GetGradients s.train_score_updater_.score_
  let s : RGF L := { s with gradients_ := gh.1, hessians_ := gh.2 }
  let bias := tree_id * s.num_data_
  let gradients := shift s.gradients_ bias
  let hessians := shift s.hessians_ bias
  let old_tree := s.models_.getD model_index (Tree.new 2)
  let fit := env.FitByExistingTree s.tree_learner_ old_tree gradients hessians
  let new_tree := fit.1
  if new_tree.num_leaves = old_tree.num_leaves then
    some ({ s with
            tree_learner_ := fit.2
            train_score_updater_ := s.train_score_updater_.AddScoreLearner new_tree tree_id
            models_ := s.models_.set model_index new_tree },
          st.2 ++ [model_index])
  else none

/-- Line 143: the loop `for (tree_id = ...; tree_id < num_tree_per_iteration_; ++tree_id)`, with
`todo` iterations left. -/
def FullyCorrectiveUpdate.trees (env : Collaborators L) (iter : Nat) :
    Nat → Nat → RGF L × List Nat → Option (RGF L × List Nat)
  | _, 0, st => some st
  | tree_id, todo + 1, st =>
    match FullyCorrectiveUpdate.body env iter tree_id st with
    | none => none
    | some st => FullyCorrectiveUpdate.trees env iter (tree_id + 1) todo st

/-- Line 142: the loop `for (iter = ...; iter < num_iterations; ++iter)`, with `todo` iterations
left. -/
def FullyCorrectiveUpdate.iters (env : Collaborators L) :
    Nat → Nat → RGF L × List Nat → Option (RGF L × List Nat)
  | _, 0, st => some st
  | iter, todo + 1, st =>
    match FullyCorrectiveUpdate.trees env iter 0 st.1.num_tree_per_iteration_ st with
    | none => none
    | some st => FullyCorrectiveUpdate.iters env (iter + 1) todo st

/-- Lines 140-167. Returns the `true` of line 166, the new state and the visited flat indices. -/
def FullyCorrectiveUpdate (env : Collaborators L) (s : RGF L) : Option (Bool × RGF L × List Nat) :=
  let num_iterations := s.models_.length / s.num_tree_per_iteration_
  match FullyCorrectiveUpdate.iters env 0 num_iterations (s, []) with
  | none => none
  | some st => some (true, st.1, st.2)

/-! ## `TrainOneIter` (lines 55-137) -/

/-- The loop-carried values of lines 77-125: the object, `should_continue`, the ghost record. -/
structure Round (L : Type) where
  self : RGF L
  should_continue : Bool
  log : List Event

/-- The buffer the local pointers `gradients`, `hessians` point to at line 86: the caller's
buffers, or the members `gradients_`, `hessians_` (lines 65-66). -/
def TrainOneIter.buffers (ext : Option ((Nat → ℚ) × (Nat → ℚ))) (s : RGF L) :
    (Nat → ℚ) × (Nat → ℚ) :=
  match ext with
  | some gh => gh
  | none => (s.gradients_, s.hessians_)

/-- Lines 83-89: the tree `new_tree` of a channel, the placeholder `Tree(2)` or the tree the
learner fits from the channel's gradient and hessian slices, and the learner after the call. -/
def TrainOneIter.acquire (env : Collaborators L) (ext : Option ((Nat → ℚ) × (Nat → ℚ)))
    (cur_tree_id : Nat) (s : RGF L) : Tree × L :=
  let bias := cur_tree_id * s.num_data_
  let gh := TrainOneIter.buffers ext s
  if s.class_need_train_ cur_tree_id then
    env.Train s.tree_learner_ (shift gh.1 bias) (shift gh.2 bias) s.is_constant_hessian_
  else (Tree.new 2, s.tree_learner_)

/-- Line 97: the accepted tree after `RenewTreeOutput`, and the learner after the call. -/
def TrainOneIter.renew (env : Collaborators L) (cur_tree_id : Nat) (s : RGF L)
    (fit : Tree × L) : Tree × L :=
  let bias := cur_tree_id * s.num_data_
  env.RenewTreeOutput fit.2 fit.1
    (shift s.train_score_updater_.score_ bias) s.num_data_ s.bag_data_indices_ s.bag_data_cnt_

/-- Lines 97-100: the accepted tree after `RenewTreeOutput` and `Shrinkage`, and the learner after
the calls. -/
def TrainOneIter.renewed (env : Collaborators L) (cur_tree_id : Nat) (s : RGF L)
    (fit : Tree × L) : Tree × L :=
  let renew := TrainOneIter.renew env cur_tree_id s fit
  (renew.1.Shrinkage s.shrinkage_rate_, renew.2)

/-- Lines 83-119: one channel, up to and including `models_.push_back`. -/
def TrainOneIter.channel (env : Collaborators L) (ext : Option ((Nat → ℚ) × (Nat → ℚ)))
    (init_score : ℚ) (cur_tree_id : Nat) (r : Round L) : Round L :=
  let s : RGF L := r.self
  let fit := TrainOneIter.acquire env ext cur_tree_id s
  let log := r.log ++ [Event.acquired cur_tree_id fit.1]
  if fit.1.num_leaves > 1 then
    let shrunk := TrainOneIter.renewed env cur_tree_id s fit
    let s : RGF L := UpdateScore { s with tree_learner_ := shrunk.2 } shrunk.1 cur_tree_id
    let log := log ++ [Event.updateScore cur_tree_id shrunk.1]
    if |init_score| > env.kEpsilon then
      let new_tree := shrunk.1.AddBias init_score
      { self := { s with models_ := s.models_ ++ [new_tree] }
        should_continue := true
        log := log ++ [Event.addBias cur_tree_id init_score, Event.pushBack cur_tree_id new_tree] }
    else
      { self := { s with models_ := s.models_ ++ [shrunk.1] }
        should_continue := true
        log := log ++ [Event.pushBack cur_tree_id shrunk.1] }
  else
    let s : RGF L := { s with tree_learner_ := fit.2 }
    if !s.class_need_train_ cur_tree_id ∧ s.models_.length < s.num_tree_per_iteration_ then
      let output := s.class_default_output_ cur_tree_id
      let new_tree := fit.1.AsConstantTree output
      let s : RGF L := { s with
        train_score_updater_ := s.train_score_updater_.AddScoreConstant output cur_tree_id
        valid_score_updater_ :=
          s.valid_score_updater_.map fun u => u.AddScoreConstant output cur_tree_id }
      { self := { s with models_ := s.models_ ++ [new_tree] }
        should_continue := r.should_continue
        log := log ++ [Event.defaultOutput cur_tree_id output, Event.pushBack cur_tree_id new_tree] }
    else
      { self := { s with models_ := s.models_ ++ [fit.1] }
        should_continue := r.should_continue
        log := log ++ [Event.pushBack cur_tree_id fit.1] }

/-- The test of line 121, `iter_ != 0 && iter_ % 100 == 0`: the corrective refit is due. -/
def RefitDue (s : RGF L) : Prop := s.iter_ ≠ 0 ∧ s.iter_ % 100 = 0

instance (s : RGF L) : Decidable (RefitDue s) := by unfold RefitDue; infer_instance

/-- Lines 121-124: the refit check at the end of the loop body. -/
def TrainOneIter.refit (env : Collaborators L) (r : Round L) : Option (Round L) :=
  if RefitDue r.self then
    match FullyCorrectiveUpdate env r.self with
    | none => none
    | some res => some { r with self := res.2.1, log := r.log ++ [Event.refit res.2.2] }
  else some r

/-- Lines 78-125: the loop over the channels, at `cur_tree_id` with `todo` iterations left. -/
def TrainOneIter.loop (env : Collaborators L) (ext : Option ((Nat → ℚ) × (Nat → ℚ)))
    (init_score : ℚ) : Nat → Nat → Round L → Option (Round L)
  | _, 0, r => some r
  | cur_tree_id, todo + 1, r =>
    match TrainOneIter.refit env (TrainOneIter.channel env ext init_score cur_tree_id r) with
    | none => none
    | some r => TrainOneIter.loop env ext init_score (cur_tree_id + 1) todo r

/-- Lines 129-131: `n` times `models_.pop_back()`. -/
def popBack : Nat → List Tree → List Tree
  | 0, models => models
  | n + 1, models => popBack n models.dropLast

/-- What a call of `TrainOneIter` that returns leaves behind. -/
structure Outcome (L : Type) where
  finished : Bool
  self : RGF L
  log : List Event

/-- Lines 56-71: the cold-start bias `init_score`, the buffers the local pointers refer to
(`none`: the members) and the object after `Boosting()`. -/
def TrainOneIter.boost (env : Collaborators L) (gradients hessians : Option (Nat → ℚ))
    (s : RGF L) : ℚ × Option ((Nat → ℚ) × (Nat → ℚ)) × RGF L :=
  match gradients, hessians with
  | some g, some h => (0, some (g, h), s)
  | _, _ => (BoostFromAverage env s, none, Boosting env s)

/-- Lines 55-137. `none` is the abort of a failed assertion in `FullyCorrectiveUpdate`. -/
def TrainOneIter (env : Collaborators L) (gradients hessians : Option (Nat → ℚ)) (s : RGF L) :
    Option (Outcome L) :=
  let b := TrainOneIter.boost env gradients hessians s
  match TrainOneIter.loop env b.2.1 b.1 0 b.2.2.num_tree_per_iteration_ ⟨b.2.2, false, []⟩ with
  | none => none
  | some r =>
    if !r.should_continue then
      some ⟨true, { r.self with models_ := popBack r.self.num_tree_per_iteration_ r.self.models_ },
        r.log⟩
    else
      some ⟨false, { r.self with iter_ := r.self.iter_ + 1 }, r.log⟩

/-! ## Properties used by the claims (definitions) -/

/-- The members that neither `TrainOneIter` nor `FullyCorrectiveUpdate` writes, except `iter_`,
which only the last line of `TrainOneIter` increments. -/
structure SameSetup (s t : RGF L) : Prop where
  iter_ : t.iter_ = s.iter_
  num_tree_per_iteration_ : t.num_tree_per_iteration_ = s.num_tree_per_iteration_
  num_data_ : t.num_data_ = s.num_data_
  class_need_train_ : t.class_need_train_ = s.class_need_train_
  class_default_output_ : t.class_default_output_ = s.class_default_output_
  shrinkage_rate_ : t.shrinkage_rate_ = s.shrinkage_rate_

/-- The learner's `FitByExistingTree` returns a tree with the leaf count of the tree it is given,
so that the assertion of line 157 holds. -/
def RefitKeepsLeaves (env : Collaborators L) : Prop :=
  ∀ l t g h, (env.FitByExistingTree l t g h).1.num_leaves = t.num_leaves

/-- Some channel of the round acquired a tree with more than one leaf. -/
def Productive (log : List Event) : Prop :=
  ∃ c t, Event.acquired c t ∈ log ∧ 1 < t.num_leaves

/-- Successive calls of `TrainOneIter`, one per entry of `calls` (the buffers the caller
supplies), whatever each of them reports; the records of the calls are concatenated. -/
def TrainIters (env : Collaborators L) :
    List (Option (Nat → ℚ) × Option (Nat → ℚ)) → RGF L → Option (RGF L × List Event)
  | [], s => some (s, [])
  | call :: calls, s =>
    match TrainOneIter env call.1 call.2 s with
    | none => none
    | some o =>
      match TrainIters env calls o.self with
      | none => none
      | some res => some (res.1, o.log ++ res.2)

/-- Sum of the contributions, for a row of covariates, of the trees of channel `c` among
`models`, whose first entry has the flat index `index`: "round r, channel c maps to flat index
`r * numChannels + c`". -/
def contribution (num_tree_per_iteration c : Nat) (row : List ℚ) : Nat → List Tree → ℚ
  | _, [] => 0
  | index, tree :: models =>
    (if index % num_tree_per_iteration = c then tree.Predict row else 0) +
      contribution num_tree_per_iteration c row (index + 1) models

/-- Score consistency: the training ScoreCache equals, for every channel and data point, the sum
of the contributions of the trees and constants in the ensemble. -/
def ScoreConsistent (s : RGF L) : Prop :=
  ∀ c < s.num_tree_per_iteration_, ∀ i < s.train_score_updater_.num_data_,
    s.train_score_updater_.score_ (s.train_score_updater_.num_data_ * c + i) =
      contribution s.num_tree_per_iteration_ c (s.train_score_updater_.data_ i) 0 s.models_

/-- The channel an event belongs to; a refit belongs to none. -/
def Event.channel : Event → Option Nat
  | .acquired c _ => some c
  | .updateScore c _ => some c
  | .addBias c _ => some c
  | .defaultOutput c _ => some c
  | .pushBack c _ => some c
  | .refit _ => none

/-- The events of channel `c` in a record, in order. -/
def eventsOf (c : Nat) (log : List Event) : List Event :=
  log.filter fun e => e.channel = some c

/-- Whether an event is a call of `FullyCorrectiveUpdate`. -/
def Event.isRefit : Event → Bool
  | .refit _ => true
  | _ => false

/-- Whether an event is a `models_.push_back`. -/
def Event.isPushBack : Event → Bool
  | .pushBack _ _ => true
  | _ => false

/-- The order of appends (`false`) and refits (`true`) in a record. -/
def schedule (log : List Event) : List Bool :=
  (log.filter fun e => e.isPushBack || e.isRefit).map Event.isRefit

/-- The events that one channel step adds to the record. -/
def TrainOneIter.events (env : Collaborators L) (ext : Option ((Nat → ℚ) × (Nat → ℚ)))
    (init_score : ℚ) (c : Nat) (r : Round L) : List Event :=
  (TrainOneIter.channel env ext init_score c r).log.drop r.log.length

/-- The schedule with a refit after every append: `n` times append, refit. -/
def refitAfterEveryAppend : Nat → List Bool
  | 0 => []
  | n + 1 => false :: true :: refitAfterEveryAppend n

/-- Between the partitions `u` and `u'` (same size), the score of every data point in channel
`c` moved by exactly `delta`. -/
def ChannelShift (c : Nat) (delta : ℚ) (u u' : ScoreUpdater) : Prop :=
  u'.num_data_ = u.num_data_ ∧
    ∀ i < u.num_data_, u'.score_ (u.num_data_ * c + i) = u.score_ (u.num_data_ * c + i) + delta

/-- The channels whose acquired tree a record holds, in order. -/
def acquiredChannels (log : List Event) : List Nat :=
  log.filterMap fun e =>
    match e with
    | .acquired c _ => some c
    | _ => none

/-- Lines 146-156 of one visit: the tree that `FitByExistingTree` returns for
`models_[model_index]` from gradients recomputed from the current training ScoreCache, and the
learner after the call. -/
def FullyCorrectiveUpdate.fit (env : Collaborators L) (model_index tree_id : Nat) (s : RGF L) :
    Tree × L :=
  let gh := env.GetGradients s.train_score_updater_.score_
  let bias := tree_id * s.num_data_
  env.FitByExistingTree s.tree_learner_ (s.models_.getD model_index (Tree.new 2))
    (shift gh.1 bias) (shift gh.2 bias)

/-- The refit pass as the spec words it ("round r, channel c maps to flat index
`r * numChannels + c`", "a single forward sweep"): `count` visits in the order of the flat
indices from `start` on, the index `k` being visited as round `k / num_tree_per_iteration_`,
channel `k % num_tree_per_iteration_`. -/
def FullyCorrectiveUpdate.sweep (env : Collaborators L) :
    Nat → Nat → RGF L × List Nat → Option (RGF L × List Nat)
  | _, 0, st => some st
  | start, count + 1, st =>
    match FullyCorrectiveUpdate.body env (start / st.1.num_tree_per_iteration_)
        (start % st.1.num_tree_per_iteration_) st with
    | none => none
    | some st => FullyCorrectiveUpdate.sweep env (start + 1) count st

/-- State of the round when the loop of `TrainOneIter` arrives at channel `c`: the boosting
step and the channels `0, ..., c - 1` (each with its refit check) are done. -/
def TrainOneIter.arrival (env : Collaborators L) (gradients hessians : Option (Nat → ℚ))
    (s : RGF L) (c : Nat) : Option (Round L) :=
  let b := TrainOneIter.boost env gradients hessians s
  TrainOneIter.loop env b.2.1 b.1 0 c ⟨b.2.2, false, []⟩

/-- Trees of the `push_back` calls of a record, in the order of the calls. -/
def pushedTrees (log : List Event) : List Tree :=
  log.filterMap fun e =>
    match e with
    | .pushBack _ tree => some tree
    | _ => none

/-- Channel `c` has no entry in an ensemble laid out round by round: no flat index `j` of the
ensemble has `j % num_tree_per_iteration = c`. -/
def ChannelHasNoEntry (num_tree_per_iteration c : Nat) (models : List Tree) : Prop :=
  ∀ j, j < models.length → j % num_tree_per_iteration ≠ c

/-- Between the score caches `u` and `u'` of one partition the scores of channel `c` have
grown, data point by data point, by `f` of the row of the data point; the rows are the same. -/
def ChannelAdds (c : Nat) (f : List ℚ → ℚ) (u u' : ScoreUpdater) : Prop :=
  u'.num_data_ = u.num_data_ ∧ u'.data_ = u.data_ ∧
    ∀ i < u.num_data_,
      u'.score_ (u.num_data_ * c + i) = u.score_ (u.num_data_ * c + i) + f (u.data_ i)

/-! ## Concrete inputs -/

/-- A tree with two leaves: rows with a non-positive first covariate go to leaf 0. -/
def twoLeaves : Tree := ⟨[1, -1], .split 0 0 (.leaf 0) (.leaf 1)⟩

/-- A tree with three leaves, outputs `1.0, -0.5, 2.0`: a row whose first covariate is `i`
goes to leaf `i` for `i = 0, 1, 2`. -/
def threeLeaves : Tree := ⟨[1, -1/2, 2], .split 0 0 (.leaf 0) (.split 0 1 (.leaf 1) (.leaf 2))⟩

/-- A partition of three data points, point `i` with the single covariate `i`, all scores zero. -/
def samplePartition : ScoreUpdater := ⟨fun i => [(i : ℚ)], 3, fun _ => 0⟩

/-- A booster over `samplePartition` with one validation partition, shrinkage rate `0.1`; the
state of its learner is the number of `Train` calls made so far. -/
def sampleBooster (iter num_tree_per_iteration : Nat) (models : List Tree)
    (class_need_train : Nat → Bool) (class_default_output : Nat → ℚ) : RGF Nat where
  iter_ := iter
  num_tree_per_iteration_ := num_tree_per_iteration
  num_data_ := 3
  models_ := models
  class_need_train_ := class_need_train
  class_default_output_ := class_default_output
  shrinkage_rate_ := 1 / 10
  is_constant_hessian_ := false
  gradients_ := fun _ => 0
  hessians_ := fun _ => 0
  bag_data_indices_ := []
  bag_data_cnt_ := 0
  train_score_updater_ := samplePartition
  valid_score_updater_ := [samplePartition]
  tree_learner_ := 0

/-- Collaborators with `kEpsilon = 1e-12`: the `n`-th call of `Train` (counted from 0) fits
`fit n`, the learner renews no output, and refits a tree to `refit` of it; the mean objective
response is `mean`. -/
def sampleCollaborators (fit : Nat → Tree) (refit : Tree → Tree) (mean : ℚ) :
    Collaborators Nat where
  kEpsilon := 1 / 1000000000000
  MeanResponse := fun _ => mean
  GetGradients := fun _ => (fun _ => 0, fun _ => 0)
  Train := fun n _ _ _ => (fit n, n + 1)
  RenewTreeOutput := fun n t _ _ _ _ => (t, n)
  FitByExistingTree := fun n t _ _ => (refit t, n)

/-- A fresh booster with two channels: channel 0 needs training, channel 1 does not and has the
default output `0.7`. -/
def freshTwoChannel : RGF Nat := sampleBooster 0 2 [] (fun c => c = 0) (fun _ => 7 / 10)

/-- A learner that finds a split on every call: it always fits `twoLeaves`. -/
def splittingLearner : Collaborators Nat := sampleCollaborators (fun _ => twoLeaves) id 0

/-- A learner that never finds a split: it always returns a fresh single-leaf tree. -/
def stuckLearner : Collaborators Nat := sampleCollaborators (fun _ => Tree.new 2) id 0

/-- The training score of data point `i` in channel `c` after a call, and what the ensemble
contributes to it. -/
def scoreAndContribution (c i : Nat) (o : Outcome L) : ℚ × ℚ :=
  (o.self.train_score_updater_.score_ (o.self.train_score_updater_.num_data_ * c + i),
    contribution o.self.num_tree_per_iteration_ c (o.self.train_score_updater_.data_ i) 0
      o.self.models_)

/-- A fresh booster with one channel, which needs training. -/
def freshOneChannel : RGF Nat := sampleBooster 0 1 [] (fun _ => true) (fun _ => 0)

/-- The learner of the one-channel scenario: it always fits `threeLeaves`, and the mean objective
response, hence the cold-start bias of a fresh booster, is `0.2`. -/
def scenarioLearner : Collaborators Nat := sampleCollaborators (fun _ => threeLeaves) id (1 / 5)

/-- The learner `splittingLearner` with a mean objective response, hence a cold-start bias on a
fresh booster, of `0.2`. -/
def biasedLearner : Collaborators Nat := sampleCollaborators (fun _ => twoLeaves) id (1 / 5)

/-- A one-channel booster at `iter_ = 100`, where the refit is due, whose ensemble holds one
two-leaf tree. -/
def refitBooster : RGF Nat := sampleBooster 100 1 [twoLeaves] (fun _ => true) (fun _ => 0)

/-- A learner that breaks the contract of `FitByExistingTree`: it fits `twoLeaves` and refits
every tree to `threeLeaves`. -/
def leafBreakingLearner : Collaborators Nat :=
  sampleCollaborators (fun _ => twoLeaves) (fun _ => threeLeaves) 0

/-- A one-channel booster whose training scores are the predictions of its only tree. -/
def consistentBooster : RGF Nat :=
  { sampleBooster 1 1 [twoLeaves] (fun _ => true) (fun _ => 0) with
    train_score_updater_ := samplePartition.AddScore twoLeaves 0 }

/-- A learner whose `FitByExistingTree` raises every leaf output of the given tree by one. -/
def shiftingLearner : Collaborators Nat :=
  sampleCollaborators (fun _ => twoLeaves) (fun t => t.AddBias 1) 0

/-- A one-channel booster at round 100 whose training and validation scores are both the
predictions of its only tree. -/
def validatedBooster : RGF Nat :=
  { sampleBooster 100 1 [twoLeaves] (fun _ => true) (fun _ => 0) with
    train_score_updater_ := samplePartition.AddScore twoLeaves 0
    valid_score_updater_ := [samplePartition.AddScore twoLeaves 0] }

/-- A two-channel booster after one complete round; channel 1 is not trained. -/
def secondRoundBooster : RGF Nat :=
  sampleBooster 1 2 [twoLeaves, Tree.new 2] (fun c => c = 0) (fun _ => 7 / 10)

/-- A learner as `splittingLearner` whose objective returns the gradients `1` and the hessians
`2` everywhere. -/
def gradientLearner : Collaborators Nat :=
  { splittingLearner with GetGradients := fun _ => (fun _ => 1, fun _ => 2) }

/-- A learner as `splittingLearner` with the mean response `0.5`. -/
def coldLearner : Collaborators Nat := sampleCollaborators (fun _ => twoLeaves) id (1 / 2)

/-! ## Frame lemmas -/

theorem SameSetup.refl (s : RGF L) : SameSetup s s := ⟨rfl, rfl, rfl, rfl, rfl, rfl⟩

theorem SameSetup.trans {s t u : RGF L} (h₁ : SameSetup s t) (h₂ : SameSetup t u) :
    SameSetup s u :=
  ⟨h₂.iter_.trans h₁.iter_, h₂.num_tree_per_iteration_.trans h₁.num_tree_per_iteration_,
    h₂.num_data_.trans h₁.num_data_, h₂.class_need_train_.trans h₁.class_need_train_,
    h₂.class_default_output_.trans h₁.class_default_output_,
    h₂.shrinkage_rate_.trans h₁.shrinkage_rate_⟩

theorem FullyCorrectiveUpdate.body_spec (env : Collaborators L) (iter tree_id : Nat)
    (st st' : RGF L × List Nat) (h : FullyCorrectiveUpdate.body env iter tree_id st = some st') :
    SameSetup st.1 st'.1 ∧ st'.1.models_.length = st.1.models_.length ∧
      st'.1.valid_score_updater_ = st.1.valid_score_updater_ := by
  unfold FullyCorrectiveUpdate.body at h
  simp only at h
  split_ifs at h with hl
  simp only [Option.some.injEq] at h
  subst h
  refine ⟨⟨rfl, rfl, rfl, rfl, rfl, rfl⟩, ?_, rfl⟩
  simp

theorem FullyCorrectiveUpdate.trees_spec (env : Collaborators L) (iter : Nat) :
    ∀ (todo tree_id : Nat) (st st' : RGF L × List Nat),
      FullyCorrectiveUpdate.trees env iter tree_id todo st = some st' →
      SameSetup st.1 st'.1 ∧ st'.1.models_.length = st.1.models_.length ∧
        st'.1.valid_score_updater_ = st.1.valid_score_updater_
  | 0, _, st, st', h => by
    simp only [FullyCorrectiveUpdate.trees, Option.some.injEq] at h
    subst h
    exact ⟨SameSetup.refl _, rfl, rfl⟩
  | todo + 1, tree_id, st, st', h => by
    simp only [FullyCorrectiveUpdate.trees] at h
    cases hb : FullyCorrectiveUpdate.body env iter tree_id st with
    | none => simp [hb] at h
    | some st₁ =>
      simp only [hb] at h
      obtain ⟨a₁, b₁, c₁⟩ := FullyCorrectiveUpdate.body_spec env iter tree_id st st₁ hb
      obtain ⟨a₂, b₂, c₂⟩ := FullyCorrectiveUpdate.trees_spec env iter todo (tree_id + 1) st₁ st' h
      exact ⟨a₁.trans a₂, b₂.trans b₁, c₂.trans c₁⟩

theorem FullyCorrectiveUpdate.iters_spec (env : Collaborators L) :
    ∀ (todo iter : Nat) (st st' : RGF L × List Nat),
      FullyCorrectiveUpdate.iters env iter todo st = some st' →
      SameSetup st.1 st'.1 ∧ st'.1.models_.length = st.1.models_.length ∧
        st'.1.valid_score_updater_ = st.1.valid_score_updater_
  | 0, _, st, st', h => by
    simp only [FullyCorrectiveUpdate.iters, Option.some.injEq] at h
    subst h
    exact ⟨SameSetup.refl _, rfl, rfl⟩
  | todo + 1, iter, st, st', h => by
    simp only [FullyCorrectiveUpdate.iters] at h
    cases hb : FullyCorrectiveUpdate.trees env iter 0 st.1.num_tree_per_iteration_ st with
    | none => simp [hb] at h
    | some st₁ =>
      simp only [hb] at h
      obtain ⟨a₁, b₁, c₁⟩ := FullyCorrectiveUpdate.trees_spec env iter _ 0 st st₁ hb
      obtain ⟨a₂, b₂, c₂⟩ := FullyCorrectiveUpdate.iters_spec env todo (iter + 1) st₁ st' h
      exact ⟨a₁.trans a₂, b₂.trans b₁, c₂.trans c₁⟩

theorem FullyCorrectiveUpdate_spec (env : Collaborators L) (s : RGF L)
    (res : Bool × RGF L × List Nat) (h : FullyCorrectiveUpdate env s = some res) :
    SameSetup s res.2.1 ∧ res.2.1.models_.length = s.models_.length ∧
      res.2.1.valid_score_updater_ = s.valid_score_updater_ := by
  unfold FullyCorrectiveUpdate at h
  simp only at h
  cases hb : FullyCorrectiveUpdate.iters env 0 (s.models_.length / s.num_tree_per_iteration_)
      (s, []) with
  | none => simp [hb] at h
  | some st₁ =>
    simp only [hb, Option.some.injEq] at h
    subst h
    exact FullyCorrectiveUpdate.iters_spec env _ 0 (s, []) st₁ hb

/-! Totality of the refit when the learner keeps the leaf counts. -/

theorem FullyCorrectiveUpdate.body_returns (env : Collaborators L) (hk : RefitKeepsLeaves env)
    (iter tree_id : Nat) (st : RGF L × List Nat) :
    ∃ st', FullyCorrectiveUpdate.body env iter tree_id st = some st' := by
  unfold FullyCorrectiveUpdate.body
  simp only
  rw [if_pos (hk _ _ _ _)]
  exact ⟨_, rfl⟩

theorem FullyCorrectiveUpdate.trees_returns (env : Collaborators L) (hk : RefitKeepsLeaves env)
    (iter : Nat) : ∀ (todo tree_id : Nat) (st : RGF L × List Nat),
      ∃ st', FullyCorrectiveUpdate.trees env iter tree_id todo st = some st'
  | 0, _, st => ⟨st, rfl⟩
  | todo + 1, tree_id, st => by
    obtain ⟨st₁, h₁⟩ := FullyCorrectiveUpdate.body_returns env hk iter tree_id st
    obtain ⟨st₂, h₂⟩ := FullyCorrectiveUpdate.trees_returns env hk iter todo (tree_id + 1) st₁
    exact ⟨st₂, by simp only [FullyCorrectiveUpdate.trees, h₁, h₂]⟩

theorem FullyCorrectiveUpdate.iters_returns (env : Collaborators L) (hk : RefitKeepsLeaves env) :
    ∀ (todo iter : Nat) (st : RGF L × List Nat),
      ∃ st', FullyCorrectiveUpdate.iters env iter todo st = some st'
  | 0, _, st => ⟨st, rfl⟩
  | todo + 1, iter, st => by
    obtain ⟨st₁, h₁⟩ :=
      FullyCorrectiveUpdate.trees_returns env hk iter st.1.num_tree_per_iteration_ 0 st
    obtain ⟨st₂, h₂⟩ := FullyCorrectiveUpdate.iters_returns env hk todo (iter + 1) st₁
    exact ⟨st₂, by simp only [FullyCorrectiveUpdate.iters, h₁, h₂]⟩

theorem FullyCorrectiveUpdate_returns (env : Collaborators L) (hk : RefitKeepsLeaves env)
    (s : RGF L) : ∃ res, FullyCorrectiveUpdate env s = some res := by
  obtain ⟨st₁, h₁⟩ := FullyCorrectiveUpdate.iters_returns env hk
    (s.models_.length / s.num_tree_per_iteration_) 0 (s, [])
  exact ⟨(true, st₁.1, st₁.2), by simp only [FullyCorrectiveUpdate, h₁]⟩

/-! ## One channel (lines 83-119) -/

theorem TrainOneIter.channel_setup (env : Collaborators L) (ext : Option ((Nat → ℚ) × (Nat → ℚ)))
    (init_score : ℚ) (c : Nat) (r : Round L) :
    SameSetup r.self (TrainOneIter.channel env ext init_score c r).self := by
  unfold TrainOneIter.channel
  simp only
  split_ifs <;> exact ⟨rfl, rfl, rfl, rfl, rfl, rfl⟩

theorem TrainOneIter.channel_should_continue (env : Collaborators L)
    (ext : Option ((Nat → ℚ) × (Nat → ℚ))) (init_score : ℚ) (c : Nat) (r : Round L) :
    ((TrainOneIter.channel env ext init_score c r).should_continue = true ↔
      r.should_continue = true ∨ 1 < (TrainOneIter.acquire env ext c r.self).1.num_leaves) := by
  unfold TrainOneIter.channel
  simp only
  split_ifs with h1 h2 h3 <;> simp_all

theorem TrainOneIter.channel_models (env : Collaborators L) (ext : Option ((Nat → ℚ) × (Nat → ℚ)))
    (init_score : ℚ) (c : Nat) (r : Round L) :
    ∃ t, (TrainOneIter.channel env ext init_score c r).self.models_ = r.self.models_ ++ [t] := by
  unfold TrainOneIter.channel
  simp only
  split_ifs <;> exact ⟨_, rfl⟩

theorem TrainOneIter.channel_log (env : Collaborators L) (ext : Option ((Nat → ℚ) × (Nat → ℚ)))
    (init_score : ℚ) (c : Nat) (r : Round L) :
    ∃ evs, (TrainOneIter.channel env ext init_score c r).log =
        r.log ++ Event.acquired c (TrainOneIter.acquire env ext c r.self).1 :: evs ∧
      ∀ c' t, Event.acquired c' t ∉ evs := by
  unfold TrainOneIter.channel
  simp only
  split_ifs
  · exact ⟨[Event.updateScore c (renewed env c r.self (acquire env ext c r.self)).1,
      Event.addBias c init_score,
      Event.pushBack c ((renewed env c r.self (acquire env ext c r.self)).1.AddBias init_score)],
      by simp, by simp⟩
  · exact ⟨[Event.updateScore c (renewed env c r.self (acquire env ext c r.self)).1,
      Event.pushBack c (renewed env c r.self (acquire env ext c r.self)).1], by simp, by simp⟩
  · exact ⟨[Event.defaultOutput c (r.self.class_default_output_ c),
      Event.pushBack c
        ((acquire env ext c r.self).1.AsConstantTree (r.self.class_default_output_ c))],
      by simp, by simp⟩
  · exact ⟨[Event.pushBack c (acquire env ext c r.self).1], by simp, by simp⟩

theorem TrainOneIter.channel_productive (env : Collaborators L)
    (ext : Option ((Nat → ℚ) × (Nat → ℚ))) (init_score : ℚ) (c : Nat) (r : Round L) :
    (Productive (TrainOneIter.channel env ext init_score c r).log ↔
      Productive r.log ∨ 1 < (TrainOneIter.acquire env ext c r.self).1.num_leaves) := by
  obtain ⟨evs, hlog, hno⟩ := TrainOneIter.channel_log env ext init_score c r
  rw [hlog]
  constructor
  · rintro ⟨c', t, hmem, hlt⟩
    simp only [List.mem_append, List.mem_cons, Event.acquired.injEq] at hmem
    rcases hmem with hmem | ⟨-, rfl⟩ | hmem
    · exact Or.inl ⟨c', t, hmem, hlt⟩
    · exact Or.inr hlt
    · exact absurd hmem (hno c' t)
  · rintro (⟨c', t, hmem, hlt⟩ | hlt)
    · exact ⟨c', t, List.mem_append_left _ hmem, hlt⟩
    · exact ⟨c, _, List.mem_append_right _ (List.mem_cons_self _ _), hlt⟩

/-! The four ways through a channel. -/

theorem TrainOneIter.channel_accepted_bias (env : Collaborators L)
    (ext : Option ((Nat → ℚ) × (Nat → ℚ))) (init_score : ℚ) (c : Nat) (r : Round L)
    (hacc : 1 < (TrainOneIter.acquire env ext c r.self).1.num_leaves)
    (hbias : |init_score| > env.kEpsilon) :
    TrainOneIter.channel env ext init_score c r =
      { self :=
          { UpdateScore { r.self with tree_learner_ :=
                (TrainOneIter.renewed env c r.self (TrainOneIter.acquire env ext c r.self)).2 }
              (TrainOneIter.renewed env c r.self (TrainOneIter.acquire env ext c r.self)).1 c with
            models_ := r.self.models_ ++
              [(TrainOneIter.renewed env c r.self
                (TrainOneIter.acquire env ext c r.self)).1.AddBias init_score] }
        should_continue := true
        log := r.log ++ [Event.acquired c (TrainOneIter.acquire env ext c r.self).1,
          Event.updateScore c
            (TrainOneIter.renewed env c r.self (TrainOneIter.acquire env ext c r.self)).1,
          Event.addBias c init_score,
          Event.pushBack c ((TrainOneIter.renewed env c r.self
            (TrainOneIter.acquire env ext c r.self)).1.AddBias init_score)] } := by
  unfold TrainOneIter.channel
  simp only
  rw [if_pos hacc, if_pos hbias]
  simp [UpdateScore]

theorem TrainOneIter.channel_accepted_plain (env : Collaborators L)
    (ext : Option ((Nat → ℚ) × (Nat → ℚ))) (init_score : ℚ) (c : Nat) (r : Round L)
    (hacc : 1 < (TrainOneIter.acquire env ext c r.self).1.num_leaves)
    (hbias : ¬ |init_score| > env.kEpsilon) :
    TrainOneIter.channel env ext init_score c r =
      { self :=
          { UpdateScore { r.self with tree_learner_ :=
                (TrainOneIter.renewed env c r.self (TrainOneIter.acquire env ext c r.self)).2 }
              (TrainOneIter.renewed env c r.self (TrainOneIter.acquire env ext c r.self)).1 c with
            models_ := r.self.models_ ++
              [(TrainOneIter.renewed env c r.self (TrainOneIter.acquire env ext c r.self)).1] }
        should_continue := true
        log := r.log ++ [Event.acquired c (TrainOneIter.acquire env ext c r.self).1,
          Event.updateScore c
            (TrainOneIter.renewed env c r.self (TrainOneIter.acquire env ext c r.self)).1,
          Event.pushBack c
            (TrainOneIter.renewed env c r.self (TrainOneIter.acquire env ext c r.self)).1] } := by
  unfold TrainOneIter.channel
  simp only
  rw [if_pos hacc, if_neg hbias]
  simp [UpdateScore]

theorem TrainOneIter.channel_default (env : Collaborators L)
    (ext : Option ((Nat → ℚ) × (Nat → ℚ))) (init_score : ℚ) (c : Nat) (r : Round L)
    (hle : (TrainOneIter.acquire env ext c r.self).1.num_leaves ≤ 1)
    (hneed : r.self.class_need_train_ c = false)
    (hlen : r.self.models_.length < r.self.num_tree_per_iteration_) :
    TrainOneIter.channel env ext init_score c r =
      { self :=
          { r.self with
            tree_learner_ := (TrainOneIter.acquire env ext c r.self).2
            train_score_updater_ :=
              r.self.train_score_updater_.AddScoreConstant (r.self.class_default_output_ c) c
            valid_score_updater_ := r.self.valid_score_updater_.map
              fun u => u.AddScoreConstant (r.self.class_default_output_ c) c
            models_ := r.self.models_ ++ [(TrainOneIter.acquire env ext c r.self).1.AsConstantTree
              (r.self.class_default_output_ c)] }
        should_continue := r.should_continue
        log := r.log ++ [Event.acquired c (TrainOneIter.acquire env ext c r.self).1,
          Event.defaultOutput c (r.self.class_default_output_ c),
          Event.pushBack c ((TrainOneIter.acquire env ext c r.self).1.AsConstantTree
            (r.self.class_default_output_ c))] } := by
  unfold TrainOneIter.channel
  simp only
  rw [if_neg (by omega), if_pos ⟨by simp [hneed], hlen⟩]
  simp

theorem TrainOneIter.channel_placeholder (env : Collaborators L)
    (ext : Option ((Nat → ℚ) × (Nat → ℚ))) (init_score : ℚ) (c : Nat) (r : Round L)
    (hle : (TrainOneIter.acquire env ext c r.self).1.num_leaves ≤ 1)
    (hno : r.self.class_need_train_ c = true ∨
      r.self.num_tree_per_iteration_ ≤ r.self.models_.length) :
    TrainOneIter.channel env ext init_score c r =
      { self :=
          { r.self with
            tree_learner_ := (TrainOneIter.acquire env ext c r.self).2
            models_ := r.self.models_ ++ [(TrainOneIter.acquire env ext c r.self).1] }
        should_continue := r.should_continue
        log := r.log ++ [Event.acquired c (TrainOneIter.acquire env ext c r.self).1,
          Event.pushBack c (TrainOneIter.acquire env ext c r.self).1] } := by
  unfold TrainOneIter.channel
  simp only
  rw [if_neg (by omega), if_neg]
  · simp
  · rintro ⟨h₁, h₂⟩
    rcases hno with h | h
    · simp [h] at h₁
    · omega

/-! ## The refit check (lines 121-124) -/

theorem TrainOneIter.refit_of_not_due (env : Collaborators L) (r : Round L)
    (h : ¬ RefitDue r.self) : TrainOneIter.refit env r = some r := by
  unfold TrainOneIter.refit
  rw [if_neg h]

theorem TrainOneIter.refit_spec (env : Collaborators L) (r r' : Round L)
    (h : TrainOneIter.refit env r = some r') :
    SameSetup r.self r'.self ∧ r'.self.models_.length = r.self.models_.length ∧
      r'.should_continue = r.should_continue ∧
      r'.self.valid_score_updater_ = r.self.valid_score_updater_ ∧
      (r'.log = r.log ∨ ∃ visited, r'.log = r.log ++ [Event.refit visited]) := by
  unfold TrainOneIter.refit at h
  split_ifs at h with hd
  · cases hf : FullyCorrectiveUpdate env r.self with
    | none => simp [hf] at h
    | some res =>
      simp only [hf, Option.some.injEq] at h
      subst h
      obtain ⟨a, b, c⟩ := FullyCorrectiveUpdate_spec env r.self res hf
      exact ⟨a, b, rfl, c, Or.inr ⟨_, rfl⟩⟩
  · simp only [Option.some.injEq] at h
    subst h
    exact ⟨SameSetup.refl _, rfl, rfl, rfl, Or.inl rfl⟩

theorem TrainOneIter.refit_productive (env : Collaborators L) (r r' : Round L)
    (h : TrainOneIter.refit env r = some r') : (Productive r'.log ↔ Productive r.log) := by
  obtain ⟨-, -, -, -, hlog | ⟨v, hlog⟩⟩ := TrainOneIter.refit_spec env r r' h
  · rw [hlog]
  · rw [hlog]
    unfold Productive
    simp

theorem TrainOneIter.refit_returns (env : Collaborators L) (r : Round L)
    (h : ¬ RefitDue r.self ∨ RefitKeepsLeaves env) : ∃ r', TrainOneIter.refit env r = some r' := by
  by_cases hd : RefitDue r.self
  · rcases h with h | h
    · exact absurd hd h
    · obtain ⟨res, hres⟩ := FullyCorrectiveUpdate_returns env h r.self
      exact ⟨{ r with self := res.2.1, log := r.log ++ [Event.refit res.2.2] },
        by unfold TrainOneIter.refit; rw [if_pos hd]; simp only [hres]⟩
  · exact ⟨r, TrainOneIter.refit_of_not_due env r hd⟩

/-! ## The loop over the channels (lines 78-125) -/

theorem RefitDue_congr {s t : RGF L} (h : SameSetup s t) : (RefitDue t ↔ RefitDue s) := by
  unfold RefitDue
  rw [h.iter_]

theorem TrainOneIter.loop_spec (env : Collaborators L) (ext : Option ((Nat → ℚ) × (Nat → ℚ)))
    (init_score : ℚ) : ∀ (todo c : Nat) (r r' : Round L),
      TrainOneIter.loop env ext init_score c todo r = some r' →
      SameSetup r.self r'.self ∧ r'.self.models_.length = r.self.models_.length + todo ∧
        ((r.should_continue = true ↔ Productive r.log) →
          (r'.should_continue = true ↔ Productive r'.log))
  | 0, _, r, r', h => by
    simp only [TrainOneIter.loop, Option.some.injEq] at h
    subst h
    exact ⟨SameSetup.refl _, rfl, id⟩
  | todo + 1, c, r, r', h => by
    simp only [TrainOneIter.loop] at h
    cases hr : TrainOneIter.refit env (TrainOneIter.channel env ext init_score c r) with
    | none => simp [hr] at h
    | some r₁ =>
      simp only [hr] at h
      obtain ⟨a₁, b₁, c₁, -, -⟩ := TrainOneIter.refit_spec env _ r₁ hr
      obtain ⟨a₂, b₂, c₂⟩ := TrainOneIter.loop_spec env ext init_score todo (c + 1) r₁ r' h
      obtain ⟨t, ht⟩ := TrainOneIter.channel_models env ext init_score c r
      refine ⟨((TrainOneIter.channel_setup env ext init_score c r).trans a₁).trans a₂, ?_, ?_⟩
      · rw [b₂, b₁, ht]
        simp only [List.length_append, List.length_singleton]
        omega
      · intro hinv
        apply c₂
        rw [c₁, TrainOneIter.refit_productive env _ r₁ hr,
          TrainOneIter.channel_should_continue, TrainOneIter.channel_productive, hinv]

theorem TrainOneIter.loop_returns (env : Collaborators L) (ext : Option ((Nat → ℚ) × (Nat → ℚ)))
    (init_score : ℚ) : ∀ (todo c : Nat) (r : Round L),
      (¬ RefitDue r.self ∨ RefitKeepsLeaves env) →
      ∃ r', TrainOneIter.loop env ext init_score c todo r = some r'
  | 0, _, r, _ => ⟨r, rfl⟩
  | todo + 1, c, r, h => by
    have hs := TrainOneIter.channel_setup env ext init_score c r
    obtain ⟨r₁, h₁⟩ := TrainOneIter.refit_returns env (TrainOneIter.channel env ext init_score c r)
      (h.imp (fun hn hd => hn ((RefitDue_congr hs).1 hd)) id)
    have hs₁ := (TrainOneIter.refit_spec env _ r₁ h₁).1
    obtain ⟨r₂, h₂⟩ := TrainOneIter.loop_returns env ext init_score todo (c + 1) r₁
      (h.imp (fun hn hd => hn ((RefitDue_congr (hs.trans hs₁)).1 hd)) id)
    exact ⟨r₂, by simp only [TrainOneIter.loop, h₁, h₂]⟩

theorem TrainOneIter.boost_setup (env : Collaborators L) (gradients hessians : Option (Nat → ℚ))
    (s : RGF L) : SameSetup s (TrainOneIter.boost env gradients hessians s).2.2 ∧
      (TrainOneIter.boost env gradients hessians s).2.2.models_ = s.models_ ∧
      (TrainOneIter.boost env gradients hessians s).2.2.train_score_updater_ =
        s.train_score_updater_ ∧
      (TrainOneIter.boost env gradients hessians s).2.2.valid_score_updater_ =
        s.valid_score_updater_ := by
  unfold TrainOneIter.boost
  split
  · exact ⟨SameSetup.refl _, rfl, rfl, rfl⟩
  · exact ⟨⟨rfl, rfl, rfl, rfl, rfl, rfl⟩, rfl, rfl, rfl⟩

theorem popBack_length : ∀ (n : Nat) (models : List Tree),
    (popBack n models).length = models.length - n
  | 0, _ => rfl
  | n + 1, models => by
    rw [popBack, popBack_length n, List.length_dropLast]
    omega

theorem popBack_append : ∀ (n : Nat) (models added : List Tree), added.length = n →
    popBack n (models ++ added) = models
  | 0, models, added, h => by
    rw [List.length_eq_zero] at h
    simp [h, popBack]
  | n + 1, models, added, h => by
    have hne : added ≠ [] := by
      intro h0
      simp [h0] at h
    rw [popBack, List.dropLast_append_of_ne_nil _ hne]
    exact popBack_append n models added.dropLast (by rw [List.length_dropLast, h]; rfl)

/-- What every call of `TrainOneIter` that returns does to `iter_` and the ensemble length. -/
theorem TrainOneIter_spec (env : Collaborators L) (gradients hessians : Option (Nat → ℚ))
    (s : RGF L) (o : Outcome L) (h : TrainOneIter env gradients hessians s = some o) :
    o.self.num_tree_per_iteration_ = s.num_tree_per_iteration_ ∧
      (o.finished = true ↔ ¬ Productive o.log) ∧
      (o.finished = true →
        o.self.iter_ = s.iter_ ∧ o.self.models_.length = s.models_.length) ∧
      (o.finished = false →
        o.self.iter_ = s.iter_ + 1 ∧
        o.self.models_.length = s.models_.length + s.num_tree_per_iteration_) := by
  unfold TrainOneIter at h
  simp only at h
  obtain ⟨hb, hm, -, -⟩ := TrainOneIter.boost_setup env gradients hessians s
  generalize TrainOneIter.boost env gradients hessians s = b at h hb hm
  cases hl : TrainOneIter.loop env b.2.1 b.1 0 b.2.2.num_tree_per_iteration_
      ⟨b.2.2, false, []⟩ with
  | none => simp [hl] at h
  | some r =>
    simp only [hl] at h
    obtain ⟨hs, hlen, hinv⟩ := TrainOneIter.loop_spec env _ _ _ 0 _ r hl
    have hinv := hinv (by simp [Productive])
    simp only at hs hlen
    have hs := hb.trans hs
    rw [hm, hb.num_tree_per_iteration_] at hlen
    cases hsc : r.should_continue with
    | false =>
      simp only [hsc, Bool.not_false, if_true, Option.some.injEq] at h
      subst h
      simp only [hsc, Bool.false_eq_true, false_iff] at hinv
      refine ⟨hs.num_tree_per_iteration_, by simpa using hinv, fun _ => ⟨hs.iter_, ?_⟩, by simp⟩
      simp only [popBack_length, hlen, hs.num_tree_per_iteration_]
      omega
    | true =>
      simp only [hsc, Bool.not_true, Bool.false_eq_true, if_false, Option.some.injEq] at h
      subst h
      simp only [hsc, true_iff] at hinv
      refine ⟨hs.num_tree_per_iteration_, by simpa using hinv, by simp, fun _ => ?_⟩
      simp only [hs.iter_, hlen, and_self]

/-- Whether `TrainOneIter` returns: it does unless a refit is due and the learner breaks the
leaf-count contract of `FitByExistingTree`. -/
theorem TrainOneIter_returns (env : Collaborators L) (gradients hessians : Option (Nat → ℚ))
    (s : RGF L) (h : ¬ RefitDue s ∨ RefitKeepsLeaves env) :
    ∃ o, TrainOneIter env gradients hessians s = some o := by
  obtain ⟨hb, -, -, -⟩ := TrainOneIter.boost_setup env gradients hessians s
  obtain ⟨r, hr⟩ := TrainOneIter.loop_returns env
    (TrainOneIter.boost env gradients hessians s).2.1
    (TrainOneIter.boost env gradients hessians s).1
    (TrainOneIter.boost env gradients hessians s).2.2.num_tree_per_iteration_ 0
    ⟨(TrainOneIter.boost env gradients hessians s).2.2, false, []⟩
    (h.imp (fun hn hd => hn ((RefitDue_congr hb).1 hd)) id)
  unfold TrainOneIter
  simp only [hr]
  split_ifs
  · exact ⟨_, rfl⟩
  · exact ⟨_, rfl⟩

/-! ## Rounds that change nothing -/

theorem TrainOneIter.loop_log (env : Collaborators L) (ext : Option ((Nat → ℚ) × (Nat → ℚ)))
    (init_score : ℚ) : ∀ (todo c : Nat) (r r' : Round L),
      TrainOneIter.loop env ext init_score c todo r = some r' → ∃ evs, r'.log = r.log ++ evs
  | 0, _, r, r', h => by
    simp only [TrainOneIter.loop, Option.some.injEq] at h
    subst h
    exact ⟨[], by simp⟩
  | todo + 1, c, r, r', h => by
    simp only [TrainOneIter.loop] at h
    cases hr : TrainOneIter.refit env (TrainOneIter.channel env ext init_score c r) with
    | none => simp [hr] at h
    | some r₁ =>
      simp only [hr] at h
      obtain ⟨evs₁, h₁, -⟩ := TrainOneIter.channel_log env ext init_score c r
      obtain ⟨evs₃, h₃⟩ := TrainOneIter.loop_log env ext init_score todo (c + 1) r₁ r' h
      obtain ⟨-, -, -, -, h₂ | ⟨v, h₂⟩⟩ := TrainOneIter.refit_spec env _ r₁ hr
      · exact ⟨_, by rw [h₃, h₂, h₁, List.append_assoc]⟩
      · exact ⟨_, by rw [h₃, h₂, h₁, List.append_assoc, List.append_assoc]⟩

/-- A channel that acquires a single-leaf tree and does not qualify for the default output
appends that tree and touches no score. -/
theorem TrainOneIter.channel_quiet (env : Collaborators L) (ext : Option ((Nat → ℚ) × (Nat → ℚ)))
    (init_score : ℚ) (c : Nat) (r : Round L)
    (hle : (TrainOneIter.acquire env ext c r.self).1.num_leaves ≤ 1)
    (hnd : r.self.models_.length < r.self.num_tree_per_iteration_ →
      r.self.class_need_train_ c = true) :
    (TrainOneIter.channel env ext init_score c r).self.models_ =
        r.self.models_ ++ [(TrainOneIter.acquire env ext c r.self).1] ∧
      (TrainOneIter.channel env ext init_score c r).self.train_score_updater_ =
        r.self.train_score_updater_ ∧
      (TrainOneIter.channel env ext init_score c r).self.valid_score_updater_ =
        r.self.valid_score_updater_ ∧
      (TrainOneIter.channel env ext init_score c r).should_continue = r.should_continue := by
  unfold TrainOneIter.channel
  simp only
  rw [if_neg (by omega)]
  split_ifs with hg
  · exfalso
    obtain ⟨hg₁, hg₂⟩ := hg
    rw [hnd hg₂] at hg₁
    simp at hg₁
  · exact ⟨rfl, rfl, rfl, rfl⟩

theorem TrainOneIter.loop_quiet (env : Collaborators L) (ext : Option ((Nat → ℚ) × (Nat → ℚ)))
    (init_score : ℚ) : ∀ (todo c : Nat) (r r' : Round L),
      TrainOneIter.loop env ext init_score c todo r = some r' →
      ¬ RefitDue r.self →
      (∀ j, r.self.models_.length + j < r.self.num_tree_per_iteration_ →
        r.self.class_need_train_ (c + j) = true) →
      (∀ c' t, Event.acquired c' t ∈ r'.log → t.num_leaves ≤ 1) →
      (∃ added, r'.self.models_ = r.self.models_ ++ added ∧ added.length = todo) ∧
        r'.self.train_score_updater_ = r.self.train_score_updater_ ∧
        r'.self.valid_score_updater_ = r.self.valid_score_updater_ ∧
        r'.should_continue = r.should_continue
  | 0, _, r, r', h, _, _, _ => by
    simp only [TrainOneIter.loop, Option.some.injEq] at h
    subst h
    exact ⟨⟨[], by simp, rfl⟩, rfl, rfl, rfl⟩
  | todo + 1, c, r, r', h, hnr, hdef, hq => by
    simp only [TrainOneIter.loop] at h
    have hs := TrainOneIter.channel_setup env ext init_score c r
    rw [TrainOneIter.refit_of_not_due env _ (fun hd => hnr ((RefitDue_congr hs).1 hd))] at h
    simp only at h
    obtain ⟨evs₁, h₁, -⟩ := TrainOneIter.channel_log env ext init_score c r
    obtain ⟨evs₂, h₂⟩ := TrainOneIter.loop_log env ext init_score todo (c + 1) _ r' h
    have hle : (TrainOneIter.acquire env ext c r.self).1.num_leaves ≤ 1 := by
      apply hq c
      rw [h₂, h₁]
      simp
    obtain ⟨a, b, d, e⟩ := TrainOneIter.channel_quiet env ext init_score c r hle
      (fun hlt => by simpa using hdef 0 (by simpa using hlt))
    obtain ⟨⟨added, a', la⟩, b', d', e'⟩ :=
      TrainOneIter.loop_quiet env ext init_score todo (c + 1) _ r' h
        (fun hd => hnr ((RefitDue_congr hs).1 hd))
        (fun j hj => by
          rw [hs.class_need_train_, show c + 1 + j = c + (j + 1) by omega]
          apply hdef
          rw [hs.num_tree_per_iteration_, a] at hj
          simp only [List.length_append, List.length_singleton] at hj
          omega)
        hq
    refine ⟨⟨(TrainOneIter.acquire env ext c r.self).1 :: added, ?_, by simp [la]⟩,
      b'.trans b, d'.trans d, e'.trans e⟩
    rw [a', a, List.append_assoc, List.singleton_append]

/-! ## Score updates, point by point -/

theorem slice_iff (nd c cur i : Nat) (hi : i < nd) :
    (nd * cur ≤ nd * c + i ∧ nd * c + i < nd * cur + nd) ↔ c = cur := by
  constructor
  · rintro ⟨h₁, h₂⟩
    by_contra hne
    rcases Nat.lt_or_gt_of_ne hne with hlt | hgt
    · have := Nat.mul_le_mul_left nd (Nat.succ_le_of_lt hlt)
      rw [Nat.mul_succ] at this
      omega
    · have := Nat.mul_le_mul_left nd (Nat.succ_le_of_lt hgt)
      rw [Nat.mul_succ] at this
      omega
  · rintro rfl
    omega

theorem ScoreUpdater.AddScore_score (u : ScoreUpdater) (tree : Tree) (cur c i : Nat)
    (hi : i < u.num_data_) :
    (u.AddScore tree cur).score_ (u.num_data_ * c + i) =
      u.score_ (u.num_data_ * c + i) + (if c = cur then tree.Predict (u.data_ i) else 0) := by
  unfold ScoreUpdater.AddScore
  simp only [slice_iff _ _ _ _ hi]
  split_ifs with h
  · subst h
    simp
  · simp

theorem ScoreUpdater.AddScoreConstant_score (u : ScoreUpdater) (val : ℚ) (cur c i : Nat)
    (hi : i < u.num_data_) :
    (u.AddScoreConstant val cur).score_ (u.num_data_ * c + i) =
      u.score_ (u.num_data_ * c + i) + (if c = cur then val else 0) := by
  unfold ScoreUpdater.AddScoreConstant
  simp only [slice_iff _ _ _ _ hi]
  split_ifs with h <;> simp

theorem contribution_append (K c : Nat) (row : List ℚ) (t : Tree) :
    ∀ (models : List Tree) (index : Nat),
      contribution K c row index (models ++ [t]) =
        contribution K c row index models +
          (if (index + models.length) % K = c then t.Predict row else 0)
  | [], index => by simp [contribution]
  | m :: models, index => by
    have ih := contribution_append K c row t models (index + 1)
    rw [show index + 1 + models.length = index + (models.length + 1) by omega] at ih
    rw [List.cons_append, contribution, contribution, ih, List.length_cons]
    ring

theorem Tree.Predict_AsConstantTree (t : Tree) (val : ℚ) (row : List ℚ) :
    (t.AsConstantTree val).Predict row = val := by
  simp [Tree.AsConstantTree, Tree.Predict, Tree.LeafOutput, Node.GetLeaf]

theorem Tree.Predict_new (n : Nat) (row : List ℚ) : (Tree.new n).Predict row = 0 := by
  simp [Tree.new, Tree.Predict, Tree.LeafOutput, Node.GetLeaf]

/-- The partition a channel step leaves: same data, same size. -/
theorem TrainOneIter.channel_partition (env : Collaborators L)
    (ext : Option ((Nat → ℚ) × (Nat → ℚ))) (init_score : ℚ) (c : Nat) (r : Round L) :
    (TrainOneIter.channel env ext init_score c r).self.train_score_updater_.num_data_ =
        r.self.train_score_updater_.num_data_ ∧
      (TrainOneIter.channel env ext init_score c r).self.train_score_updater_.data_ =
        r.self.train_score_updater_.data_ := by
  unfold TrainOneIter.channel
  simp only
  split_ifs <;> exact ⟨rfl, rfl⟩

/-- A channel step without bias keeps the training ScoreCache consistent with the ensemble, when
the new entry gets the flat index of this channel and a single-leaf tree of the learner
contributes nothing. -/
theorem TrainOneIter.channel_consistent (env : Collaborators L)
    (ext : Option ((Nat → ℚ) × (Nat → ℚ))) (init_score : ℚ) (cur : Nat) (r : Round L)
    (hbias : |init_score| ≤ env.kEpsilon)
    (halign : r.self.models_.length % r.self.num_tree_per_iteration_ = cur)
    (hzero : (TrainOneIter.acquire env ext cur r.self).1.num_leaves ≤ 1 →
      ∀ row, (TrainOneIter.acquire env ext cur r.self).1.Predict row = 0)
    (hcons : ScoreConsistent r.self) :
    ScoreConsistent (TrainOneIter.channel env ext init_score cur r).self := by
  intro c hc i hi
  have hK := (TrainOneIter.channel_setup env ext init_score cur r).num_tree_per_iteration_
  obtain ⟨hnd, hdata⟩ := TrainOneIter.channel_partition env ext init_score cur r
  rw [hK] at hc ⊢
  rw [hnd] at hi ⊢
  rw [hdata]
  have h0 := hcons c hc i hi
  unfold TrainOneIter.channel
  simp only
  split_ifs with h1 h2 h3
  · exact absurd h2 (not_lt.mpr hbias)
  · simp only [UpdateScore, contribution_append, Nat.zero_add, halign]
    rw [ScoreUpdater.AddScore_score _ _ _ _ _ hi, h0]
    simp only [eq_comm]
  · simp only [contribution_append, Nat.zero_add, halign, Tree.Predict_AsConstantTree]
    rw [ScoreUpdater.AddScoreConstant_score _ _ _ _ _ hi, h0]
    simp only [eq_comm]
  · simp only [contribution_append, Nat.zero_add, halign, hzero (by omega), ite_self, add_zero]
    exact h0

theorem TrainOneIter.loop_consistent (env : Collaborators L)
    (ext : Option ((Nat → ℚ) × (Nat → ℚ))) (init_score : ℚ)
    (hbias : |init_score| ≤ env.kEpsilon) : ∀ (todo cur : Nat) (r r' : Round L),
      TrainOneIter.loop env ext init_score cur todo r = some r' →
      ¬ RefitDue r.self →
      (∃ q, r.self.models_.length = q * r.self.num_tree_per_iteration_ + cur) →
      cur + todo ≤ r.self.num_tree_per_iteration_ →
      (∀ c t, Event.acquired c t ∈ r'.log → t.num_leaves ≤ 1 → ∀ row, t.Predict row = 0) →
      ScoreConsistent r.self → ScoreConsistent r'.self
  | 0, _, r, r', h, _, _, _, _, hcons => by
    simp only [TrainOneIter.loop, Option.some.injEq] at h
    subst h
    exact hcons
  | todo + 1, cur, r, r', h, hnr, ⟨q, hq⟩, hle, hzero, hcons => by
    simp only [TrainOneIter.loop] at h
    have hs := TrainOneIter.channel_setup env ext init_score cur r
    rw [TrainOneIter.refit_of_not_due env _ (fun hd => hnr ((RefitDue_congr hs).1 hd))] at h
    simp only at h
    obtain ⟨evs₁, h₁, -⟩ := TrainOneIter.channel_log env ext init_score cur r
    obtain ⟨evs₂, h₂⟩ := TrainOneIter.loop_log env ext init_score todo (cur + 1) _ r' h
    obtain ⟨t, ht⟩ := TrainOneIter.channel_models env ext init_score cur r
    apply TrainOneIter.loop_consistent env ext init_score hbias todo (cur + 1) _ r' h
      (fun hd => hnr ((RefitDue_congr hs).1 hd))
    · refine ⟨q, ?_⟩
      rw [ht, hs.num_tree_per_iteration_]
      simp only [List.length_append, List.length_singleton, hq]
      omega
    · rw [hs.num_tree_per_iteration_]
      omega
    · exact hzero
    · apply TrainOneIter.channel_consistent env ext init_score cur r hbias
      · rw [hq, Nat.mul_add_mod_of_lt (by omega)]
      · apply hzero cur
        rw [h₂, h₁]
        simp
      · exact hcons

/-! ## Leaf outputs -/

theorem Tree.LeafOutput_AddBias (t : Tree) (val : ℚ) (j : Nat) (hj : j < t.num_leaves) :
    (t.AddBias val).LeafOutput j = t.LeafOutput j + val := by
  unfold Tree.num_leaves at hj
  simp [Tree.LeafOutput, Tree.AddBias, List.getD_eq_getElem?_getD, List.getElem?_map,
    List.getElem?_eq_getElem hj, add_comm]

theorem Tree.Predict_AddBias (t : Tree) (val : ℚ) (row : List ℚ)
    (hj : t.root.GetLeaf row < t.num_leaves) :
    (t.AddBias val).Predict row = t.Predict row + val :=
  Tree.LeafOutput_AddBias t val _ hj

/-! ## Unrolling a call -/

theorem TrainOneIter.loop_succ (env : Collaborators L) (ext : Option ((Nat → ℚ) × (Nat → ℚ)))
    (init_score : ℚ) (c todo : Nat) (r : Round L) (h : ¬ RefitDue r.self) :
    TrainOneIter.loop env ext init_score c (todo + 1) r =
      TrainOneIter.loop env ext init_score (c + 1) todo
        (TrainOneIter.channel env ext init_score c r) := by
  have hs := TrainOneIter.channel_setup env ext init_score c r
  simp only [TrainOneIter.loop]
  rw [TrainOneIter.refit_of_not_due env _ (fun hd => h ((RefitDue_congr hs).1 hd))]

/-- A call with one channel and no refit due is one channel step and the termination rule. -/
theorem TrainOneIter_one_channel (env : Collaborators L) (gradients hessians : Option (Nat → ℚ))
    (s : RGF L) (hK : s.num_tree_per_iteration_ = 1) (h : ¬ RefitDue s) :
    TrainOneIter env gradients hessians s =
      (let b := TrainOneIter.boost env gradients hessians s
       let r := TrainOneIter.channel env b.2.1 b.1 0 ⟨b.2.2, false, []⟩
       if !r.should_continue then
         some ⟨true, { r.self with models_ := popBack r.self.num_tree_per_iteration_ r.self.models_ },
           r.log⟩
       else some ⟨false, { r.self with iter_ := r.self.iter_ + 1 }, r.log⟩) := by
  obtain ⟨hb, -, -, -⟩ := TrainOneIter.boost_setup env gradients hessians s
  unfold TrainOneIter
  simp only
  rw [hb.num_tree_per_iteration_, hK,
    TrainOneIter.loop_succ env _ _ 0 0 _ (fun hd => h ((RefitDue_congr hb).1 hd))]
  rfl

/-- A call with two channels and no refit due is two channel steps and the termination rule. -/
theorem TrainOneIter_two_channels (env : Collaborators L) (gradients hessians : Option (Nat → ℚ))
    (s : RGF L) (hK : s.num_tree_per_iteration_ = 2) (h : ¬ RefitDue s) :
    TrainOneIter env gradients hessians s =
      (let b := TrainOneIter.boost env gradients hessians s
       let r := TrainOneIter.channel env b.2.1 b.1 1
         (TrainOneIter.channel env b.2.1 b.1 0 ⟨b.2.2, false, []⟩)
       if !r.should_continue then
         some ⟨true, { r.self with models_ := popBack r.self.num_tree_per_iteration_ r.self.models_ },
           r.log⟩
       else some ⟨false, { r.self with iter_ := r.self.iter_ + 1 }, r.log⟩) := by
  obtain ⟨hb, -, -, -⟩ := TrainOneIter.boost_setup env gradients hessians s
  have hs := TrainOneIter.channel_setup env (TrainOneIter.boost env gradients hessians s).2.1
    (TrainOneIter.boost env gradients hessians s).1 0
    ⟨(TrainOneIter.boost env gradients hessians s).2.2, false, []⟩
  unfold TrainOneIter
  simp only
  rw [hb.num_tree_per_iteration_, hK,
    TrainOneIter.loop_succ env _ _ 0 1 _ (fun hd => h ((RefitDue_congr hb).1 hd)),
    TrainOneIter.loop_succ env _ _ 1 0 _ (fun hd => h ((RefitDue_congr (hb.trans hs)).1 hd))]
  rfl

/-! ## The record of a round -/

theorem TrainOneIter.channel_log_events (env : Collaborators L)
    (ext : Option ((Nat → ℚ) × (Nat → ℚ))) (init_score : ℚ) (c : Nat) (r : Round L) :
    (TrainOneIter.channel env ext init_score c r).log =
      r.log ++ TrainOneIter.events env ext init_score c r := by
  obtain ⟨evs, h, -⟩ := TrainOneIter.channel_log env ext init_score c r
  unfold TrainOneIter.events
  rw [h, List.drop_left]

/-- The events of a channel step, by the way taken through lines 95-117. -/
theorem TrainOneIter.events_cases (env : Collaborators L)
    (ext : Option ((Nat → ℚ) × (Nat → ℚ))) (init_score : ℚ) (c : Nat) (r : Round L) :
    (1 < (TrainOneIter.acquire env ext c r.self).1.num_leaves ∧ |init_score| > env.kEpsilon ∧
      TrainOneIter.events env ext init_score c r =
        [Event.acquired c (TrainOneIter.acquire env ext c r.self).1,
          Event.updateScore c
            (TrainOneIter.renewed env c r.self (TrainOneIter.acquire env ext c r.self)).1,
          Event.addBias c init_score,
          Event.pushBack c ((TrainOneIter.renewed env c r.self
            (TrainOneIter.acquire env ext c r.self)).1.AddBias init_score)]) ∨
    (1 < (TrainOneIter.acquire env ext c r.self).1.num_leaves ∧ ¬ |init_score| > env.kEpsilon ∧
      TrainOneIter.events env ext init_score c r =
        [Event.acquired c (TrainOneIter.acquire env ext c r.self).1,
          Event.updateScore c
            (TrainOneIter.renewed env c r.self (TrainOneIter.acquire env ext c r.self)).1,
          Event.pushBack c
            (TrainOneIter.renewed env c r.self (TrainOneIter.acquire env ext c r.self)).1]) ∨
    ((TrainOneIter.acquire env ext c r.self).1.num_leaves ≤ 1 ∧
      r.self.class_need_train_ c = false ∧
      r.self.models_.length < r.self.num_tree_per_iteration_ ∧
      TrainOneIter.events env ext init_score c r =
        [Event.acquired c (TrainOneIter.acquire env ext c r.self).1,
          Event.defaultOutput c (r.self.class_default_output_ c),
          Event.pushBack c ((TrainOneIter.acquire env ext c r.self).1.AsConstantTree
            (r.self.class_default_output_ c))]) ∨
    ((TrainOneIter.acquire env ext c r.self).1.num_leaves ≤ 1 ∧
      (r.self.class_need_train_ c = true ∨
        r.self.num_tree_per_iteration_ ≤ r.self.models_.length) ∧
      TrainOneIter.events env ext init_score c r =
        [Event.acquired c (TrainOneIter.acquire env ext c r.self).1,
          Event.pushBack c (TrainOneIter.acquire env ext c r.self).1]) := by
  by_cases hacc : 1 < (TrainOneIter.acquire env ext c r.self).1.num_leaves
  · by_cases hbias : |init_score| > env.kEpsilon
    · refine Or.inl ⟨hacc, hbias, ?_⟩
      unfold TrainOneIter.events
      rw [TrainOneIter.channel_accepted_bias env ext init_score c r hacc hbias, List.drop_left]
    · refine Or.inr (Or.inl ⟨hacc, hbias, ?_⟩)
      unfold TrainOneIter.events
      rw [TrainOneIter.channel_accepted_plain env ext init_score c r hacc hbias, List.drop_left]
  · have hle : (TrainOneIter.acquire env ext c r.self).1.num_leaves ≤ 1 := by omega
    by_cases hg : r.self.class_need_train_ c = false ∧
        r.self.models_.length < r.self.num_tree_per_iteration_
    · refine Or.inr (Or.inr (Or.inl ⟨hle, hg.1, hg.2, ?_⟩))
      unfold TrainOneIter.events
      rw [TrainOneIter.channel_default env ext init_score c r hle hg.1 hg.2, List.drop_left]
    · have hno : r.self.class_need_train_ c = true ∨
          r.self.num_tree_per_iteration_ ≤ r.self.models_.length := by
        by_cases hn : r.self.class_need_train_ c = true
        · exact Or.inl hn
        · right
          simp only [Bool.not_eq_true] at hn
          simp only [hn, true_and, not_lt] at hg
          exact hg
      refine Or.inr (Or.inr (Or.inr ⟨hle, hno, ?_⟩))
      unfold TrainOneIter.events
      rw [TrainOneIter.channel_placeholder env ext init_score c r hle hno, List.drop_left]

theorem TrainOneIter.events_channel (env : Collaborators L)
    (ext : Option ((Nat → ℚ) × (Nat → ℚ))) (init_score : ℚ) (c : Nat) (r : Round L) :
    ∀ e ∈ TrainOneIter.events env ext init_score c r, e.channel = some c := by
  intro e he
  rcases TrainOneIter.events_cases env ext init_score c r with
    ⟨-, -, h⟩ | ⟨-, -, h⟩ | ⟨-, -, -, h⟩ | ⟨-, -, h⟩ <;>
  · rw [h] at he
    simp only [List.mem_cons, List.mem_singleton, List.not_mem_nil, or_false] at he
    rcases he with rfl | rfl | rfl | rfl <;> rfl

theorem TrainOneIter.events_schedule (env : Collaborators L)
    (ext : Option ((Nat → ℚ) × (Nat → ℚ))) (init_score : ℚ) (c : Nat) (r : Round L) :
    schedule (TrainOneIter.events env ext init_score c r) = [false] := by
  rcases TrainOneIter.events_cases env ext init_score c r with
    ⟨-, -, h⟩ | ⟨-, -, h⟩ | ⟨-, -, -, h⟩ | ⟨-, -, h⟩ <;>
  · rw [h]
    rfl

theorem eventsOf_append (c : Nat) (l₁ l₂ : List Event) :
    eventsOf c (l₁ ++ l₂) = eventsOf c l₁ ++ eventsOf c l₂ := by
  unfold eventsOf
  rw [List.filter_append]

theorem schedule_append (l₁ l₂ : List Event) :
    schedule (l₁ ++ l₂) = schedule l₁ ++ schedule l₂ := by
  unfold schedule
  rw [List.filter_append, List.map_append]

theorem TrainOneIter.eventsOf_events (env : Collaborators L)
    (ext : Option ((Nat → ℚ) × (Nat → ℚ))) (init_score : ℚ) (c c' : Nat) (r : Round L) :
    eventsOf c (TrainOneIter.events env ext init_score c' r) =
      if c = c' then TrainOneIter.events env ext init_score c' r else [] := by
  unfold eventsOf
  split_ifs with h
  · subst h
    rw [List.filter_eq_self]
    intro e he
    simp [TrainOneIter.events_channel env ext init_score c r e he]
  · rw [List.filter_eq_nil_iff]
    intro e he
    simp [TrainOneIter.events_channel env ext init_score c' r e he, Ne.symm h]

/-- The record after the refit check: the record before, and the refit when it was due. -/
theorem TrainOneIter.refit_log (env : Collaborators L) (r r' : Round L)
    (h : TrainOneIter.refit env r = some r') :
    (¬ RefitDue r.self ∧ r'.log = r.log) ∨
      (RefitDue r.self ∧ ∃ visited, r'.log = r.log ++ [Event.refit visited]) := by
  unfold TrainOneIter.refit at h
  split_ifs at h with hd
  · cases hf : FullyCorrectiveUpdate env r.self with
    | none => simp [hf] at h
    | some res =>
      simp only [hf, Option.some.injEq] at h
      subst h
      exact Or.inr ⟨hd, _, rfl⟩
  · simp only [Option.some.injEq] at h
    subst h
    exact Or.inl ⟨hd, rfl⟩

theorem eventsOf_refit (c : Nat) (visited : List Nat) :
    eventsOf c [Event.refit visited] = [] := by
  simp [eventsOf, Event.channel]

theorem TrainOneIter.loop_eventsOf_lt (env : Collaborators L)
    (ext : Option ((Nat → ℚ) × (Nat → ℚ))) (init_score : ℚ) (c : Nat) :
    ∀ (todo cur : Nat) (r r' : Round L), c < cur →
      TrainOneIter.loop env ext init_score cur todo r = some r' →
      eventsOf c r'.log = eventsOf c r.log
  | 0, _, r, r', _, h => by
    simp only [TrainOneIter.loop, Option.some.injEq] at h
    subst h
    rfl
  | todo + 1, cur, r, r', hc, h => by
    simp only [TrainOneIter.loop] at h
    cases hr : TrainOneIter.refit env (TrainOneIter.channel env ext init_score cur r) with
    | none => simp [hr] at h
    | some r₁ =>
      simp only [hr] at h
      rw [TrainOneIter.loop_eventsOf_lt env ext init_score c todo (cur + 1) r₁ r' (by omega) h]
      rcases TrainOneIter.refit_log env _ r₁ hr with ⟨-, hl⟩ | ⟨-, v, hl⟩
      · rw [hl, TrainOneIter.channel_log_events, eventsOf_append,
          TrainOneIter.eventsOf_events, if_neg (by omega), List.append_nil]
      · rw [hl, TrainOneIter.channel_log_events, eventsOf_append, eventsOf_append,
          TrainOneIter.eventsOf_events, if_neg (by omega), eventsOf_refit, List.append_nil,
          List.append_nil]

/-- The events of channel `c` in the record of the loop are those of its one channel step. -/
theorem TrainOneIter.loop_eventsOf (env : Collaborators L)
    (ext : Option ((Nat → ℚ) × (Nat → ℚ))) (init_score : ℚ) (c : Nat) :
    ∀ (todo cur : Nat) (r r' : Round L), cur ≤ c → c < cur + todo →
      TrainOneIter.loop env ext init_score cur todo r = some r' →
      ∃ rc : Round L, eventsOf c r'.log =
        eventsOf c r.log ++ TrainOneIter.events env ext init_score c rc
  | 0, _, _, _, h₁, h₂, _ => by omega
  | todo + 1, cur, r, r', h₁, h₂, h => by
    simp only [TrainOneIter.loop] at h
    cases hr : TrainOneIter.refit env (TrainOneIter.channel env ext init_score cur r) with
    | none => simp [hr] at h
    | some r₁ =>
      simp only [hr] at h
      have hlog : eventsOf c r₁.log =
          eventsOf c r.log ++
            (if c = cur then TrainOneIter.events env ext init_score cur r else []) := by
        rcases TrainOneIter.refit_log env _ r₁ hr with ⟨-, hl⟩ | ⟨-, v, hl⟩
        · rw [hl, TrainOneIter.channel_log_events, eventsOf_append,
            TrainOneIter.eventsOf_events]
        · rw [hl, TrainOneIter.channel_log_events, eventsOf_append, eventsOf_append,
            TrainOneIter.eventsOf_events, eventsOf_refit, List.append_nil]
      rcases Nat.eq_or_lt_of_le h₁ with heq | hlt
      · subst heq
        refine ⟨r, ?_⟩
        rw [TrainOneIter.loop_eventsOf_lt env ext init_score cur todo (cur + 1) r₁ r'
          (by omega) h, hlog, if_pos rfl]
      · obtain ⟨rc, hrc⟩ := TrainOneIter.loop_eventsOf env ext init_score c todo (cur + 1) r₁ r'
          (by omega) (by omega) h
        refine ⟨rc, ?_⟩
        rw [hrc, hlog, if_neg (by omega), List.append_nil]

/-- Every event of the record of the loop was there before, is a refit, or comes from the channel
step of one of the channels of the loop. -/
theorem TrainOneIter.loop_log_mem (env : Collaborators L)
    (ext : Option ((Nat → ℚ) × (Nat → ℚ))) (init_score : ℚ) :
    ∀ (todo cur : Nat) (r r' : Round L),
      TrainOneIter.loop env ext init_score cur todo r = some r' →
      ∀ e ∈ r'.log, e ∈ r.log ∨ (∃ visited, e = Event.refit visited) ∨
        ∃ c rc, cur ≤ c ∧ c < cur + todo ∧ e ∈ TrainOneIter.events env ext init_score c rc
  | 0, _, r, r', h, e, he => by
    simp only [TrainOneIter.loop, Option.some.injEq] at h
    subst h
    exact Or.inl he
  | todo + 1, cur, r, r', h, e, he => by
    simp only [TrainOneIter.loop] at h
    cases hr : TrainOneIter.refit env (TrainOneIter.channel env ext init_score cur r) with
    | none => simp [hr] at h
    | some r₁ =>
      simp only [hr] at h
      rcases TrainOneIter.loop_log_mem env ext init_score todo (cur + 1) r₁ r' h e he with
        h₁ | h₁ | ⟨c, rc, a, b, hc⟩
      · have hstep : e ∈ r.log ++ TrainOneIter.events env ext init_score cur r ∨
            ∃ visited, e = Event.refit visited := by
          rcases TrainOneIter.refit_log env _ r₁ hr with ⟨-, hl⟩ | ⟨-, v, hl⟩
          · rw [hl, TrainOneIter.channel_log_events] at h₁
            exact Or.inl h₁
          · rw [hl, TrainOneIter.channel_log_events, List.mem_append, List.mem_singleton] at h₁
            exact h₁.imp id fun h => ⟨v, h⟩
        rcases hstep with hstep | hstep
        · rcases List.mem_append.1 hstep with h₂ | h₂
          · exact Or.inl h₂
          · exact Or.inr (Or.inr ⟨cur, r, le_refl _, by omega, h₂⟩)
        · exact Or.inr (Or.inl hstep)
      · exact Or.inr (Or.inl h₁)
      · exact Or.inr (Or.inr ⟨c, rc, by omega, by omega, hc⟩)

theorem schedule_refit (visited : List Nat) : schedule [Event.refit visited] = [true] := rfl

/-- The order of appends and refits in the record of the loop: a refit after every append when
the refit is due, appends only when it is not. -/
theorem TrainOneIter.loop_schedule (env : Collaborators L)
    (ext : Option ((Nat → ℚ) × (Nat → ℚ))) (init_score : ℚ) :
    ∀ (todo cur : Nat) (r r' : Round L),
      TrainOneIter.loop env ext init_score cur todo r = some r' →
      schedule r'.log = schedule r.log ++
        (if RefitDue r.self then refitAfterEveryAppend todo else List.replicate todo false)
  | 0, _, r, r', h => by
    simp only [TrainOneIter.loop, Option.some.injEq] at h
    subst h
    simp [refitAfterEveryAppend]
  | todo + 1, cur, r, r', h => by
    simp only [TrainOneIter.loop] at h
    cases hr : TrainOneIter.refit env (TrainOneIter.channel env ext init_score cur r) with
    | none => simp [hr] at h
    | some r₁ =>
      simp only [hr] at h
      have hs := TrainOneIter.channel_setup env ext init_score cur r
      have hs₁ := (TrainOneIter.refit_spec env _ r₁ hr).1
      have hdue : RefitDue r₁.self ↔ RefitDue r.self := RefitDue_congr (hs.trans hs₁)
      rw [TrainOneIter.loop_schedule env ext init_score todo (cur + 1) r₁ r' h]
      rcases TrainOneIter.refit_log env _ r₁ hr with ⟨hd, hl⟩ | ⟨hd, v, hl⟩
      · have hd' : ¬ RefitDue r.self := fun h => hd ((RefitDue_congr hs).2 h)
        rw [hl, TrainOneIter.channel_log_events, schedule_append,
          TrainOneIter.events_schedule, if_neg (fun h => hd' (hdue.1 h)), if_neg hd',
          List.append_assoc]
        rfl
      · have hd' : RefitDue r.self := (RefitDue_congr hs).1 hd
        rw [hl, TrainOneIter.channel_log_events, schedule_append, schedule_append,
          TrainOneIter.events_schedule, schedule_refit, if_pos (hdue.2 hd'), if_pos hd',
          List.append_assoc, List.append_assoc]
        rfl

theorem TrainOneIter.events_acquiredChannels (env : Collaborators L)
    (ext : Option ((Nat → ℚ) × (Nat → ℚ))) (init_score : ℚ) (c : Nat) (r : Round L) :
    acquiredChannels (TrainOneIter.events env ext init_score c r) = [c] := by
  rcases TrainOneIter.events_cases env ext init_score c r with
    ⟨-, -, h⟩ | ⟨-, -, h⟩ | ⟨-, -, -, h⟩ | ⟨-, -, h⟩ <;>
  · rw [h]
    rfl

/-- The record of the loop holds one acquired tree per channel, in the order of the channels. -/
theorem TrainOneIter.loop_acquiredChannels (env : Collaborators L)
    (ext : Option ((Nat → ℚ) × (Nat → ℚ))) (init_score : ℚ) :
    ∀ (todo cur : Nat) (r r' : Round L),
      TrainOneIter.loop env ext init_score cur todo r = some r' →
      acquiredChannels r'.log = acquiredChannels r.log ++ List.range' cur todo
  | 0, _, r, r', h => by
    simp only [TrainOneIter.loop, Option.some.injEq] at h
    subst h
    simp
  | todo + 1, cur, r, r', h => by
    simp only [TrainOneIter.loop] at h
    cases hr : TrainOneIter.refit env (TrainOneIter.channel env ext init_score cur r) with
    | none => simp [hr] at h
    | some r₁ =>
      simp only [hr] at h
      rw [TrainOneIter.loop_acquiredChannels env ext init_score todo (cur + 1) r₁ r' h]
      have hstep : acquiredChannels r₁.log = acquiredChannels r.log ++ [cur] := by
        rcases TrainOneIter.refit_log env _ r₁ hr with ⟨-, hl⟩ | ⟨-, v, hl⟩
        · rw [hl, TrainOneIter.channel_log_events]
          unfold acquiredChannels
          rw [List.filterMap_append]
          exact congrArg _ (TrainOneIter.events_acquiredChannels env ext init_score cur r)
        · rw [hl, TrainOneIter.channel_log_events]
          unfold acquiredChannels
          rw [List.filterMap_append, List.filterMap_append]
          have := TrainOneIter.events_acquiredChannels env ext init_score cur r
          unfold acquiredChannels at this
          rw [this]
          simp
      rw [hstep, List.append_assoc]
      rfl

/-- The record of a call that returns is the record of its loop. -/
theorem TrainOneIter_loop (env : Collaborators L) (gradients hessians : Option (Nat → ℚ))
    (s : RGF L) (o : Outcome L) (h : TrainOneIter env gradients hessians s = some o) :
    ∃ r, TrainOneIter.loop env (TrainOneIter.boost env gradients hessians s).2.1
        (TrainOneIter.boost env gradients hessians s).1 0 s.num_tree_per_iteration_
        ⟨(TrainOneIter.boost env gradients hessians s).2.2, false, []⟩ = some r ∧
      o.log = r.log ∧ o.finished = !r.should_continue := by
  obtain ⟨hb, -, -, -⟩ := TrainOneIter.boost_setup env gradients hessians s
  unfold TrainOneIter at h
  simp only at h
  rw [hb.num_tree_per_iteration_] at h
  cases hl : TrainOneIter.loop env (TrainOneIter.boost env gradients hessians s).2.1
      (TrainOneIter.boost env gradients hessians s).1 0 s.num_tree_per_iteration_
      ⟨(TrainOneIter.boost env gradients hessians s).2.2, false, []⟩ with
  | none => simp [hl] at h
  | some r =>
    simp only [hl] at h
    refine ⟨r, rfl, ?_⟩
    split_ifs at h with hsc <;>
    · simp only [Option.some.injEq] at h
      subst h
      simp_all

/-- The events of a channel step whose acquired tree has more than one leaf. -/
theorem TrainOneIter.events_of_accepted (env : Collaborators L)
    (ext : Option ((Nat → ℚ) × (Nat → ℚ))) (init_score : ℚ) (c : Nat) (r : Round L) (t : Tree)
    (hmem : Event.acquired c t ∈ TrainOneIter.events env ext init_score c r)
    (hacc : 1 < t.num_leaves) :
    ∃ shrunk,
      (|init_score| > env.kEpsilon →
        TrainOneIter.events env ext init_score c r =
          [Event.acquired c t, Event.updateScore c shrunk, Event.addBias c init_score,
            Event.pushBack c (shrunk.AddBias init_score)]) ∧
      (¬ |init_score| > env.kEpsilon →
        TrainOneIter.events env ext init_score c r =
          [Event.acquired c t, Event.updateScore c shrunk, Event.pushBack c shrunk]) := by
  refine ⟨(TrainOneIter.renewed env c r.self (TrainOneIter.acquire env ext c r.self)).1, ?_⟩
  rcases TrainOneIter.events_cases env ext init_score c r with
    ⟨-, hb, h⟩ | ⟨-, hb, h⟩ | ⟨hle, -, -, h⟩ | ⟨hle, -, h⟩
  · rw [h] at hmem ⊢
    simp only [List.mem_cons, Event.acquired.injEq, true_and, reduceCtorEq, List.mem_singleton,
      List.not_mem_nil, or_false] at hmem
    subst hmem
    exact ⟨fun _ => rfl, fun hn => absurd hb hn⟩
  · rw [h] at hmem ⊢
    simp only [List.mem_cons, Event.acquired.injEq, true_and, reduceCtorEq, List.mem_singleton,
      List.not_mem_nil, or_false] at hmem
    subst hmem
    exact ⟨fun hn => absurd hn hb, fun _ => rfl⟩
  · rw [h] at hmem
    simp only [List.mem_cons, Event.acquired.injEq, true_and, reduceCtorEq, List.mem_singleton,
      List.not_mem_nil, or_false] at hmem
    subst hmem
    omega
  · rw [h] at hmem
    simp only [List.mem_cons, Event.acquired.injEq, true_and, reduceCtorEq, List.mem_singleton,
      List.not_mem_nil, or_false] at hmem
    subst hmem
    omega

/-- Without a bias above `kEpsilon` no channel step calls `AddBias`. -/
theorem TrainOneIter.events_no_addBias (env : Collaborators L)
    (ext : Option ((Nat → ℚ) × (Nat → ℚ))) (init_score : ℚ) (c : Nat) (r : Round L)
    (hb : ¬ |init_score| > env.kEpsilon) (c' : Nat) (b : ℚ) :
    Event.addBias c' b ∉ TrainOneIter.events env ext init_score c r := by
  rcases TrainOneIter.events_cases env ext init_score c r with
    ⟨-, hb', -⟩ | ⟨-, -, h⟩ | ⟨-, -, -, h⟩ | ⟨-, -, h⟩
  · exact absurd hb' hb
  · rw [h]
    simp
  · rw [h]
    simp
  · rw [h]
    simp

/-- The events of channel `c` in the record of a call that returns, when the channel acquired a
tree with more than one leaf. -/
theorem TrainOneIter_eventsOf_accepted (env : Collaborators L)
    (gradients hessians : Option (Nat → ℚ)) (s : RGF L) (o : Outcome L)
    (h : TrainOneIter env gradients hessians s = some o) (c : Nat) (t : Tree)
    (hmem : Event.acquired c t ∈ o.log) (hacc : 1 < t.num_leaves) :
    ∃ shrunk,
      (|(TrainOneIter.boost env gradients hessians s).1| > env.kEpsilon →
        eventsOf c o.log =
          [Event.acquired c t, Event.updateScore c shrunk,
            Event.addBias c (TrainOneIter.boost env gradients hessians s).1,
            Event.pushBack c (shrunk.AddBias (TrainOneIter.boost env gradients hessians s).1)]) ∧
      (¬ |(TrainOneIter.boost env gradients hessians s).1| > env.kEpsilon →
        eventsOf c o.log =
          [Event.acquired c t, Event.updateScore c shrunk, Event.pushBack c shrunk]) := by
  obtain ⟨r, hr, hlog, -⟩ := TrainOneIter_loop env gradients hessians s o h
  rw [hlog] at hmem ⊢
  have hc : c < s.num_tree_per_iteration_ := by
    rcases TrainOneIter.loop_log_mem env _ _ _ 0 _ r hr _ hmem with h₁ | ⟨v, h₁⟩ | ⟨c', rc, -, b, h₁⟩
    · simp at h₁
    · simp at h₁
    · have := TrainOneIter.events_channel env _ _ c' rc _ h₁
      simp only [Event.channel, Option.some.injEq] at this
      omega
  obtain ⟨rc, hrc⟩ := TrainOneIter.loop_eventsOf env _ _ c _ 0 _ r (Nat.zero_le _) (by omega) hr
  have hev : eventsOf c r.log = TrainOneIter.events env
      (TrainOneIter.boost env gradients hessians s).2.1
      (TrainOneIter.boost env gradients hessians s).1 c rc := by
    rw [hrc]
    simp [eventsOf]
  have hmem' : Event.acquired c t ∈ eventsOf c r.log := by
    unfold eventsOf
    rw [List.mem_filter]
    exact ⟨hmem, by simp [Event.channel]⟩
  rw [hev] at hmem' ⊢
  exact TrainOneIter.events_of_accepted env _ _ c rc t hmem' hacc

theorem TrainOneIter_no_addBias (env : Collaborators L)
    (gradients hessians : Option (Nat → ℚ)) (s : RGF L) (o : Outcome L)
    (h : TrainOneIter env gradients hessians s = some o)
    (hb : ¬ |(TrainOneIter.boost env gradients hessians s).1| > env.kEpsilon) (c : Nat) (b : ℚ) :
    Event.addBias c b ∉ o.log := by
  obtain ⟨r, hr, hlog, -⟩ := TrainOneIter_loop env gradients hessians s o h
  rw [hlog]
  intro hmem
  rcases TrainOneIter.loop_log_mem env _ _ _ 0 _ r hr _ hmem with h₁ | ⟨v, h₁⟩ | ⟨c', rc, -, -, h₁⟩
  · simp at h₁
  · simp at h₁
  · exact TrainOneIter.events_no_addBias env _ _ c' rc hb c b h₁

theorem TrainOneIter_acquired_lt (env : Collaborators L)
    (gradients hessians : Option (Nat → ℚ)) (s : RGF L) (o : Outcome L)
    (h : TrainOneIter env gradients hessians s = some o) (c : Nat) (t : Tree)
    (hmem : Event.acquired c t ∈ o.log) : c < s.num_tree_per_iteration_ := by
  obtain ⟨r, hr, hlog, -⟩ := TrainOneIter_loop env gradients hessians s o h
  rw [hlog] at hmem
  rcases TrainOneIter.loop_log_mem env _ _ _ 0 _ r hr _ hmem with h₁ | ⟨v, h₁⟩ | ⟨c', rc, -, b, h₁⟩
  · simp at h₁
  · simp at h₁
  · have := TrainOneIter.events_channel env _ _ c' rc _ h₁
    simp only [Event.channel, Option.some.injEq] at this
    omega

theorem BoostFromAverage_of_models (env : Collaborators L) (s : RGF L)
    (h : 0 < s.models_.length) : BoostFromAverage env s = 0 := by
  unfold BoostFromAverage
  rw [if_neg]
  intro he
  rw [List.isEmpty_iff] at he
  rw [he] at h
  simp at h

/-! ## A round of a trained channel 0 and an untrained channel 1 -/

theorem TrainOneIter.events_acquired (env : Collaborators L)
    (ext : Option ((Nat → ℚ) × (Nat → ℚ))) (init_score : ℚ) (c : Nat) (r : Round L) (t : Tree)
    (hmem : Event.acquired c t ∈ TrainOneIter.events env ext init_score c r) :
    t = (TrainOneIter.acquire env ext c r.self).1 := by
  rcases TrainOneIter.events_cases env ext init_score c r with
    ⟨-, -, h⟩ | ⟨-, -, h⟩ | ⟨-, -, -, h⟩ | ⟨-, -, h⟩ <;>
  · rw [h] at hmem
    simpa using hmem

/-- What a channel step whose acquired tree has more than one leaf leaves behind, with or without
bias. -/
theorem TrainOneIter.channel_accepted (env : Collaborators L)
    (ext : Option ((Nat → ℚ) × (Nat → ℚ))) (init_score : ℚ) (c : Nat) (r : Round L)
    (hacc : 1 < (TrainOneIter.acquire env ext c r.self).1.num_leaves) :
    ∃ shrunk accepted learner,
      (TrainOneIter.channel env ext init_score c r).self =
        { UpdateScore { r.self with tree_learner_ := learner } shrunk c with
          models_ := r.self.models_ ++ [accepted] } ∧
      (TrainOneIter.channel env ext init_score c r).should_continue = true := by
  by_cases hbias : |init_score| > env.kEpsilon
  · rw [TrainOneIter.channel_accepted_bias env ext init_score c r hacc hbias]
    exact ⟨_, _, _, rfl, rfl⟩
  · rw [TrainOneIter.channel_accepted_plain env ext init_score c r hacc hbias]
    exact ⟨_, _, _, rfl, rfl⟩

theorem TrainOneIter.acquire_of_not_need (env : Collaborators L)
    (ext : Option ((Nat → ℚ) × (Nat → ℚ))) (c : Nat) (s : RGF L)
    (h : s.class_need_train_ c = false) :
    TrainOneIter.acquire env ext c s = (Tree.new 2, s.tree_learner_) := by
  unfold TrainOneIter.acquire
  simp [h]

/-- A round of two channels without refit, channel 0 trained and channel 1 not: when channel 0
acquires a tree with more than one leaf, the round is productive, channel 0 gets its shrunk tree
added to all caches, and channel 1 gets the default output (on an empty ensemble) or a
placeholder (otherwise). -/
theorem TrainOneIter_trained_and_default (env : Collaborators L)
    (gradients hessians : Option (Nat → ℚ)) (s : RGF L)
    (hK : s.num_tree_per_iteration_ = 2) (hnr : ¬ RefitDue s)
    (hB : s.class_need_train_ 1 = false) :
    ∃ o, TrainOneIter env gradients hessians s = some o ∧
      ∀ t, Event.acquired 0 t ∈ o.log → 1 < t.num_leaves →
        o.finished = false ∧ SameSetup s { o.self with iter_ := s.iter_ } ∧
        o.self.iter_ = s.iter_ + 1 ∧
        ∃ shrunk accepted,
          (s.models_ = [] →
            o.self.models_ =
              [accepted, (Tree.new 2).AsConstantTree (s.class_default_output_ 1)] ∧
            o.self.train_score_updater_ =
              (s.train_score_updater_.AddScore shrunk 0).AddScoreConstant
                (s.class_default_output_ 1) 1 ∧
            o.self.valid_score_updater_ =
              (s.valid_score_updater_.map fun u => u.AddScore shrunk 0).map
                fun u => u.AddScoreConstant (s.class_default_output_ 1) 1) ∧
          (2 ≤ s.models_.length →
            o.self.models_ = s.models_ ++ [accepted, Tree.new 2] ∧
            o.self.train_score_updater_ = s.train_score_updater_.AddScore shrunk 0 ∧
            o.self.valid_score_updater_ =
              s.valid_score_updater_.map fun u => u.AddScore shrunk 0) := by
  obtain ⟨hb, hm, ht, hv⟩ := TrainOneIter.boost_setup env gradients hessians s
  rw [TrainOneIter_two_channels env gradients hessians s hK hnr]
  simp only
  generalize TrainOneIter.boost env gradients hessians s = b at hb hm ht hv
  have hlog₁ := TrainOneIter.channel_log_events env b.2.1 b.1 0 ⟨b.2.2, false, []⟩
  have hlog₂ := TrainOneIter.channel_log_events env b.2.1 b.1 1
    (TrainOneIter.channel env b.2.1 b.1 0 ⟨b.2.2, false, []⟩)
  have hs₁ := TrainOneIter.channel_setup env b.2.1 b.1 0 ⟨b.2.2, false, []⟩
  by_cases hacc : 1 < (TrainOneIter.acquire env b.2.1 0 b.2.2).1.num_leaves
  · obtain ⟨shrunk, accepted, learner, hself, hsc⟩ :=
      TrainOneIter.channel_accepted env b.2.1 b.1 0 ⟨b.2.2, false, []⟩ hacc
    generalize TrainOneIter.channel env b.2.1 b.1 0 ⟨b.2.2, false, []⟩ = r₁ at *
    have hneed₁ : r₁.self.class_need_train_ 1 = false := by
      rw [hs₁.class_need_train_, hb.class_need_train_, hB]
    have hacq := TrainOneIter.acquire_of_not_need env b.2.1 1 r₁.self hneed₁
    have hle : (TrainOneIter.acquire env b.2.1 1 r₁.self).1.num_leaves ≤ 1 := by
      rw [hacq]
      exact le_refl _
    have hK₁ : r₁.self.num_tree_per_iteration_ = 2 := by
      rw [hs₁.num_tree_per_iteration_, hb.num_tree_per_iteration_, hK]
    have hlen₁ : r₁.self.models_.length = s.models_.length + 1 := by
      rw [hself]
      simp [UpdateScore, hm]
    by_cases hempty : s.models_.length = 0
    · have hdef := TrainOneIter.channel_default env b.2.1 b.1 1 r₁ hle hneed₁ (by omega)
      rw [hdef, hsc]
      refine ⟨_, rfl, fun t _ _ => ⟨rfl, ?_, ?_, ?_⟩⟩
      · exact ⟨rfl, by simp [hK₁, hK], by simp [hs₁.num_data_, hb.num_data_],
          by simp [hs₁.class_need_train_, hb.class_need_train_],
          by simp [hs₁.class_default_output_, hb.class_default_output_],
          by simp [hs₁.shrinkage_rate_, hb.shrinkage_rate_]⟩
      · simp [hs₁.iter_, hb.iter_]
      · refine ⟨shrunk, accepted, fun hnil => ?_, fun hge => by omega⟩
        simp only [hacq, hs₁.class_default_output_, hb.class_default_output_]
        rw [hself]
        simp [UpdateScore, hm, hnil, ht, hv]
    · have hpl := TrainOneIter.channel_placeholder env b.2.1 b.1 1 r₁ hle (Or.inr (by omega))
      rw [hpl, hsc]
      refine ⟨_, rfl, fun t _ _ => ⟨rfl, ?_, ?_, ?_⟩⟩
      · exact ⟨rfl, by simp [hK₁, hK], by simp [hs₁.num_data_, hb.num_data_],
          by simp [hs₁.class_need_train_, hb.class_need_train_],
          by simp [hs₁.class_default_output_, hb.class_default_output_],
          by simp [hs₁.shrinkage_rate_, hb.shrinkage_rate_]⟩
      · simp [hs₁.iter_, hb.iter_]
      · refine ⟨shrunk, accepted, fun hnil => ?_, fun _ => ?_⟩
        · rw [hnil] at hempty
          simp at hempty
        · simp only [hacq]
          rw [hself]
          simp [UpdateScore, hm, ht, hv]
  · have hnone : ∀ t, Event.acquired 0 t ∈
        (TrainOneIter.channel env b.2.1 b.1 1
          (TrainOneIter.channel env b.2.1 b.1 0 ⟨b.2.2, false, []⟩)).log →
        ¬ 1 < t.num_leaves := by
      intro t hmem
      rw [hlog₂, hlog₁, List.nil_append, List.mem_append] at hmem
      rcases hmem with hmem | hmem
      · rw [TrainOneIter.events_acquired env _ _ 0 _ t hmem]
        exact hacc
      · have := TrainOneIter.events_channel env _ _ 1 _ _ hmem
        simp [Event.channel] at this
    split_ifs
    · exact ⟨_, rfl, fun t hmem hlt => absurd hlt (hnone t hmem)⟩
    · exact ⟨_, rfl, fun t hmem hlt => absurd hlt (hnone t hmem)⟩

/-- What the step of a channel that does not need training leaves behind: the default output on
all caches and a constant tree while the ensemble is shorter than one round, a placeholder and
untouched caches afterwards. -/
theorem TrainOneIter.channel_untrained (env : Collaborators L)
    (ext : Option ((Nat → ℚ) × (Nat → ℚ))) (init_score : ℚ) (c : Nat) (r : Round L)
    (hneed : r.self.class_need_train_ c = false) :
    (TrainOneIter.channel env ext init_score c r).should_continue = r.should_continue ∧
      (r.self.models_.length < r.self.num_tree_per_iteration_ →
        (TrainOneIter.channel env ext init_score c r).self.models_ =
          r.self.models_ ++ [(Tree.new 2).AsConstantTree (r.self.class_default_output_ c)] ∧
        (TrainOneIter.channel env ext init_score c r).self.train_score_updater_ =
          r.self.train_score_updater_.AddScoreConstant (r.self.class_default_output_ c) c ∧
        (TrainOneIter.channel env ext init_score c r).self.valid_score_updater_ =
          r.self.valid_score_updater_.map
            fun u => u.AddScoreConstant (r.self.class_default_output_ c) c) ∧
      (r.self.num_tree_per_iteration_ ≤ r.self.models_.length →
        (TrainOneIter.channel env ext init_score c r).self.models_ =
          r.self.models_ ++ [Tree.new 2] ∧
        (TrainOneIter.channel env ext init_score c r).self.train_score_updater_ =
          r.self.train_score_updater_ ∧
        (TrainOneIter.channel env ext init_score c r).self.valid_score_updater_ =
          r.self.valid_score_updater_) := by
  have hacq := TrainOneIter.acquire_of_not_need env ext c r.self hneed
  have hle : (TrainOneIter.acquire env ext c r.self).1.num_leaves ≤ 1 := by
    rw [hacq]
    exact le_refl _
  by_cases hlt : r.self.models_.length < r.self.num_tree_per_iteration_
  · rw [TrainOneIter.channel_default env ext init_score c r hle hneed hlt, hacq]
    exact ⟨rfl, fun _ => ⟨rfl, rfl, rfl⟩, fun h => by omega⟩
  · rw [TrainOneIter.channel_placeholder env ext init_score c r hle (Or.inr (by omega)), hacq]
    exact ⟨rfl, fun h => absurd h hlt, fun _ => ⟨rfl, rfl, rfl⟩⟩

/-- A round of two channels without refit, channel 0 not trained and channel 1 trained: when
channel 1 acquires a tree with more than one leaf, the round is productive, channel 0 gets the
default output (on an empty ensemble) or a placeholder (otherwise), and channel 1 gets its shrunk
tree added to all caches. -/
theorem TrainOneIter_default_and_trained (env : Collaborators L)
    (gradients hessians : Option (Nat → ℚ)) (s : RGF L)
    (hK : s.num_tree_per_iteration_ = 2) (hnr : ¬ RefitDue s)
    (hB : s.class_need_train_ 0 = false) :
    ∃ o, TrainOneIter env gradients hessians s = some o ∧
      ∀ t, Event.acquired 1 t ∈ o.log → 1 < t.num_leaves →
        o.finished = false ∧ SameSetup s { o.self with iter_ := s.iter_ } ∧
        o.self.iter_ = s.iter_ + 1 ∧
        ∃ shrunk accepted,
          (s.models_ = [] →
            o.self.models_ =
              [(Tree.new 2).AsConstantTree (s.class_default_output_ 0), accepted] ∧
            o.self.train_score_updater_ =
              (s.train_score_updater_.AddScoreConstant (s.class_default_output_ 0) 0).AddScore
                shrunk 1 ∧
            o.self.valid_score_updater_ =
              (s.valid_score_updater_.map
                fun u => u.AddScoreConstant (s.class_default_output_ 0) 0).map
                fun u => u.AddScore shrunk 1) ∧
          (2 ≤ s.models_.length →
            o.self.models_ = s.models_ ++ [Tree.new 2, accepted] ∧
            o.self.train_score_updater_ = s.train_score_updater_.AddScore shrunk 1 ∧
            o.self.valid_score_updater_ =
              s.valid_score_updater_.map fun u => u.AddScore shrunk 1) := by
  obtain ⟨hb, hm, ht, hv⟩ := TrainOneIter.boost_setup env gradients hessians s
  rw [TrainOneIter_two_channels env gradients hessians s hK hnr]
  simp only
  generalize TrainOneIter.boost env gradients hessians s = b at hb hm ht hv
  have hlog₁ := TrainOneIter.channel_log_events env b.2.1 b.1 0 ⟨b.2.2, false, []⟩
  have hlog₂ := TrainOneIter.channel_log_events env b.2.1 b.1 1
    (TrainOneIter.channel env b.2.1 b.1 0 ⟨b.2.2, false, []⟩)
  have hs₁ := TrainOneIter.channel_setup env b.2.1 b.1 0 ⟨b.2.2, false, []⟩
  have hs₂ := TrainOneIter.channel_setup env b.2.1 b.1 1
    (TrainOneIter.channel env b.2.1 b.1 0 ⟨b.2.2, false, []⟩)
  have hneed₀ : (⟨b.2.2, false, []⟩ : Round L).self.class_need_train_ 0 = false := by
    rw [hb.class_need_train_, hB]
  obtain ⟨-, hdef, hpl⟩ :=
    TrainOneIter.channel_untrained env b.2.1 b.1 0 ⟨b.2.2, false, []⟩ hneed₀
  simp only [hm, ht, hv, hb.num_tree_per_iteration_, hb.class_default_output_, hK] at hdef hpl
  by_cases hacc : 1 < (TrainOneIter.acquire env b.2.1 1
      (TrainOneIter.channel env b.2.1 b.1 0 ⟨b.2.2, false, []⟩).self).1.num_leaves
  · obtain ⟨shrunk, accepted, learner, hself, hsc⟩ :=
      TrainOneIter.channel_accepted env b.2.1 b.1 1
        (TrainOneIter.channel env b.2.1 b.1 0 ⟨b.2.2, false, []⟩) hacc
    generalize TrainOneIter.channel env b.2.1 b.1 0 ⟨b.2.2, false, []⟩ = r₁ at *
    generalize TrainOneIter.channel env b.2.1 b.1 1 r₁ = r₂ at *
    rw [hsc]
    refine ⟨_, rfl, fun t _ _ => ⟨rfl, ?_, ?_, ?_⟩⟩
    · have h₁₂ := (hb.trans hs₁).trans hs₂
      exact ⟨rfl, h₁₂.num_tree_per_iteration_, h₁₂.num_data_, h₁₂.class_need_train_,
        h₁₂.class_default_output_, h₁₂.shrinkage_rate_⟩
    · simp [hs₂.iter_, hs₁.iter_, hb.iter_]
    · refine ⟨shrunk, accepted, fun hnil => ?_, fun hge => ?_⟩
      · obtain ⟨a₁, a₂, a₃⟩ := hdef (by rw [hnil]; decide)
        simp only [hself, UpdateScore, a₁, a₂, a₃, hnil, List.nil_append, List.cons_append,
          and_self]
      · obtain ⟨a₁, a₂, a₃⟩ := hpl hge
        simp only [hself, UpdateScore, a₁, a₂, a₃, List.append_assoc, List.cons_append,
          List.nil_append, and_self]
  · have hnone : ∀ t, Event.acquired 1 t ∈
        (TrainOneIter.channel env b.2.1 b.1 1
          (TrainOneIter.channel env b.2.1 b.1 0 ⟨b.2.2, false, []⟩)).log →
        ¬ 1 < t.num_leaves := by
      intro t hmem
      rw [hlog₂, hlog₁, List.nil_append, List.mem_append] at hmem
      rcases hmem with hmem | hmem
      · have := TrainOneIter.events_channel env _ _ 0 _ _ hmem
        simp [Event.channel] at this
      · rw [TrainOneIter.events_acquired env _ _ 1 _ t hmem]
        exact hacc
    split_ifs
    · exact ⟨_, rfl, fun t hmem hlt => absurd hlt (hnone t hmem)⟩
    · exact ⟨_, rfl, fun t hmem hlt => absurd hlt (hnone t hmem)⟩

theorem ChannelShift_AddScore (u : ScoreUpdater) (tree : Tree) (c cur : Nat) (h : c ≠ cur) :
    ChannelShift c 0 u (u.AddScore tree cur) := by
  refine ⟨rfl, fun i hi => ?_⟩
  rw [ScoreUpdater.AddScore_score _ _ _ _ _ hi, if_neg h]

theorem ChannelShift_AddScoreConstant (u : ScoreUpdater) (val : ℚ) (c : Nat) :
    ChannelShift c val u (u.AddScoreConstant val c) := by
  refine ⟨rfl, fun i hi => ?_⟩
  rw [ScoreUpdater.AddScoreConstant_score _ _ _ _ _ hi, if_pos rfl]

theorem ChannelShift.compose {c : Nat} {a b : ℚ} {u v w : ScoreUpdater}
    (h₁ : ChannelShift c a u v) (h₂ : ChannelShift c b v w) : ChannelShift c (a + b) u w := by
  refine ⟨h₂.1.trans h₁.1, fun i hi => ?_⟩
  have := h₂.2 i (by rw [h₁.1]; exact hi)
  rw [h₁.1] at this
  rw [this, h₁.2 i hi]
  ring

theorem Forall₂_map_of_forall {R : ScoreUpdater → ScoreUpdater → Prop}
    (f : ScoreUpdater → ScoreUpdater) (h : ∀ u, R u (f u)) :
    ∀ l : List ScoreUpdater, List.Forall₂ R l (l.map f)
  | [] => List.Forall₂.nil
  | u :: l => List.Forall₂.cons (h u) (Forall₂_map_of_forall f h l)

/-! ## The refit pass as one forward sweep -/

/-- One visit, in terms of the tree the learner returns for it. -/
theorem FullyCorrectiveUpdate.body_eq (env : Collaborators L) (iter tree_id : Nat)
    (st : RGF L × List Nat) :
    FullyCorrectiveUpdate.body env iter tree_id st =
      if (FullyCorrectiveUpdate.fit env (iter * st.1.num_tree_per_iteration_ + tree_id) tree_id
            st.1).1.num_leaves =
          (st.1.models_.getD (iter * st.1.num_tree_per_iteration_ + tree_id)
            (Tree.new 2)).num_leaves then
        some ({ st.1 with
                gradients_ := (env.GetGradients st.1.train_score_updater_.score_).1
                hessians_ := (env.GetGradients st.1.train_score_updater_.score_).2
                tree_learner_ := (FullyCorrectiveUpdate.fit env
                  (iter * st.1.num_tree_per_iteration_ + tree_id) tree_id st.1).2
                train_score_updater_ := st.1.train_score_updater_.AddScoreLearner
                  (FullyCorrectiveUpdate.fit env
                    (iter * st.1.num_tree_per_iteration_ + tree_id) tree_id st.1).1 tree_id
                models_ := st.1.models_.set (iter * st.1.num_tree_per_iteration_ + tree_id)
                  (FullyCorrectiveUpdate.fit env
                    (iter * st.1.num_tree_per_iteration_ + tree_id) tree_id st.1).1 },
              st.2 ++ [iter * st.1.num_tree_per_iteration_ + tree_id])
      else none := rfl

theorem FullyCorrectiveUpdate.sweep_append (env : Collaborators L) :
    ∀ (a b start : Nat) (st : RGF L × List Nat),
      FullyCorrectiveUpdate.sweep env start (a + b) st =
        (FullyCorrectiveUpdate.sweep env start a st).bind
          (FullyCorrectiveUpdate.sweep env (start + a) b)
  | 0, b, start, st => by simp [FullyCorrectiveUpdate.sweep]
  | a + 1, b, start, st => by
    rw [show a + 1 + b = (a + b) + 1 by omega]
    simp only [FullyCorrectiveUpdate.sweep]
    cases FullyCorrectiveUpdate.body env (start / st.1.num_tree_per_iteration_)
        (start % st.1.num_tree_per_iteration_) st with
    | none => rfl
    | some st₁ =>
      simp only
      rw [FullyCorrectiveUpdate.sweep_append env a b (start + 1) st₁,
        show start + 1 + a = start + (a + 1) by omega]

/-- The loop over the channels of one round is a stretch of the sweep. -/
theorem FullyCorrectiveUpdate.trees_eq_sweep (env : Collaborators L) (iter : Nat) :
    ∀ (todo tree_id : Nat) (st : RGF L × List Nat),
      tree_id + todo ≤ st.1.num_tree_per_iteration_ →
      FullyCorrectiveUpdate.trees env iter tree_id todo st =
        FullyCorrectiveUpdate.sweep env (iter * st.1.num_tree_per_iteration_ + tree_id) todo st
  | 0, _, _, _ => rfl
  | todo + 1, tree_id, st, h => by
    have hlt : tree_id < st.1.num_tree_per_iteration_ := by omega
    have hdiv : (iter * st.1.num_tree_per_iteration_ + tree_id) / st.1.num_tree_per_iteration_ =
        iter := by
      rw [Nat.mul_comm, Nat.mul_add_div (by omega), Nat.div_eq_of_lt hlt, Nat.add_zero]
    have hmod : (iter * st.1.num_tree_per_iteration_ + tree_id) % st.1.num_tree_per_iteration_ =
        tree_id := by
      rw [Nat.mul_comm, Nat.mul_add_mod, Nat.mod_eq_of_lt hlt]
    simp only [FullyCorrectiveUpdate.trees, FullyCorrectiveUpdate.sweep, hdiv, hmod]
    cases hb : FullyCorrectiveUpdate.body env iter tree_id st with
    | none => rfl
    | some st₁ =>
      simp only
      have hK := (FullyCorrectiveUpdate.body_spec env iter tree_id st st₁ hb).1
        |>.num_tree_per_iteration_
      rw [FullyCorrectiveUpdate.trees_eq_sweep env iter todo (tree_id + 1) st₁
        (by rw [hK]; omega), hK]
      rfl

theorem FullyCorrectiveUpdate.sweep_setup (env : Collaborators L) :
    ∀ (count start : Nat) (st st' : RGF L × List Nat),
      FullyCorrectiveUpdate.sweep env start count st = some st' →
      SameSetup st.1 st'.1 ∧ st'.1.models_.length = st.1.models_.length ∧
        st'.1.valid_score_updater_ = st.1.valid_score_updater_
  | 0, _, st, st', h => by
    simp only [FullyCorrectiveUpdate.sweep, Option.some.injEq] at h
    subst h
    exact ⟨SameSetup.refl _, rfl, rfl⟩
  | count + 1, start, st, st', h => by
    simp only [FullyCorrectiveUpdate.sweep] at h
    cases hb : FullyCorrectiveUpdate.body env (start / st.1.num_tree_per_iteration_)
        (start % st.1.num_tree_per_iteration_) st with
    | none => simp [hb] at h
    | some st₁ =>
      simp only [hb] at h
      obtain ⟨a₁, b₁, c₁⟩ := FullyCorrectiveUpdate.body_spec env _ _ st st₁ hb
      obtain ⟨a₂, b₂, c₂⟩ := FullyCorrectiveUpdate.sweep_setup env count (start + 1) st₁ st' h
      exact ⟨a₁.trans a₂, b₂.trans b₁, c₂.trans c₁⟩

/-- The loop over the rounds is a stretch of the sweep. -/
theorem FullyCorrectiveUpdate.iters_eq_sweep (env : Collaborators L) :
    ∀ (todo iter : Nat) (st : RGF L × List Nat),
      FullyCorrectiveUpdate.iters env iter todo st =
        FullyCorrectiveUpdate.sweep env (iter * st.1.num_tree_per_iteration_)
          (todo * st.1.num_tree_per_iteration_) st
  | 0, _, _ => by simp [FullyCorrectiveUpdate.iters, FullyCorrectiveUpdate.sweep]
  | todo + 1, iter, st => by
    rw [show (todo + 1) * st.1.num_tree_per_iteration_ =
      st.1.num_tree_per_iteration_ + todo * st.1.num_tree_per_iteration_ by ring,
      FullyCorrectiveUpdate.sweep_append]
    simp only [FullyCorrectiveUpdate.iters]
    have ht := FullyCorrectiveUpdate.trees_eq_sweep env iter st.1.num_tree_per_iteration_ 0 st
      (by omega)
    rw [Nat.add_zero] at ht
    rw [ht]
    cases hs : FullyCorrectiveUpdate.sweep env (iter * st.1.num_tree_per_iteration_)
        st.1.num_tree_per_iteration_ st with
    | none => rfl
    | some st₁ =>
      simp only [Option.bind]
      have hK := (FullyCorrectiveUpdate.sweep_setup env _ _ st st₁ hs).1.num_tree_per_iteration_
      rw [FullyCorrectiveUpdate.iters_eq_sweep env todo (iter + 1) st₁, hK]
      congr 1
      ring

/-- `FullyCorrectiveUpdate` is the forward sweep over the flat indices below
`(models_.size() / num_tree_per_iteration_) * num_tree_per_iteration_`. -/
theorem FullyCorrectiveUpdate_eq_sweep (env : Collaborators L) (s : RGF L) :
    FullyCorrectiveUpdate env s =
      (FullyCorrectiveUpdate.sweep env 0
        (s.models_.length / s.num_tree_per_iteration_ * s.num_tree_per_iteration_)
        (s, [])).map fun st => (true, st.1, st.2) := by
  unfold FullyCorrectiveUpdate
  simp only
  rw [FullyCorrectiveUpdate.iters_eq_sweep, Nat.zero_mul]
  cases FullyCorrectiveUpdate.sweep env 0
    (s.models_.length / s.num_tree_per_iteration_ * s.num_tree_per_iteration_) (s, []) <;> rfl

/-- What one visit of the sweep does, at the flat index `start`. -/
theorem FullyCorrectiveUpdate.visit_spec (env : Collaborators L) (start : Nat)
    (st st' : RGF L × List Nat)
    (h : FullyCorrectiveUpdate.body env (start / st.1.num_tree_per_iteration_)
      (start % st.1.num_tree_per_iteration_) st = some st') :
    st'.2 = st.2 ++ [start] ∧
      st'.1.models_ = st.1.models_.set start
        (FullyCorrectiveUpdate.fit env start (start % st.1.num_tree_per_iteration_) st.1).1 ∧
      (FullyCorrectiveUpdate.fit env start
          (start % st.1.num_tree_per_iteration_) st.1).1.num_leaves =
        (st.1.models_.getD start (Tree.new 2)).num_leaves ∧
      st'.1.train_score_updater_ = st.1.train_score_updater_.AddScoreLearner
        (FullyCorrectiveUpdate.fit env start (start % st.1.num_tree_per_iteration_) st.1).1
        (start % st.1.num_tree_per_iteration_) := by
  rw [FullyCorrectiveUpdate.body_eq, Nat.div_add_mod'] at h
  split_ifs at h with hl
  simp only [Option.some.injEq] at h
  subst h
  exact ⟨rfl, rfl, hl, rfl⟩

theorem FullyCorrectiveUpdate.visit_none_iff (env : Collaborators L) (start : Nat)
    (st : RGF L × List Nat) :
    FullyCorrectiveUpdate.body env (start / st.1.num_tree_per_iteration_)
        (start % st.1.num_tree_per_iteration_) st = none ↔
      (FullyCorrectiveUpdate.fit env start
          (start % st.1.num_tree_per_iteration_) st.1).1.num_leaves ≠
        (st.1.models_.getD start (Tree.new 2)).num_leaves := by
  rw [FullyCorrectiveUpdate.body_eq, Nat.div_add_mod']
  split_ifs with hl
  · simp [hl]
  · exact ⟨fun _ => hl, fun _ => rfl⟩

/-- The sweep records the flat indices it visits, in order. -/
theorem FullyCorrectiveUpdate.sweep_visited (env : Collaborators L) :
    ∀ (count start : Nat) (st st' : RGF L × List Nat),
      FullyCorrectiveUpdate.sweep env start count st = some st' →
      st'.2 = st.2 ++ List.range' start count
  | 0, _, st, st', h => by
    simp only [FullyCorrectiveUpdate.sweep, Option.some.injEq] at h
    subst h
    simp
  | count + 1, start, st, st', h => by
    simp only [FullyCorrectiveUpdate.sweep] at h
    cases hb : FullyCorrectiveUpdate.body env (start / st.1.num_tree_per_iteration_)
        (start % st.1.num_tree_per_iteration_) st with
    | none => simp [hb] at h
    | some st₁ =>
      simp only [hb] at h
      rw [FullyCorrectiveUpdate.sweep_visited env count (start + 1) st₁ st' h,
        (FullyCorrectiveUpdate.visit_spec env start st st₁ hb).1, List.append_assoc]
      rfl

/-- The sweep touches no entry outside the stretch of indices it visits. -/
theorem FullyCorrectiveUpdate.sweep_outside (env : Collaborators L) :
    ∀ (count start : Nat) (st st' : RGF L × List Nat),
      FullyCorrectiveUpdate.sweep env start count st = some st' →
      ∀ idx : Nat, idx < start ∨ start + count ≤ idx →
        st'.1.models_[idx]? = st.1.models_[idx]?
  | 0, _, st, st', h, _, _ => by
    simp only [FullyCorrectiveUpdate.sweep, Option.some.injEq] at h
    subst h
    rfl
  | count + 1, start, st, st', h, idx, hidx => by
    simp only [FullyCorrectiveUpdate.sweep] at h
    cases hb : FullyCorrectiveUpdate.body env (start / st.1.num_tree_per_iteration_)
        (start % st.1.num_tree_per_iteration_) st with
    | none => simp [hb] at h
    | some st₁ =>
      simp only [hb] at h
      rw [FullyCorrectiveUpdate.sweep_outside env count (start + 1) st₁ st' h idx (by omega),
        (FullyCorrectiveUpdate.visit_spec env start st st₁ hb).2.1,
        List.getElem?_set_ne (by omega)]

/-- The sweep keeps the leaf count of every entry. -/
theorem FullyCorrectiveUpdate.sweep_leaves (env : Collaborators L) :
    ∀ (count start : Nat) (st st' : RGF L × List Nat),
      FullyCorrectiveUpdate.sweep env start count st = some st' →
      ∀ idx : Nat, (st'.1.models_[idx]?).map Tree.num_leaves =
        (st.1.models_[idx]?).map Tree.num_leaves
  | 0, _, st, st', h, _ => by
    simp only [FullyCorrectiveUpdate.sweep, Option.some.injEq] at h
    subst h
    rfl
  | count + 1, start, st, st', h, idx => by
    simp only [FullyCorrectiveUpdate.sweep] at h
    cases hb : FullyCorrectiveUpdate.body env (start / st.1.num_tree_per_iteration_)
        (start % st.1.num_tree_per_iteration_) st with
    | none => simp [hb] at h
    | some st₁ =>
      simp only [hb] at h
      rw [FullyCorrectiveUpdate.sweep_leaves env count (start + 1) st₁ st' h idx]
      obtain ⟨-, hset, hleaves, -⟩ := FullyCorrectiveUpdate.visit_spec env start st st₁ hb
      rw [hset]
      by_cases hi : start = idx
      · subst hi
        by_cases hlt : start < st.1.models_.length
        · rw [List.getElem?_set_eq_of_lt _ hlt, List.getElem?_eq_getElem hlt]
          simp only [Option.map_some', Option.some.injEq]
          rw [hleaves, List.getD_eq_getElem _ _ hlt]
        · rw [List.getElem?_eq_none (by simp; omega), List.getElem?_eq_none (by omega)]
      · rw [List.getElem?_set_ne hi]

/-- The sweep aborts exactly when one of its visits does. -/
theorem FullyCorrectiveUpdate.sweep_none_iff (env : Collaborators L) :
    ∀ (count start : Nat) (st : RGF L × List Nat),
      FullyCorrectiveUpdate.sweep env start count st = none ↔
        ∃ j st₁, j < count ∧ FullyCorrectiveUpdate.sweep env start j st = some st₁ ∧
          FullyCorrectiveUpdate.body env ((start + j) / st₁.1.num_tree_per_iteration_)
            ((start + j) % st₁.1.num_tree_per_iteration_) st₁ = none
  | 0, start, st => by
    simp [FullyCorrectiveUpdate.sweep]
  | count + 1, start, st => by
    rw [FullyCorrectiveUpdate.sweep_append env count 1 start st]
    cases hs : FullyCorrectiveUpdate.sweep env start count st with
    | none =>
      simp only [Option.bind, true_iff]
      obtain ⟨j, st₁, hj, h₁, h₂⟩ := (FullyCorrectiveUpdate.sweep_none_iff env count start st).1 hs
      exact ⟨j, st₁, by omega, h₁, h₂⟩
    | some st₂ =>
      simp only [Option.bind, FullyCorrectiveUpdate.sweep]
      constructor
      · intro h
        refine ⟨count, st₂, by omega, hs, ?_⟩
        cases hb : FullyCorrectiveUpdate.body env
            ((start + count) / st₂.1.num_tree_per_iteration_)
            ((start + count) % st₂.1.num_tree_per_iteration_) st₂ with
        | none => rfl
        | some st₃ => simp [hb] at h
      · rintro ⟨j, st₁, hj, h₁, h₂⟩
        rcases Nat.lt_or_ge j count with hlt | hge
        · have hnone : FullyCorrectiveUpdate.sweep env start count st = none :=
            (FullyCorrectiveUpdate.sweep_none_iff env count start st).2 ⟨j, st₁, hlt, h₁, h₂⟩
          rw [hs] at hnone
          simp at hnone
        · have hj' : j = count := by omega
          subst hj'
          rw [hs] at h₁
          simp only [Option.some.injEq] at h₁
          subst h₁
          rw [h₂]

theorem FullyCorrectiveUpdate.visit_gradients (env : Collaborators L) (iter tree_id : Nat)
    (st st' : RGF L × List Nat) (h : FullyCorrectiveUpdate.body env iter tree_id st = some st') :
    st'.1.gradients_ = (env.GetGradients st.1.train_score_updater_.score_).1 ∧
      st'.1.hessians_ = (env.GetGradients st.1.train_score_updater_.score_).2 := by
  rw [FullyCorrectiveUpdate.body_eq] at h
  split_ifs at h with hl
  simp only [Option.some.injEq] at h
  subst h
  exact ⟨rfl, rfl⟩

/-- A sweep that completes has completed every shorter sweep on the way. -/
theorem FullyCorrectiveUpdate.sweep_split (env : Collaborators L) (a b start : Nat)
    (st st' : RGF L × List Nat)
    (h : FullyCorrectiveUpdate.sweep env start (a + b) st = some st') :
    ∃ st₁, FullyCorrectiveUpdate.sweep env start a st = some st₁ ∧
      FullyCorrectiveUpdate.sweep env (start + a) b st₁ = some st' := by
  rw [FullyCorrectiveUpdate.sweep_append] at h
  cases hs : FullyCorrectiveUpdate.sweep env start a st with
  | none => simp [hs] at h
  | some st₁ =>
    rw [hs] at h
    exact ⟨st₁, rfl, h⟩

/-- The flat indices below `n * K` are the indices `r * K + c` of the rounds `r < n` and the
channels `c < K`. -/
theorem flat_index_iff (n K idx : Nat) :
    idx < n * K ↔ ∃ r c, r < n ∧ c < K ∧ idx = r * K + c := by
  constructor
  · intro h
    have hK : 0 < K := by
      rcases Nat.eq_zero_or_pos K with h0 | h0
      · rw [h0] at h
        simp at h
      · exact h0
    refine ⟨idx / K, idx % K, ?_, Nat.mod_lt _ hK, (Nat.div_add_mod' idx K).symm⟩
    exact Nat.div_lt_of_lt_mul (by rwa [Nat.mul_comm] at h)
  · rintro ⟨r, c, hr, hc, rfl⟩
    calc r * K + c < r * K + K := by omega
      _ = (r + 1) * K := by ring
      _ ≤ n * K := Nat.mul_le_mul_right K hr

/-- One visit inside a completed sweep: the states on arrival at and on departure from the
flat index `k`. -/
theorem FullyCorrectiveUpdate.sweep_visit (env : Collaborators L) (count k : Nat)
    (st₀ fin : RGF L × List Nat) (hk : k < count)
    (h : FullyCorrectiveUpdate.sweep env 0 count st₀ = some fin) :
    ∃ st st', FullyCorrectiveUpdate.sweep env 0 k st₀ = some st ∧
      FullyCorrectiveUpdate.sweep env 0 (k + 1) st₀ = some st' ∧
      FullyCorrectiveUpdate.body env (k / st.1.num_tree_per_iteration_)
        (k % st.1.num_tree_per_iteration_) st = some st' ∧
      FullyCorrectiveUpdate.sweep env (k + 1) (count - (k + 1)) st' = some fin := by
  have hcount : count = (k + 1) + (count - (k + 1)) := by omega
  rw [hcount] at h
  obtain ⟨st', h₁, h₂⟩ := FullyCorrectiveUpdate.sweep_split env (k + 1) _ 0 st₀ fin h
  obtain ⟨st, h₃, h₄⟩ := FullyCorrectiveUpdate.sweep_split env k 1 0 st₀ st' h₁
  rw [Nat.zero_add] at h₂ h₄
  refine ⟨st, st', h₃, h₁, ?_, h₂⟩
  simp only [FullyCorrectiveUpdate.sweep] at h₄
  cases hb : FullyCorrectiveUpdate.body env (k / st.1.num_tree_per_iteration_)
      (k % st.1.num_tree_per_iteration_) st with
  | none => simp [hb] at h₄
  | some st₁ =>
    simp only [hb, Option.some.injEq] at h₄
    rw [h₄]

/-- Replacing the entry at index `n` leaves the entries before it as they were. -/
theorem take_set_self {α : Type} (a : α) : ∀ (l : List α) (n : Nat),
    (l.set n a).take n = l.take n
  | [], _ => by simp
  | _ :: _, 0 => by simp
  | x :: l, n + 1 => by
    simp only [List.set_cons_succ, List.take_succ_cons, take_set_self a l n]

/-- One visit adds the prediction of the tree it stores to the training score of every data
point of the visited channel, and changes no other training score. -/
theorem FullyCorrectiveUpdate.visit_score (env : Collaborators L) (start : Nat)
    (st st' : RGF L × List Nat)
    (h : FullyCorrectiveUpdate.body env (start / st.1.num_tree_per_iteration_)
      (start % st.1.num_tree_per_iteration_) st = some st') :
    st'.1.train_score_updater_.num_data_ = st.1.train_score_updater_.num_data_ ∧
      st'.1.train_score_updater_.data_ = st.1.train_score_updater_.data_ ∧
      ∀ c i, i < st.1.train_score_updater_.num_data_ →
        st'.1.train_score_updater_.score_ (st.1.train_score_updater_.num_data_ * c + i) =
          st.1.train_score_updater_.score_ (st.1.train_score_updater_.num_data_ * c + i) +
            (if c = start % st.1.num_tree_per_iteration_ then
              (FullyCorrectiveUpdate.fit env start
                (start % st.1.num_tree_per_iteration_) st.1).1.Predict
                  (st.1.train_score_updater_.data_ i)
            else 0) := by
  obtain ⟨-, -, -, htrain⟩ := FullyCorrectiveUpdate.visit_spec env start st st' h
  rw [htrain]
  refine ⟨rfl, rfl, ?_⟩
  intro c i hi
  exact ScoreUpdater.AddScore_score _ _ _ c i hi

/-- After the sweep has visited the indices below `count`, the training scores have grown by
the contributions of the trees now stored at these indices. -/
theorem FullyCorrectiveUpdate.sweep_score (env : Collaborators L) :
    ∀ (count : Nat) (st₀ fin : RGF L × List Nat),
      FullyCorrectiveUpdate.sweep env 0 count st₀ = some fin →
      count ≤ st₀.1.models_.length →
      fin.1.train_score_updater_.num_data_ = st₀.1.train_score_updater_.num_data_ ∧
        fin.1.train_score_updater_.data_ = st₀.1.train_score_updater_.data_ ∧
        ∀ c i, i < st₀.1.train_score_updater_.num_data_ →
          fin.1.train_score_updater_.score_ (st₀.1.train_score_updater_.num_data_ * c + i) =
            st₀.1.train_score_updater_.score_ (st₀.1.train_score_updater_.num_data_ * c + i) +
              contribution st₀.1.num_tree_per_iteration_ c
                (st₀.1.train_score_updater_.data_ i) 0 (fin.1.models_.take count)
  | 0, st₀, fin, h, _ => by
    simp only [FullyCorrectiveUpdate.sweep, Option.some.injEq] at h
    subst h
    refine ⟨rfl, rfl, ?_⟩
    intro c i _
    simp [contribution]
  | count + 1, st₀, fin, h, hlen => by
    obtain ⟨st, h₁, h₂⟩ := FullyCorrectiveUpdate.sweep_split env count 1 0 st₀ fin h
    rw [Nat.zero_add] at h₂
    simp only [FullyCorrectiveUpdate.sweep] at h₂
    cases hb : FullyCorrectiveUpdate.body env (count / st.1.num_tree_per_iteration_)
        (count % st.1.num_tree_per_iteration_) st with
    | none => simp [hb] at h₂
    | some st₁ =>
      simp only [hb, Option.some.injEq] at h₂
      subst h₂
      obtain ⟨hnd, hdata, hscore⟩ :=
        FullyCorrectiveUpdate.sweep_score env count st₀ st h₁ (by omega)
      obtain ⟨hsetup, hlen', -⟩ := FullyCorrectiveUpdate.sweep_setup env count 0 st₀ st h₁
      have hK := hsetup.num_tree_per_iteration_
      obtain ⟨hnd₁, hdata₁, hscore₁⟩ := FullyCorrectiveUpdate.visit_score env count st st₁ hb
      obtain ⟨-, hset, -, -⟩ := FullyCorrectiveUpdate.visit_spec env count st st₁ hb
      refine ⟨hnd₁.trans hnd, hdata₁.trans hdata, ?_⟩
      intro c i hi
      have hlt : count < st.1.models_.length := by omega
      have htake : st₁.1.models_.take (count + 1) = st.1.models_.take count ++
          [(FullyCorrectiveUpdate.fit env count
            (count % st.1.num_tree_per_iteration_) st.1).1] := by
        rw [hset, List.take_succ, List.getElem?_set_eq_of_lt _ hlt, take_set_self]
        rfl
      have h₃ := hscore₁ c i (by omega)
      rw [hnd, hscore c i hi, hdata] at h₃
      rw [h₃, htake, contribution_append, List.length_take, Nat.min_eq_left (by omega),
        Nat.zero_add, hK, add_assoc]
      congr 1
      congr 1
      by_cases hc : c = count % st₀.1.num_tree_per_iteration_
      · simp [hc]
      · have hc' : ¬ count % st₀.1.num_tree_per_iteration_ = c := fun e => hc e.symm
        simp [hc, hc']

/-! ## The state on arrival at a channel -/

theorem TrainOneIter.loop_append (env : Collaborators L) (ext : Option ((Nat → ℚ) × (Nat → ℚ)))
    (init_score : ℚ) : ∀ (a b cur : Nat) (r : Round L),
      TrainOneIter.loop env ext init_score cur (a + b) r =
        (TrainOneIter.loop env ext init_score cur a r).bind
          (TrainOneIter.loop env ext init_score (cur + a) b)
  | 0, b, cur, r => by simp [TrainOneIter.loop]
  | a + 1, b, cur, r => by
    rw [show a + 1 + b = (a + b) + 1 by omega]
    simp only [TrainOneIter.loop]
    cases TrainOneIter.refit env (TrainOneIter.channel env ext init_score cur r) with
    | none => rfl
    | some r₁ =>
      simp only
      rw [TrainOneIter.loop_append env ext init_score a b (cur + 1) r₁,
        show cur + 1 + a = cur + (a + 1) by omega]

theorem TrainOneIter.loop_split (env : Collaborators L) (ext : Option ((Nat → ℚ) × (Nat → ℚ)))
    (init_score : ℚ) (a b cur : Nat) (r r' : Round L)
    (h : TrainOneIter.loop env ext init_score cur (a + b) r = some r') :
    ∃ r₁, TrainOneIter.loop env ext init_score cur a r = some r₁ ∧
      TrainOneIter.loop env ext init_score (cur + a) b r₁ = some r' := by
  rw [TrainOneIter.loop_append] at h
  cases hs : TrainOneIter.loop env ext init_score cur a r with
  | none => simp [hs] at h
  | some r₁ =>
    rw [hs] at h
    exact ⟨r₁, rfl, h⟩

/-- A single turn of the loop is the channel step followed by the refit check. -/
theorem TrainOneIter.loop_one (env : Collaborators L) (ext : Option ((Nat → ℚ) × (Nat → ℚ)))
    (init_score : ℚ) (cur : Nat) (r r' : Round L)
    (h : TrainOneIter.loop env ext init_score cur 1 r = some r') :
    TrainOneIter.refit env (TrainOneIter.channel env ext init_score cur r) = some r' := by
  simp only [TrainOneIter.loop] at h
  cases hr : TrainOneIter.refit env (TrainOneIter.channel env ext init_score cur r) with
  | none => simp [hr] at h
  | some r₁ =>
    simp only [hr, Option.some.injEq] at h
    rw [h]

/-- The outcome of a call in terms of the state at the end of the loop. -/
theorem TrainOneIter_outcome (env : Collaborators L) (gradients hessians : Option (Nat → ℚ))
    (s : RGF L) (o : Outcome L) (h : TrainOneIter env gradients hessians s = some o) :
    ∃ r, TrainOneIter.loop env (TrainOneIter.boost env gradients hessians s).2.1
        (TrainOneIter.boost env gradients hessians s).1 0 s.num_tree_per_iteration_
        ⟨(TrainOneIter.boost env gradients hessians s).2.2, false, []⟩ = some r ∧
      o.log = r.log ∧ o.finished = !r.should_continue ∧
      (o.finished = true → o.self =
        { r.self with models_ := popBack r.self.num_tree_per_iteration_ r.self.models_ }) ∧
      (o.finished = false → o.self = { r.self with iter_ := r.self.iter_ + 1 }) := by
  obtain ⟨hb, -, -, -⟩ := TrainOneIter.boost_setup env gradients hessians s
  unfold TrainOneIter at h
  simp only at h
  rw [hb.num_tree_per_iteration_] at h
  cases hl : TrainOneIter.loop env (TrainOneIter.boost env gradients hessians s).2.1
      (TrainOneIter.boost env gradients hessians s).1 0 s.num_tree_per_iteration_
      ⟨(TrainOneIter.boost env gradients hessians s).2.2, false, []⟩ with
  | none => simp [hl] at h
  | some r =>
    simp only [hl] at h
    refine ⟨r, rfl, ?_⟩
    split_ifs at h with hsc <;>
    · simp only [Option.some.injEq] at h
      subst h
      simp_all

/-- Every channel of a call that returns has been arrived at, its step and its refit check have
returned, and the record of the call extends the record of the step. -/
theorem TrainOneIter_arrival (env : Collaborators L) (gradients hessians : Option (Nat → ℚ))
    (s : RGF L) (o : Outcome L) (h : TrainOneIter env gradients hessians s = some o)
    (c : Nat) (hc : c < s.num_tree_per_iteration_) :
    ∃ rc r₁ r', TrainOneIter.arrival env gradients hessians s c = some rc ∧
      TrainOneIter.refit env (TrainOneIter.channel env
        (TrainOneIter.boost env gradients hessians s).2.1
        (TrainOneIter.boost env gradients hessians s).1 c rc) = some r₁ ∧
      TrainOneIter.loop env (TrainOneIter.boost env gradients hessians s).2.1
        (TrainOneIter.boost env gradients hessians s).1 (c + 1)
        (s.num_tree_per_iteration_ - (c + 1)) r₁ = some r' ∧
      SameSetup s rc.self ∧ rc.self.models_.length = s.models_.length + c ∧
      ∃ evs, o.log = (TrainOneIter.channel env
        (TrainOneIter.boost env gradients hessians s).2.1
        (TrainOneIter.boost env gradients hessians s).1 c rc).log ++ evs := by
  obtain ⟨r', hl, hlog, -⟩ := TrainOneIter_loop env gradients hessians s o h
  obtain ⟨hb, hm, -, -⟩ := TrainOneIter.boost_setup env gradients hessians s
  have hK : s.num_tree_per_iteration_ = c + (1 + (s.num_tree_per_iteration_ - (c + 1))) := by
    omega
  rw [hK] at hl
  obtain ⟨rc, h₁, h₂⟩ := TrainOneIter.loop_split env _ _ c _ 0 _ r' hl
  obtain ⟨r₁, h₃, h₄⟩ := TrainOneIter.loop_split env _ _ 1 _ (0 + c) rc r' h₂
  rw [Nat.zero_add] at h₃ h₄
  have h₅ := TrainOneIter.loop_one env _ _ c rc r₁ h₃
  obtain ⟨hs₁, hlen₁, -⟩ := TrainOneIter.loop_spec env _ _ c 0 _ rc h₁
  obtain ⟨evs₂, hevs₂⟩ := TrainOneIter.loop_log env _ _ _ (c + 1) r₁ r' h₄
  refine ⟨rc, r₁, r', h₁, h₅, h₄, hb.trans hs₁, ?_, ?_⟩
  · rw [hlen₁]
    simp only
    rw [hm]
  · rw [hlog, hevs₂]
    rcases (TrainOneIter.refit_spec env _ r₁ h₅).2.2.2.2 with hq | ⟨visited, hq⟩
    · exact ⟨evs₂, by rw [hq]⟩
    · exact ⟨Event.refit visited :: evs₂, by rw [hq, List.append_assoc]; rfl⟩

/-! ## The trees appended by a round -/

theorem pushedTrees_append (a b : List Event) :
    pushedTrees (a ++ b) = pushedTrees a ++ pushedTrees b := by
  unfold pushedTrees
  exact List.filterMap_append _ _ _

/-- A channel step appends the tree of its one `push_back`. -/
theorem TrainOneIter.channel_pushed (env : Collaborators L)
    (ext : Option ((Nat → ℚ) × (Nat → ℚ))) (init_score : ℚ) (c : Nat) (r : Round L) :
    (TrainOneIter.channel env ext init_score c r).self.models_ =
        r.self.models_ ++ pushedTrees (TrainOneIter.events env ext init_score c r) ∧
      (pushedTrees (TrainOneIter.events env ext init_score c r)).length = 1 := by
  rcases TrainOneIter.events_cases env ext init_score c r with
    ⟨h₁, h₂, he⟩ | ⟨h₁, h₂, he⟩ | ⟨h₁, h₂, h₃, he⟩ | ⟨h₁, h₂, he⟩
  · rw [he, TrainOneIter.channel_accepted_bias env ext init_score c r h₁ h₂]
    exact ⟨rfl, rfl⟩
  · rw [he, TrainOneIter.channel_accepted_plain env ext init_score c r h₁ h₂]
    exact ⟨rfl, rfl⟩
  · rw [he, TrainOneIter.channel_default env ext init_score c r h₁ h₂ h₃]
    exact ⟨rfl, rfl⟩
  · rw [he, TrainOneIter.channel_placeholder env ext init_score c r h₁ h₂]
    exact ⟨rfl, rfl⟩

/-- While no refit is due, the loop only appends: the ensemble grows by the trees of the
`push_back` calls of the record, one per channel. -/
theorem TrainOneIter.loop_pushed (env : Collaborators L)
    (ext : Option ((Nat → ℚ) × (Nat → ℚ))) (init_score : ℚ) :
    ∀ (todo cur : Nat) (r r' : Round L),
      TrainOneIter.loop env ext init_score cur todo r = some r' →
      ¬ RefitDue r.self →
      ∃ evs, r'.log = r.log ++ evs ∧ r'.self.models_ = r.self.models_ ++ pushedTrees evs ∧
        (pushedTrees evs).length = todo
  | 0, _, r, r', h, _ => by
    simp only [TrainOneIter.loop, Option.some.injEq] at h
    subst h
    exact ⟨[], by simp, by simp [pushedTrees], rfl⟩
  | todo + 1, cur, r, r', h, hnd => by
    rw [TrainOneIter.loop_succ env ext init_score cur todo r hnd] at h
    have hnd' : ¬ RefitDue (TrainOneIter.channel env ext init_score cur r).self := fun hd =>
      hnd ((RefitDue_congr (TrainOneIter.channel_setup env ext init_score cur r)).1 hd)
    obtain ⟨evs, hlog, hmodels, hlen⟩ :=
      TrainOneIter.loop_pushed env ext init_score todo (cur + 1) _ r' h hnd'
    obtain ⟨hm, h1⟩ := TrainOneIter.channel_pushed env ext init_score cur r
    refine ⟨TrainOneIter.events env ext init_score cur r ++ evs, ?_, ?_, ?_⟩
    · rw [hlog, TrainOneIter.channel_log_events, List.append_assoc]
    · rw [hmodels, hm, pushedTrees_append, List.append_assoc]
    · rw [pushedTrees_append, List.length_append, h1, hlen]
      omega

/-! ## The gradient buffers during a round -/

/-- The step of a channel does not write to the gradient buffers. -/
theorem TrainOneIter.channel_gradients (env : Collaborators L)
    (ext : Option ((Nat → ℚ) × (Nat → ℚ))) (init_score : ℚ) (c : Nat) (r : Round L) :
    (TrainOneIter.channel env ext init_score c r).self.gradients_ = r.self.gradients_ ∧
      (TrainOneIter.channel env ext init_score c r).self.hessians_ = r.self.hessians_ := by
  rcases TrainOneIter.events_cases env ext init_score c r with
    ⟨h₁, h₂, -⟩ | ⟨h₁, h₂, -⟩ | ⟨h₁, h₂, h₃, -⟩ | ⟨h₁, h₂, -⟩
  · rw [TrainOneIter.channel_accepted_bias env ext init_score c r h₁ h₂]
    exact ⟨rfl, rfl⟩
  · rw [TrainOneIter.channel_accepted_plain env ext init_score c r h₁ h₂]
    exact ⟨rfl, rfl⟩
  · rw [TrainOneIter.channel_default env ext init_score c r h₁ h₂ h₃]
    exact ⟨rfl, rfl⟩
  · rw [TrainOneIter.channel_placeholder env ext init_score c r h₁ h₂]
    exact ⟨rfl, rfl⟩

/-- While no refit is due, the loop does not write to the gradient buffers. -/
theorem TrainOneIter.loop_gradients (env : Collaborators L)
    (ext : Option ((Nat → ℚ) × (Nat → ℚ))) (init_score : ℚ) :
    ∀ (todo cur : Nat) (r r' : Round L),
      TrainOneIter.loop env ext init_score cur todo r = some r' →
      ¬ RefitDue r.self →
      r'.self.gradients_ = r.self.gradients_ ∧ r'.self.hessians_ = r.self.hessians_
  | 0, _, r, r', h, _ => by
    simp only [TrainOneIter.loop, Option.some.injEq] at h
    subst h
    exact ⟨rfl, rfl⟩
  | todo + 1, cur, r, r', h, hnd => by
    rw [TrainOneIter.loop_succ env ext init_score cur todo r hnd] at h
    have hnd' : ¬ RefitDue (TrainOneIter.channel env ext init_score cur r).self := fun hd =>
      hnd ((RefitDue_congr (TrainOneIter.channel_setup env ext init_score cur r)).1 hd)
    obtain ⟨a₁, b₁⟩ := TrainOneIter.channel_gradients env ext init_score cur r
    obtain ⟨a₂, b₂⟩ := TrainOneIter.loop_gradients env ext init_score todo (cur + 1) _ r' h hnd'
    exact ⟨a₂.trans a₁, b₂.trans b₁⟩

/-- A channel that needs training is fitted by `Train` from its slices of the buffers in use. -/
theorem TrainOneIter.acquire_of_need (env : Collaborators L)
    (ext : Option ((Nat → ℚ) × (Nat → ℚ))) (c : Nat) (s : RGF L)
    (h : s.class_need_train_ c = true) :
    TrainOneIter.acquire env ext c s =
      env.Train s.tree_learner_ (shift (TrainOneIter.buffers ext s).1 (c * s.num_data_))
        (shift (TrainOneIter.buffers ext s).2 (c * s.num_data_)) s.is_constant_hessian_ := by
  simp [TrainOneIter.acquire, h]

/-- What a returning call did at a channel that needs training: the tree of `Train` on the
state of arrival is in the record. -/
theorem TrainOneIter_trained (env : Collaborators L) (gradients hessians : Option (Nat → ℚ))
    (s : RGF L) (o : Outcome L) (h : TrainOneIter env gradients hessians s = some o)
    (c : Nat) (hc : c < s.num_tree_per_iteration_) (hneed : s.class_need_train_ c = true) :
    ∃ rc, TrainOneIter.arrival env gradients hessians s c = some rc ∧
      TrainOneIter.acquire env (TrainOneIter.boost env gradients hessians s).2.1 c rc.self =
        env.Train rc.self.tree_learner_
          (shift (TrainOneIter.buffers (TrainOneIter.boost env gradients hessians s).2.1
            rc.self).1 (c * s.num_data_))
          (shift (TrainOneIter.buffers (TrainOneIter.boost env gradients hessians s).2.1
            rc.self).2 (c * s.num_data_)) rc.self.is_constant_hessian_ ∧
      Event.acquired c (TrainOneIter.acquire env
        (TrainOneIter.boost env gradients hessians s).2.1 c rc.self).1 ∈ o.log ∧
      (¬ RefitDue s →
        rc.self.gradients_ = (TrainOneIter.boost env gradients hessians s).2.2.gradients_ ∧
        rc.self.hessians_ = (TrainOneIter.boost env gradients hessians s).2.2.hessians_) := by
  obtain ⟨rc, r₁, r', harr, -, -, hsetup, -, evs, hevs⟩ :=
    TrainOneIter_arrival env gradients hessians s o h c hc
  have hneed' : rc.self.class_need_train_ c = true := by
    rw [hsetup.class_need_train_]
    exact hneed
  refine ⟨rc, harr, ?_, ?_, ?_⟩
  · rw [TrainOneIter.acquire_of_need env _ c rc.self hneed', hsetup.num_data_]
  · obtain ⟨evs', hevs', -⟩ := TrainOneIter.channel_log env
      (TrainOneIter.boost env gradients hessians s).2.1
      (TrainOneIter.boost env gradients hessians s).1 c rc
    rw [hevs, hevs']
    simp
  · intro hnd
    have hnd₀ : ¬ RefitDue (TrainOneIter.boost env gradients hessians s).2.2 := fun hd =>
      hnd ((RefitDue_congr (TrainOneIter.boost_setup env gradients hessians s).1).1 hd)
    exact TrainOneIter.loop_gradients env _ _ c 0 _ rc harr hnd₀

/-! ## What a round adds to the scores of a channel -/

theorem ChannelAdds_same (c : Nat) (u : ScoreUpdater) : ChannelAdds c (fun _ => 0) u u :=
  ⟨rfl, rfl, fun _ _ => (add_zero _).symm⟩

theorem ChannelAdds_congr {c : Nat} {f g : List ℚ → ℚ} {u v : ScoreUpdater}
    (hfg : ∀ row, f row = g row) (h : ChannelAdds c f u v) : ChannelAdds c g u v :=
  ⟨h.1, h.2.1, fun i hi => by rw [h.2.2 i hi, hfg]⟩

theorem ChannelAdds_compose {c : Nat} {f g : List ℚ → ℚ} {u v w : ScoreUpdater}
    (h₁ : ChannelAdds c f u v) (h₂ : ChannelAdds c g v w) :
    ChannelAdds c (fun row => f row + g row) u w := by
  refine ⟨h₂.1.trans h₁.1, h₂.2.1.trans h₁.2.1, fun i hi => ?_⟩
  have := h₂.2.2 i (by rw [h₁.1]; exact hi)
  rw [h₁.1, h₁.2.1] at this
  rw [this, h₁.2.2 i hi]
  ring

theorem ChannelAdds_AddScore (u : ScoreUpdater) (tree : Tree) (c : Nat) :
    ChannelAdds c tree.Predict u (u.AddScore tree c) := by
  refine ⟨rfl, rfl, fun i hi => ?_⟩
  rw [ScoreUpdater.AddScore_score _ _ _ _ _ hi, if_pos rfl]

theorem ChannelAdds_AddScore_ne (u : ScoreUpdater) (tree : Tree) (c cur : Nat) (h : c ≠ cur) :
    ChannelAdds c (fun _ => 0) u (u.AddScore tree cur) := by
  refine ⟨rfl, rfl, fun i hi => ?_⟩
  rw [ScoreUpdater.AddScore_score _ _ _ _ _ hi, if_neg h]

theorem ChannelAdds_AddScoreConstant_ne (u : ScoreUpdater) (val : ℚ) (c cur : Nat)
    (h : c ≠ cur) : ChannelAdds c (fun _ => 0) u (u.AddScoreConstant val cur) := by
  refine ⟨rfl, rfl, fun i hi => ?_⟩
  rw [ScoreUpdater.AddScoreConstant_score _ _ _ _ _ hi, if_neg h]

theorem Forall₂_of_refl {R : ScoreUpdater → ScoreUpdater → Prop} (h : ∀ u, R u u) :
    ∀ l : List ScoreUpdater, List.Forall₂ R l l
  | [] => List.Forall₂.nil
  | u :: l => List.Forall₂.cons (h u) (Forall₂_of_refl h l)

theorem Forall₂_chain {R S T : ScoreUpdater → ScoreUpdater → Prop}
    (h : ∀ u v w, R u v → S v w → T u w) : ∀ {l₁ l₂ l₃ : List ScoreUpdater},
    List.Forall₂ R l₁ l₂ → List.Forall₂ S l₂ l₃ → List.Forall₂ T l₁ l₃
  | [], _, _, List.Forall₂.nil, List.Forall₂.nil => List.Forall₂.nil
  | _ :: _, _, _, List.Forall₂.cons h₁ t₁, List.Forall₂.cons h₂ t₂ =>
    List.Forall₂.cons (h _ _ _ h₁ h₂) (Forall₂_chain h t₁ t₂)

/-- Steps that add nothing to channel `c` before and after a step that adds `f`. -/
theorem ChannelAdds_between {c : Nat} {f : List ℚ → ℚ} {u v w x : ScoreUpdater}
    (h₁ : ChannelAdds c (fun _ => 0) u v) (h₂ : ChannelAdds c f v w)
    (h₃ : ChannelAdds c (fun _ => 0) w x) : ChannelAdds c f u x :=
  ChannelAdds_congr (fun row => by ring) (ChannelAdds_compose (ChannelAdds_compose h₁ h₂) h₃)

theorem Forall₂_between {c : Nat} {f : List ℚ → ℚ} {l₁ l₂ l₃ l₄ : List ScoreUpdater}
    (h₁ : List.Forall₂ (ChannelAdds c (fun _ => 0)) l₁ l₂)
    (h₂ : List.Forall₂ (ChannelAdds c f) l₂ l₃)
    (h₃ : List.Forall₂ (ChannelAdds c (fun _ => 0)) l₃ l₄) :
    List.Forall₂ (ChannelAdds c f) l₁ l₄ := by
  have step₁ : ∀ u v w, ChannelAdds c (fun _ => 0) u v → ChannelAdds c f v w →
      ChannelAdds c f u w := fun _ _ _ a b =>
    ChannelAdds_congr (fun row => zero_add (f row)) (ChannelAdds_compose a b)
  have step₂ : ∀ u v w, ChannelAdds c f u v → ChannelAdds c (fun _ => 0) v w →
      ChannelAdds c f u w := fun _ _ _ a b =>
    ChannelAdds_congr (fun row => add_zero (f row)) (ChannelAdds_compose a b)
  exact Forall₂_chain step₂ (Forall₂_chain step₁ h₁ h₂) h₃

theorem Forall₂_adds {c : Nat} {f g : List ℚ → ℚ} {l₁ l₂ l₃ : List ScoreUpdater}
    (h₁ : List.Forall₂ (ChannelAdds c f) l₁ l₂) (h₂ : List.Forall₂ (ChannelAdds c g) l₂ l₃) :
    List.Forall₂ (ChannelAdds c (fun row => f row + g row)) l₁ l₃ := by
  have step : ∀ u v w, ChannelAdds c f u v → ChannelAdds c g v w →
      ChannelAdds c (fun row => f row + g row) u w := fun _ _ _ a b => ChannelAdds_compose a b
  exact Forall₂_chain step h₁ h₂

/-! ## The contribution of a round to a channel -/

theorem contribution_concat (K c : Nat) (row : List ℚ) :
    ∀ (a b : List Tree) (index : Nat),
      contribution K c row index (a ++ b) =
        contribution K c row index a + contribution K c row (index + a.length) b
  | [], b, index => by simp [contribution]
  | t :: a, b, index => by
    have ih := contribution_concat K c row a b (index + 1)
    rw [show index + 1 + a.length = index + (a.length + 1) by omega] at ih
    rw [List.cons_append, contribution, contribution, ih, List.length_cons]
    ring

theorem contribution_zero (K c : Nat) (row : List ℚ) :
    ∀ (l : List Tree) (index : Nat), (∀ j, j < l.length → (index + j) % K ≠ c) →
      contribution K c row index l = 0
  | [], _, _ => rfl
  | t :: l, index, h => by
    have h0 := h 0 (by simp)
    rw [Nat.add_zero] at h0
    have ih := contribution_zero K c row l (index + 1) (fun j hj => by
      have := h (j + 1) (by simp only [List.length_cons]; omega)
      rwa [show index + (j + 1) = index + 1 + j by omega] at this)
    rw [contribution, if_neg h0, ih]
    ring

/-- A complete round appended to an ensemble of complete rounds contributes to channel `c` the
prediction of its entry `c`. -/
theorem contribution_round (K c : Nat) (row : List ℚ) (base block : List Tree) (t : Tree)
    (hdiv : K ∣ base.length) (hlen : block.length = K) (hc : c < K)
    (ht : block[c]? = some t) :
    contribution K c row 0 (base ++ block) =
      contribution K c row 0 base + t.Predict row := by
  obtain ⟨q, hq⟩ := hdiv
  have hcl : c < block.length := by omega
  have hsplit : block = block.take c ++ t :: block.drop (c + 1) := by
    have hget : block[c] = t := by
      rw [List.getElem?_eq_getElem hcl] at ht
      exact Option.some.inj ht
    rw [← hget, ← List.drop_eq_getElem_cons hcl, List.take_append_drop]
  have hmod : ∀ j, j < K → (base.length + j) % K = j := by
    intro j hj
    rw [hq, Nat.mul_add_mod, Nat.mod_eq_of_lt hj]
  rw [contribution_concat, Nat.zero_add, hsplit, contribution_concat,
    contribution_zero K c row (block.take c), contribution]
  · rw [List.length_take, Nat.min_eq_left (by omega), if_pos (hmod c hc),
      contribution_zero K c row (block.drop (c + 1))]
    · ring
    · intro j hj
      rw [List.length_drop] at hj
      rw [show base.length + c + 1 + j = base.length + (c + 1 + j) by omega,
        hmod (c + 1 + j) (by omega)]
      omega
  · intro j hj
    rw [List.length_take] at hj
    rw [hmod j (by omega)]
    omega

/-! ## The frame of one channel in a round without refit -/

theorem TrainOneIter.channel_adds_other (env : Collaborators L)
    (ext : Option ((Nat → ℚ) × (Nat → ℚ))) (init_score : ℚ) (c cur : Nat) (r : Round L)
    (hne : c ≠ cur) :
    ChannelAdds c (fun _ => 0) r.self.train_score_updater_
        (TrainOneIter.channel env ext init_score cur r).self.train_score_updater_ ∧
      List.Forall₂ (ChannelAdds c (fun _ => 0)) r.self.valid_score_updater_
        (TrainOneIter.channel env ext init_score cur r).self.valid_score_updater_ := by
  rcases TrainOneIter.events_cases env ext init_score cur r with
    ⟨h₁, h₂, -⟩ | ⟨h₁, h₂, -⟩ | ⟨h₁, h₂, h₃, -⟩ | ⟨h₁, h₂, -⟩
  · rw [TrainOneIter.channel_accepted_bias env ext init_score cur r h₁ h₂]
    exact ⟨ChannelAdds_AddScore_ne _ _ c cur hne,
      Forall₂_map_of_forall _ (fun u => ChannelAdds_AddScore_ne u _ c cur hne) _⟩
  · rw [TrainOneIter.channel_accepted_plain env ext init_score cur r h₁ h₂]
    exact ⟨ChannelAdds_AddScore_ne _ _ c cur hne,
      Forall₂_map_of_forall _ (fun u => ChannelAdds_AddScore_ne u _ c cur hne) _⟩
  · rw [TrainOneIter.channel_default env ext init_score cur r h₁ h₂ h₃]
    exact ⟨ChannelAdds_AddScoreConstant_ne _ _ c cur hne,
      Forall₂_map_of_forall _ (fun u => ChannelAdds_AddScoreConstant_ne u _ c cur hne) _⟩
  · rw [TrainOneIter.channel_placeholder env ext init_score cur r h₁ h₂]
    exact ⟨ChannelAdds_same c _, Forall₂_of_refl (ChannelAdds_same c) _⟩

theorem TrainOneIter.loop_adds_other (env : Collaborators L)
    (ext : Option ((Nat → ℚ) × (Nat → ℚ))) (init_score : ℚ) (c : Nat) :
    ∀ (todo cur : Nat) (r r' : Round L),
      TrainOneIter.loop env ext init_score cur todo r = some r' →
      ¬ RefitDue r.self → (c < cur ∨ cur + todo ≤ c) →
      ChannelAdds c (fun _ => 0) r.self.train_score_updater_ r'.self.train_score_updater_ ∧
        List.Forall₂ (ChannelAdds c (fun _ => 0)) r.self.valid_score_updater_
          r'.self.valid_score_updater_
  | 0, _, r, r', h, _, _ => by
    simp only [TrainOneIter.loop, Option.some.injEq] at h
    subst h
    exact ⟨ChannelAdds_same c _, Forall₂_of_refl (ChannelAdds_same c) _⟩
  | todo + 1, cur, r, r', h, hnd, hout => by
    rw [TrainOneIter.loop_succ env ext init_score cur todo r hnd] at h
    have hnd' : ¬ RefitDue (TrainOneIter.channel env ext init_score cur r).self := fun hd =>
      hnd ((RefitDue_congr (TrainOneIter.channel_setup env ext init_score cur r)).1 hd)
    obtain ⟨a₁, b₁⟩ := TrainOneIter.channel_adds_other env ext init_score c cur r (by omega)
    obtain ⟨a₂, b₂⟩ :=
      TrainOneIter.loop_adds_other env ext init_score c todo (cur + 1) _ r' h hnd' (by omega)
    have step : ∀ u v w : ScoreUpdater, ChannelAdds c (fun _ => 0) u v →
        ChannelAdds c (fun _ => 0) v w → ChannelAdds c (fun _ => 0) u w := fun _ _ _ a b =>
      ChannelAdds_congr (fun _ => add_zero (0 : ℚ)) (ChannelAdds_compose a b)
    exact ⟨step _ _ _ a₁ a₂, Forall₂_chain step b₁ b₂⟩

/-- The ensemble after a call in which no refit is due, in terms of the pushed trees. -/
theorem TrainOneIter_models (env : Collaborators L) (gradients hessians : Option (Nat → ℚ))
    (s : RGF L) (o : Outcome L) (ho : TrainOneIter env gradients hessians s = some o)
    (hnd : ¬ RefitDue s) :
    (pushedTrees o.log).length = s.num_tree_per_iteration_ ∧
      (o.finished = false → o.self.models_ = s.models_ ++ pushedTrees o.log) ∧
      (o.finished = true → o.self.models_ = s.models_) := by
  obtain ⟨r, hl, hlog, hfin, hroll, hkeep⟩ := TrainOneIter_outcome env gradients hessians s o ho
  obtain ⟨hb, hm, -, -⟩ := TrainOneIter.boost_setup env gradients hessians s
  have hnd' : ¬ RefitDue (TrainOneIter.boost env gradients hessians s).2.2 := fun hd =>
    hnd ((RefitDue_congr hb).1 hd)
  obtain ⟨evs, hevs, hmodels, hlen⟩ := TrainOneIter.loop_pushed env _ _ _ 0 _ r hl hnd'
  simp only [List.nil_append] at hevs
  rw [hm, ← hevs, ← hlog] at hmodels
  rw [← hevs, ← hlog] at hlen
  have hK := (TrainOneIter.loop_spec env _ _ _ 0 _ r hl).1.num_tree_per_iteration_
  rw [hb.num_tree_per_iteration_] at hK
  refine ⟨hlen, ?_, ?_⟩
  · intro hf
    rw [hkeep hf]
    exact hmodels
  · intro hf
    rw [hroll hf]
    simp only
    rw [hK, hmodels]
    exact popBack_append _ _ _ hlen

/-- One channel of a returning call in which no refit is due: the channels before it and after
it add nothing to its scores and only append to the ensemble. -/
theorem TrainOneIter_channel_frame (env : Collaborators L)
    (gradients hessians : Option (Nat → ℚ)) (s : RGF L) (o : Outcome L)
    (ho : TrainOneIter env gradients hessians s = some o) (hnd : ¬ RefitDue s)
    (c : Nat) (hc : c < s.num_tree_per_iteration_) :
    ∃ rc, TrainOneIter.arrival env gradients hessians s c = some rc ∧
      SameSetup s rc.self ∧ rc.self.models_.length = s.models_.length + c ∧
      ChannelAdds c (fun _ => 0) s.train_score_updater_ rc.self.train_score_updater_ ∧
      List.Forall₂ (ChannelAdds c (fun _ => 0)) s.valid_score_updater_
        rc.self.valid_score_updater_ ∧
      ChannelAdds c (fun _ => 0)
        (TrainOneIter.channel env (TrainOneIter.boost env gradients hessians s).2.1
          (TrainOneIter.boost env gradients hessians s).1 c rc).self.train_score_updater_
        o.self.train_score_updater_ ∧
      List.Forall₂ (ChannelAdds c (fun _ => 0))
        (TrainOneIter.channel env (TrainOneIter.boost env gradients hessians s).2.1
          (TrainOneIter.boost env gradients hessians s).1 c rc).self.valid_score_updater_
        o.self.valid_score_updater_ ∧
      (∃ evs, o.log = (TrainOneIter.channel env
        (TrainOneIter.boost env gradients hessians s).2.1
        (TrainOneIter.boost env gradients hessians s).1 c rc).log ++ evs) ∧
      (o.finished = false → ∀ idx : Nat,
        idx < (TrainOneIter.channel env (TrainOneIter.boost env gradients hessians s).2.1
          (TrainOneIter.boost env gradients hessians s).1 c rc).self.models_.length →
        o.self.models_[idx]? =
          (TrainOneIter.channel env (TrainOneIter.boost env gradients hessians s).2.1
            (TrainOneIter.boost env gradients hessians s).1 c rc).self.models_[idx]?) := by
  obtain ⟨r, hl, hlog, hfin, hroll, hkeep⟩ := TrainOneIter_outcome env gradients hessians s o ho
  obtain ⟨hb, hm, htr, hva⟩ := TrainOneIter.boost_setup env gradients hessians s
  have hK : s.num_tree_per_iteration_ = c + (1 + (s.num_tree_per_iteration_ - (c + 1))) := by
    omega
  rw [hK] at hl
  obtain ⟨rc, h₁, h₂⟩ := TrainOneIter.loop_split env _ _ c _ 0 _ r hl
  obtain ⟨r₁, h₃, h₄⟩ := TrainOneIter.loop_split env _ _ 1 _ (0 + c) rc r h₂
  rw [Nat.zero_add] at h₃ h₄
  have h₅ := TrainOneIter.loop_one env _ _ c rc r₁ h₃
  obtain ⟨hs₁, hlen₁, -⟩ := TrainOneIter.loop_spec env _ _ c 0 _ rc h₁
  simp only at hs₁ hlen₁
  rw [hm] at hlen₁
  have hsetup : SameSetup s rc.self := hb.trans hs₁
  have hnd₀ : ¬ RefitDue (TrainOneIter.boost env gradients hessians s).2.2 := fun hd =>
    hnd ((RefitDue_congr hb).1 hd)
  have hnd₁ : ¬ RefitDue rc.self := fun hd => hnd ((RefitDue_congr hsetup).1 hd)
  have hnd₂ : ¬ RefitDue (TrainOneIter.channel env
      (TrainOneIter.boost env gradients hessians s).2.1
      (TrainOneIter.boost env gradients hessians s).1 c rc).self := fun hd =>
    hnd₁ ((RefitDue_congr (TrainOneIter.channel_setup env _ _ c rc)).1 hd)
  rw [TrainOneIter.refit_of_not_due env _ hnd₂, Option.some.injEq] at h₅
  have hself : o.self.train_score_updater_ = r.self.train_score_updater_ ∧
      o.self.valid_score_updater_ = r.self.valid_score_updater_ := by
    cases hf : o.finished with
    | false => rw [hkeep hf]; exact ⟨rfl, rfl⟩
    | true => rw [hroll hf]; exact ⟨rfl, rfl⟩
  obtain ⟨a₁, b₁⟩ := TrainOneIter.loop_adds_other env _ _ c c 0 _ rc h₁ hnd₀ (Or.inr (by omega))
  have hnd₃ : ¬ RefitDue r₁.self := by
    rw [← h₅]
    exact hnd₂
  obtain ⟨a₂, b₂⟩ := TrainOneIter.loop_adds_other env _ _ c _ (c + 1) r₁ r h₄ hnd₃
    (Or.inl (by omega))
  obtain ⟨evs, hevs, hmodels, -⟩ := TrainOneIter.loop_pushed env _ _ _ (c + 1) r₁ r h₄ hnd₃
  rw [← h₅] at a₂ b₂ hevs hmodels
  simp only at a₁ b₁
  rw [htr] at a₁
  rw [hva] at b₁
  refine ⟨rc, h₁, hsetup, hlen₁, a₁, b₁, ?_, ?_, ⟨evs, by rw [hlog, hevs]⟩, ?_⟩
  · rw [hself.1]
    exact a₂
  · rw [hself.2]
    exact b₂
  · intro hf idx hidx
    rw [hkeep hf]
    simp only
    rw [hmodels, List.getElem?_append_left hidx]

/-- A channel whose acquired tree has more than one leaf, in a returning call in which no
refit is due: the round is productive, the tree is stored at the flat index
`models_.size() + c` (with the bias when its magnitude exceeds `kEpsilon`), and over the whole
call the scores of the channel grow, in every partition, by the predictions of the shrunk tree
as it was before the bias. -/
theorem TrainOneIter_accepted (env : Collaborators L)
    (gradients hessians : Option (Nat → ℚ)) (s : RGF L) (o : Outcome L)
    (ho : TrainOneIter env gradients hessians s = some o) (hnd : ¬ RefitDue s)
    (c : Nat) (hc : c < s.num_tree_per_iteration_) :
    ∃ rc, TrainOneIter.arrival env gradients hessians s c = some rc ∧
      SameSetup s rc.self ∧ rc.self.models_.length = s.models_.length + c ∧
      (1 < (TrainOneIter.acquire env (TrainOneIter.boost env gradients hessians s).2.1 c
          rc.self).1.num_leaves →
        o.finished = false ∧
        o.self.models_[s.models_.length + c]? =
          some (if |(TrainOneIter.boost env gradients hessians s).1| > env.kEpsilon then
            (TrainOneIter.renewed env c rc.self (TrainOneIter.acquire env
              (TrainOneIter.boost env gradients hessians s).2.1 c rc.self)).1.AddBias
                (TrainOneIter.boost env gradients hessians s).1
          else (TrainOneIter.renewed env c rc.self (TrainOneIter.acquire env
            (TrainOneIter.boost env gradients hessians s).2.1 c rc.self)).1) ∧
        ChannelAdds c (TrainOneIter.renewed env c rc.self (TrainOneIter.acquire env
            (TrainOneIter.boost env gradients hessians s).2.1 c rc.self)).1.Predict
          s.train_score_updater_ o.self.train_score_updater_ ∧
        List.Forall₂ (ChannelAdds c (TrainOneIter.renewed env c rc.self
            (TrainOneIter.acquire env (TrainOneIter.boost env gradients hessians s).2.1 c
              rc.self)).1.Predict)
          s.valid_score_updater_ o.self.valid_score_updater_) := by
  obtain ⟨rc, harr, hsetup, hlen, a₁, b₁, a₂, b₂, ⟨evs, hevs⟩, hidx⟩ :=
    TrainOneIter_channel_frame env gradients hessians s o ho hnd c hc
  refine ⟨rc, harr, hsetup, hlen, fun hacc => ?_⟩
  have hprod : o.finished = false := by
    cases hf : o.finished with
    | false => rfl
    | true =>
      exfalso
      refine (TrainOneIter_spec env gradients hessians s o ho).2.1.1 hf ⟨c, _, ?_, hacc⟩
      obtain ⟨evs', hevs', -⟩ := TrainOneIter.channel_log env
        (TrainOneIter.boost env gradients hessians s).2.1
        (TrainOneIter.boost env gradients hessians s).1 c rc
      rw [hevs, hevs']
      simp
  have hget : ∀ t : Tree, (rc.self.models_ ++ [t])[s.models_.length + c]? = some t := by
    intro t
    rw [← hlen, List.getElem?_append_right (Nat.le_refl _), Nat.sub_self]
    rfl
  by_cases hbias : |(TrainOneIter.boost env gradients hessians s).1| > env.kEpsilon
  · rw [TrainOneIter.channel_accepted_bias env _ _ c rc hacc hbias] at a₂ b₂ hidx
    simp only [UpdateScore] at a₂ b₂ hidx
    refine ⟨hprod, ?_, ChannelAdds_between a₁ (ChannelAdds_AddScore _ _ c) a₂,
      Forall₂_between b₁ (Forall₂_map_of_forall _ (fun u => ChannelAdds_AddScore u _ c) _) b₂⟩
    rw [if_pos hbias, hidx hprod _ (by rw [List.length_append, hlen]; simp), hget]
  · rw [TrainOneIter.channel_accepted_plain env _ _ c rc hacc hbias] at a₂ b₂ hidx
    simp only [UpdateScore] at a₂ b₂ hidx
    refine ⟨hprod, ?_, ChannelAdds_between a₁ (ChannelAdds_AddScore _ _ c) a₂,
      Forall₂_between b₁ (Forall₂_map_of_forall _ (fun u => ChannelAdds_AddScore u _ c) _) b₂⟩
    rw [if_neg hbias, hidx hprod _ (by rw [List.length_append, hlen]; simp), hget]

/-- A call leaves the fixed parameters of the booster as they are. -/
theorem TrainOneIter_setup (env : Collaborators L) (gradients hessians : Option (Nat → ℚ))
    (s : RGF L) (o : Outcome L) (ho : TrainOneIter env gradients hessians s = some o) :
    o.self.num_tree_per_iteration_ = s.num_tree_per_iteration_ ∧
      o.self.num_data_ = s.num_data_ ∧ o.self.shrinkage_rate_ = s.shrinkage_rate_ ∧
      o.self.class_need_train_ = s.class_need_train_ := by
  obtain ⟨r, hl, -, -, hroll, hkeep⟩ := TrainOneIter_outcome env gradients hessians s o ho
  obtain ⟨hb, -, -, -⟩ := TrainOneIter.boost_setup env gradients hessians s
  have hs := hb.trans (TrainOneIter.loop_spec env _ _ _ 0 _ r hl).1
  cases hf : o.finished with
  | false =>
    rw [hkeep hf]
    exact ⟨hs.num_tree_per_iteration_, hs.num_data_, hs.shrinkage_rate_, hs.class_need_train_⟩
  | true =>
    rw [hroll hf]
    exact ⟨hs.num_tree_per_iteration_, hs.num_data_, hs.shrinkage_rate_, hs.class_need_train_⟩

/-! ## Sequences of calls -/

theorem TrainOneIter_length_invariant (env : Collaborators L)
    (gradients hessians : Option (Nat → ℚ)) (s : RGF L) (o : Outcome L)
    (hinv : s.models_.length = s.iter_ * s.num_tree_per_iteration_)
    (h : TrainOneIter env gradients hessians s = some o) :
    o.self.models_.length = o.self.iter_ * o.self.num_tree_per_iteration_ := by
  obtain ⟨hK, -, ht, hf⟩ := TrainOneIter_spec env gradients hessians s o h
  cases hfin : o.finished with
  | true =>
    obtain ⟨h₁, h₂⟩ := ht hfin
    rw [h₁, h₂, hK, hinv]
  | false =>
    obtain ⟨h₁, h₂⟩ := hf hfin
    rw [h₁, h₂, hK, hinv]
    ring

theorem TrainIters_length_invariant (env : Collaborators L) :
    ∀ (calls : List (Option (Nat → ℚ) × Option (Nat → ℚ))) (s s' : RGF L) (log : List Event),
      s.models_.length = s.iter_ * s.num_tree_per_iteration_ →
      TrainIters env calls s = some (s', log) →
      s'.num_tree_per_iteration_ = s.num_tree_per_iteration_ ∧
        s'.models_.length = s'.iter_ * s'.num_tree_per_iteration_
  | [], s, s', log, hinv, h => by
    simp only [TrainIters, Option.some.injEq, Prod.mk.injEq] at h
    obtain ⟨rfl, -⟩ := h
    exact ⟨rfl, hinv⟩
  | call :: calls, s, s', log, hinv, h => by
    simp only [TrainIters] at h
    cases ho : TrainOneIter env call.1 call.2 s with
    | none => simp [ho] at h
    | some o =>
      simp only [ho] at h
      cases hr : TrainIters env calls o.self with
      | none => simp [hr] at h
      | some res =>
        simp only [hr, Option.some.injEq, Prod.mk.injEq] at h
        obtain ⟨rfl, -⟩ := h
        have hK := (TrainOneIter_spec env call.1 call.2 s o ho).1
        obtain ⟨a, b⟩ := TrainIters_length_invariant env calls o.self res.1 res.2
          (TrainOneIter_length_invariant env call.1 call.2 s o hinv ho) (by rw [hr])
        exact ⟨a.trans hK, b⟩

/-! ## The claims -/

/-- C1 (counterexample): at `iter_ = 100`, with one channel and an ensemble of one two-leaf tree,
a learner whose `FitByExistingTree` answers with a three-leaf tree makes the assertion of line
157 fail inside the refit: the call aborts, it returns neither `true` nor `false`, although the
channel acquired a tree with two leaves. -/
theorem C1_counterexample :
    TrainOneIter leafBreakingLearner none none refitBooster = none := by
  norm_num [TrainOneIter, TrainOneIter.boost, TrainOneIter.loop, TrainOneIter.refit,
    TrainOneIter.channel, TrainOneIter.acquire, TrainOneIter.renewed, TrainOneIter.renew,
    RefitDue, FullyCorrectiveUpdate, FullyCorrectiveUpdate.iters, FullyCorrectiveUpdate.trees,
    FullyCorrectiveUpdate.body, UpdateScore, Boosting, BoostFromAverage, refitBooster,
    leafBreakingLearner, sampleBooster, sampleCollaborators, twoLeaves, threeLeaves,
    Tree.num_leaves, Tree.Shrinkage]

/-- C1 (amended): `TrainOneIter` returns whenever the refit is not due (`iter_ == 0` or
`iter_ % 100 != 0`) or the learner's `FitByExistingTree` keeps the leaf counts; and whenever it
returns, its record holds one acquired tree for each channel, it returns `true` if and only if
none of them has more than one leaf, in that case `iter_` is unchanged, and otherwise it returns
`false` and `iter_` is increased by exactly one. -/
theorem C1_finished_iff_no_productive_channel (env : Collaborators L)
    (gradients hessians : Option (Nat → ℚ)) (s : RGF L) :
    (¬ RefitDue s ∨ RefitKeepsLeaves env → ∃ o, TrainOneIter env gradients hessians s = some o) ∧
    ∀ o, TrainOneIter env gradients hessians s = some o →
      acquiredChannels o.log = List.range s.num_tree_per_iteration_ ∧
      (o.finished = true ↔ ∀ c t, Event.acquired c t ∈ o.log → t.num_leaves ≤ 1) ∧
      (o.finished = true → o.self.iter_ = s.iter_) ∧
      (o.finished = false → o.self.iter_ = s.iter_ + 1) := by
  refine ⟨TrainOneIter_returns env gradients hessians s, fun o ho => ?_⟩
  obtain ⟨-, hfin, ht, hf⟩ := TrainOneIter_spec env gradients hessians s o ho
  obtain ⟨r, hr, hlog, -⟩ := TrainOneIter_loop env gradients hessians s o ho
  refine ⟨?_, ?_, fun hfin => (ht hfin).1, fun hfin => (hf hfin).1⟩
  · rw [hlog, TrainOneIter.loop_acquiredChannels env _ _ _ 0 _ r hr, List.range_eq_range']
    rfl
  · rw [hfin]
    unfold Productive
    push_neg
    rfl

/-- C1 (witness): at `iter_ = 100` with a learner that keeps the leaf counts the call returns. -/
theorem C1_witness :
    RefitKeepsLeaves splittingLearner ∧
      ∃ o, TrainOneIter splittingLearner none none refitBooster = some o :=
  have hk : RefitKeepsLeaves splittingLearner := fun _ _ _ _ => rfl
  ⟨hk, (C1_finished_iff_no_productive_channel splittingLearner none none refitBooster).1
    (Or.inr hk)⟩

/-- C2 (counterexample): two unproductive rounds that do change the caches or the ensemble.
First, at `iter_ = 0` with an empty ensemble and two channels, channel 1 not needing training and
having the default output `0.7`: every acquired tree has one leaf and the call reports
"finished", yet the training score of channel 1 (index `3 = 1 * num_data_ + 0`) and the one of
the validation partition went from `0` to `0.7`. Second, at `iter_ = 100` with one channel: the
round is unproductive, yet the refit replaced the tree of the ensemble and raised the training
score of data point 0. -/
theorem C2_counterexample :
    (TrainOneIter stuckLearner none none freshTwoChannel).map
      (fun o => (o.finished, o.log.filter (fun e => e matches Event.acquired _ _),
        o.self.train_score_updater_.score_ 3,
        o.self.valid_score_updater_.map (fun u => u.score_ 3))) =
      some (true, [Event.acquired 0 (Tree.new 2), Event.acquired 1 (Tree.new 2)],
        7 / 10, [7 / 10]) ∧
    freshTwoChannel.train_score_updater_.score_ 3 = 0 ∧
    (TrainOneIter (sampleCollaborators (fun _ => Tree.new 2) (fun t => t.AddBias 1) 0) none none
        refitBooster).map
      (fun o => (o.finished, o.log.filter (fun e => e matches Event.acquired _ _),
        o.self.models_, o.self.train_score_updater_.score_ 0)) =
      some (true, [Event.acquired 0 (Tree.new 2)],
        [⟨[2, 0], .split 0 0 (.leaf 0) (.leaf 1)⟩], 3) ∧
    refitBooster.train_score_updater_.score_ 0 = 0 := by
  refine ⟨?_, rfl, ?_, rfl⟩
  · norm_num [TrainOneIter, TrainOneIter.boost, TrainOneIter.loop, TrainOneIter.refit,
      TrainOneIter.channel, TrainOneIter.acquire, TrainOneIter.renewed, TrainOneIter.renew,
    RefitDue, popBack,
      UpdateScore, Boosting, BoostFromAverage, freshTwoChannel, stuckLearner, refitBooster,
      sampleBooster, sampleCollaborators,
      samplePartition, Tree.new, Tree.num_leaves, Tree.AsConstantTree,
      ScoreUpdater.AddScoreConstant]
  · norm_num [TrainOneIter, TrainOneIter.boost, TrainOneIter.loop, TrainOneIter.refit,
      TrainOneIter.channel, TrainOneIter.acquire, TrainOneIter.renewed, TrainOneIter.renew,
    RefitDue, popBack,
      FullyCorrectiveUpdate, FullyCorrectiveUpdate.iters, FullyCorrectiveUpdate.trees,
      FullyCorrectiveUpdate.body, UpdateScore, Boosting, BoostFromAverage, refitBooster,
      sampleBooster,
      sampleCollaborators, samplePartition, twoLeaves, Tree.new, Tree.num_leaves, Tree.AddBias,
      Tree.Predict, Tree.LeafOutput, Node.GetLeaf, ScoreUpdater.AddScoreLearner,
      ScoreUpdater.AddScore]

/-- C2 (amended): when the refit is not due (`iter_ == 0` or `iter_ % 100 != 0`) and no channel
qualifies for the default output (every channel `c` with `models_.size() + c <
num_tree_per_iteration_` needs training), `TrainOneIter` returns, and if every channel acquired
a single-leaf tree then the ensemble, the training ScoreCache and every validation ScoreCache
are equal to their values before the call and the call returns "finished". -/
theorem C2_rollback_safety (env : Collaborators L) (gradients hessians : Option (Nat → ℚ))
    (s : RGF L) (hrefit : ¬ RefitDue s)
    (hdef : ∀ c, s.models_.length + c < s.num_tree_per_iteration_ →
      s.class_need_train_ c = true) :
    ∃ o, TrainOneIter env gradients hessians s = some o ∧
      ((∀ c t, Event.acquired c t ∈ o.log → t.num_leaves ≤ 1) →
        o.finished = true ∧ o.self.models_ = s.models_ ∧
        o.self.train_score_updater_ = s.train_score_updater_ ∧
        o.self.valid_score_updater_ = s.valid_score_updater_) := by
  obtain ⟨o, ho⟩ := TrainOneIter_returns env gradients hessians s (Or.inl hrefit)
  refine ⟨o, ho, fun hq => ?_⟩
  unfold TrainOneIter at ho
  simp only at ho
  obtain ⟨hb, hm, ht, hv⟩ := TrainOneIter.boost_setup env gradients hessians s
  generalize TrainOneIter.boost env gradients hessians s = b at ho hb hm ht hv
  cases hl : TrainOneIter.loop env b.2.1 b.1 0 b.2.2.num_tree_per_iteration_
      ⟨b.2.2, false, []⟩ with
  | none => simp [hl] at ho
  | some r =>
    simp only [hl] at ho
    have hs := (TrainOneIter.loop_spec env _ _ _ 0 _ r hl).1
    have hqr : ∀ c t, Event.acquired c t ∈ r.log → t.num_leaves ≤ 1 := by
      split_ifs at ho <;>
      · simp only [Option.some.injEq] at ho
        subst ho
        exact hq
    obtain ⟨⟨added, ha, la⟩, ht', hv', hsc⟩ := TrainOneIter.loop_quiet env _ _ _ 0 _ r hl
      (fun hd => hrefit ((RefitDue_congr hb).1 hd))
      (fun j hj => by
        simp only [hm, hb.num_tree_per_iteration_, hb.class_need_train_, Nat.zero_add] at hj ⊢
        exact hdef j hj)
      hqr
    simp only at ha ht' hv' hsc hs
    rw [hsc] at ho
    simp only [Bool.not_false, if_true, Option.some.injEq] at ho
    subst ho
    refine ⟨rfl, ?_, ht'.trans ht, hv'.trans hv⟩
    simp only [ha, hs.num_tree_per_iteration_]
    rw [popBack_append _ _ _ la, hm]

/-- C2 (witness): the amended claim at a fresh booster with one channel, which needs training. -/
theorem C2_witness :
    (¬ RefitDue freshOneChannel ∧
      ∀ c, freshOneChannel.models_.length + c < freshOneChannel.num_tree_per_iteration_ →
        freshOneChannel.class_need_train_ c = true) ∧
    ∃ o, TrainOneIter stuckLearner none none freshOneChannel = some o ∧
      ((∀ c t, Event.acquired c t ∈ o.log → t.num_leaves ≤ 1) →
        o.finished = true ∧ o.self.models_ = freshOneChannel.models_ ∧
        o.self.train_score_updater_ = freshOneChannel.train_score_updater_ ∧
        o.self.valid_score_updater_ = freshOneChannel.valid_score_updater_) :=
  ⟨⟨by decide, fun _ _ => rfl⟩,
    C2_rollback_safety stuckLearner none none freshOneChannel (by decide) (fun _ _ => rfl)⟩

/-- C3: if `length(models_) == iter_ * num_tree_per_iteration_` holds before a call of
`TrainOneIter`, then the call returns (unless a due refit breaks on a learner that changes a leaf
count), the equality holds after it, a productive round lengthens the ensemble by exactly
`num_tree_per_iteration_` entries and an unproductive round leaves its length unchanged; after
any sequence of calls the equality still holds, so the ensemble length is a multiple of the
channel count. -/
theorem C3_ensemble_length_invariant (env : Collaborators L) (s : RGF L)
    (hinv : s.models_.length = s.iter_ * s.num_tree_per_iteration_) :
    (∀ gradients hessians, ¬ RefitDue s ∨ RefitKeepsLeaves env →
      ∃ o, TrainOneIter env gradients hessians s = some o) ∧
    (∀ gradients hessians o, TrainOneIter env gradients hessians s = some o →
      o.self.num_tree_per_iteration_ = s.num_tree_per_iteration_ ∧
      o.self.models_.length = o.self.iter_ * o.self.num_tree_per_iteration_ ∧
      (o.finished = false →
        o.self.models_.length = s.models_.length + s.num_tree_per_iteration_) ∧
      (o.finished = true → o.self.models_.length = s.models_.length)) ∧
    (∀ calls s' log, TrainIters env calls s = some (s', log) →
      s'.models_.length = s'.iter_ * s.num_tree_per_iteration_ ∧
      s.num_tree_per_iteration_ ∣ s'.models_.length) := by
  refine ⟨fun g h hr => TrainOneIter_returns env g h s hr, fun g h o ho => ?_,
    fun calls s' log hc => ?_⟩
  · obtain ⟨hK, -, ht, hf⟩ := TrainOneIter_spec env g h s o ho
    exact ⟨hK, TrainOneIter_length_invariant env g h s o hinv ho, fun hfin => (hf hfin).2,
      fun hfin => (ht hfin).2⟩
  · obtain ⟨a, b⟩ := TrainIters_length_invariant env calls s s' log hinv hc
    rw [a] at b
    exact ⟨b, b ▸ Dvd.intro_left _ rfl⟩

/-- C3 (witness): the invariant at the fresh two-channel booster. -/
theorem C3_witness :
    freshTwoChannel.models_.length =
      freshTwoChannel.iter_ * freshTwoChannel.num_tree_per_iteration_ ∧
    ((∀ gradients hessians, ¬ RefitDue freshTwoChannel ∨ RefitKeepsLeaves splittingLearner →
        ∃ o, TrainOneIter splittingLearner gradients hessians freshTwoChannel = some o) ∧
      (∀ gradients hessians o,
        TrainOneIter splittingLearner gradients hessians freshTwoChannel = some o →
        o.self.num_tree_per_iteration_ = freshTwoChannel.num_tree_per_iteration_ ∧
        o.self.models_.length = o.self.iter_ * o.self.num_tree_per_iteration_ ∧
        (o.finished = false →
          o.self.models_.length =
            freshTwoChannel.models_.length + freshTwoChannel.num_tree_per_iteration_) ∧
        (o.finished = true → o.self.models_.length = freshTwoChannel.models_.length)) ∧
      (∀ calls s' log, TrainIters splittingLearner calls freshTwoChannel = some (s', log) →
        s'.models_.length = s'.iter_ * freshTwoChannel.num_tree_per_iteration_ ∧
        freshTwoChannel.num_tree_per_iteration_ ∣ s'.models_.length)) :=
  ⟨rfl, C3_ensemble_length_invariant splittingLearner freshTwoChannel rfl⟩

/-- C4 (counterexample): five calls on a consistent booster after which the training score of a
data point differs from what the ensemble contributes to it (each pair is score, contribution).
(1) An unproductive first round applies the default output `0.7` of channel 1 and then discards
the constant tree. (2) At `iter_ = 100` the refit adds the refit trees to scores that already
hold the trees they replace. (3) With a cold-start bias of `0.2` the accepted tree is stored with
the bias, the score was updated without it. (4) A single-leaf tree of the learner with output
`5` is stored without any score update. (5) With an ensemble of one entry and two channels the
new entries do not get the flat indices of their channels. -/
theorem C4_counterexample :
    (ScoreConsistent freshTwoChannel ∧
      (TrainOneIter stuckLearner none none freshTwoChannel).map (scoreAndContribution 1 0) =
        some (7 / 10, 0)) ∧
    (ScoreConsistent (sampleBooster 100 1 [Tree.new 2] (fun _ => true) (fun _ => 0)) ∧
      (TrainOneIter (sampleCollaborators (fun _ => twoLeaves) (fun t => t.AddBias 1) 0) none none
        (sampleBooster 100 1 [Tree.new 2] (fun _ => true) (fun _ => 0))).map
          (scoreAndContribution 0 0) = some (11 / 5, 21 / 10)) ∧
    (ScoreConsistent freshOneChannel ∧
      (TrainOneIter biasedLearner none none freshOneChannel).map (scoreAndContribution 0 0) =
        some (1 / 10, 3 / 10)) ∧
    (ScoreConsistent (sampleBooster 0 2 [] (fun _ => true) (fun _ => 0)) ∧
      (TrainOneIter
        (sampleCollaborators (fun n => if n = 0 then ⟨[5], .leaf 0⟩ else twoLeaves) id 0)
        none none (sampleBooster 0 2 [] (fun _ => true) (fun _ => 0))).map
          (scoreAndContribution 0 0) = some (0, 5)) ∧
    (ScoreConsistent (sampleBooster 0 2 [Tree.new 2] (fun _ => true) (fun _ => 0)) ∧
      (TrainOneIter
        (sampleCollaborators (fun n => if n = 0 then twoLeaves else threeLeaves) id 0)
        none none (sampleBooster 0 2 [Tree.new 2] (fun _ => true) (fun _ => 0))).map
          (scoreAndContribution 0 1) = some (-1 / 10, -1 / 20)) := by
  refine ⟨⟨?_, ?_⟩, ⟨?_, ?_⟩, ⟨?_, ?_⟩, ⟨?_, ?_⟩, ⟨?_, ?_⟩⟩
  · intro c _ i _
    simp [freshTwoChannel, sampleBooster, samplePartition, contribution]
  · norm_num [TrainOneIter, TrainOneIter.boost, TrainOneIter.loop, TrainOneIter.refit,
      TrainOneIter.channel, TrainOneIter.acquire, TrainOneIter.renewed, TrainOneIter.renew,
    RefitDue, popBack,
      UpdateScore, Boosting, BoostFromAverage, freshTwoChannel, stuckLearner, sampleBooster,
      sampleCollaborators, samplePartition, Tree.new, Tree.num_leaves, Tree.AsConstantTree,
      ScoreUpdater.AddScoreConstant, scoreAndContribution, contribution]
  · intro c _ i _
    simp [sampleBooster, samplePartition, contribution, Tree.Predict_new]
  · norm_num [TrainOneIter, TrainOneIter.boost, TrainOneIter.loop, TrainOneIter.refit,
      TrainOneIter.channel, TrainOneIter.acquire, TrainOneIter.renewed, TrainOneIter.renew,
    RefitDue, popBack,
      FullyCorrectiveUpdate, FullyCorrectiveUpdate.iters, FullyCorrectiveUpdate.trees,
      FullyCorrectiveUpdate.body, UpdateScore, Boosting, BoostFromAverage, sampleBooster,
      sampleCollaborators, samplePartition, twoLeaves, Tree.new, Tree.num_leaves, Tree.AddBias,
      Tree.Shrinkage, Tree.Predict, Tree.LeafOutput, Node.GetLeaf, ScoreUpdater.AddScoreLearner,
      ScoreUpdater.AddScore, scoreAndContribution, contribution]
  · intro c _ i _
    simp [freshOneChannel, sampleBooster, samplePartition, contribution]
  · norm_num [TrainOneIter, TrainOneIter.boost, TrainOneIter.loop, TrainOneIter.refit,
      TrainOneIter.channel, TrainOneIter.acquire, TrainOneIter.renewed, TrainOneIter.renew,
    RefitDue, popBack,
      UpdateScore, Boosting, BoostFromAverage, biasedLearner, freshOneChannel, sampleBooster,
      sampleCollaborators, samplePartition, twoLeaves, Tree.num_leaves, Tree.AddBias,
      Tree.Shrinkage, Tree.Predict, Tree.LeafOutput, Node.GetLeaf,
      ScoreUpdater.AddScore, scoreAndContribution, contribution, abs_of_pos]
  · intro c _ i _
    simp [sampleBooster, samplePartition, contribution]
  · norm_num [TrainOneIter, TrainOneIter.boost, TrainOneIter.loop, TrainOneIter.refit,
      TrainOneIter.channel, TrainOneIter.acquire, TrainOneIter.renewed, TrainOneIter.renew,
    RefitDue, popBack,
      UpdateScore, Boosting, BoostFromAverage, sampleBooster,
      sampleCollaborators, samplePartition, twoLeaves, Tree.num_leaves, Tree.AddBias,
      Tree.Shrinkage, Tree.Predict, Tree.LeafOutput, Node.GetLeaf,
      ScoreUpdater.AddScore, scoreAndContribution, contribution]
  · intro c _ i _
    simp [sampleBooster, samplePartition, contribution, Tree.Predict_new]
  · norm_num [TrainOneIter, TrainOneIter.boost, TrainOneIter.loop, TrainOneIter.refit,
      TrainOneIter.channel, TrainOneIter.acquire, TrainOneIter.renewed, TrainOneIter.renew,
    RefitDue, popBack,
      UpdateScore, Boosting, BoostFromAverage, sampleBooster,
      sampleCollaborators, samplePartition, twoLeaves, threeLeaves, Tree.new, Tree.num_leaves,
      Tree.AddBias, Tree.Shrinkage, Tree.Predict, Tree.LeafOutput, Node.GetLeaf,
      ScoreUpdater.AddScore, scoreAndContribution, contribution]

/-- C4 (amended): a call of `TrainOneIter` on a booster whose training ScoreCache is consistent
with the ensemble and whose ensemble length is a multiple of the channel count returns and
leaves the training ScoreCache consistent with the ensemble, when the refit is not due, no
cold-start bias is added (`|init_score| <= kEpsilon`, as when both buffers are supplied), every
single-leaf tree the round acquired predicts zero, and the round is productive or no channel
qualifies for the default output. -/
theorem C4_score_consistency (env : Collaborators L) (gradients hessians : Option (Nat → ℚ))
    (s : RGF L) (hlen : s.num_tree_per_iteration_ ∣ s.models_.length) (hrefit : ¬ RefitDue s)
    (hbias : |(TrainOneIter.boost env gradients hessians s).1| ≤ env.kEpsilon)
    (hcons : ScoreConsistent s) :
    ∃ o, TrainOneIter env gradients hessians s = some o ∧
      ((∀ c t, Event.acquired c t ∈ o.log → t.num_leaves ≤ 1 → ∀ row, t.Predict row = 0) →
        (o.finished = true → ∀ c, s.models_.length + c < s.num_tree_per_iteration_ →
          s.class_need_train_ c = true) →
        ScoreConsistent o.self) := by
  obtain ⟨o, ho⟩ := TrainOneIter_returns env gradients hessians s (Or.inl hrefit)
  refine ⟨o, ho, fun hzero hdef => ?_⟩
  unfold TrainOneIter at ho
  simp only at ho
  obtain ⟨hb, hm, ht, hv⟩ := TrainOneIter.boost_setup env gradients hessians s
  generalize TrainOneIter.boost env gradients hessians s = b at ho hb hm ht hv hbias
  have hcons₀ : ScoreConsistent b.2.2 := by
    unfold ScoreConsistent
    rw [hb.num_tree_per_iteration_, ht, hm]
    exact hcons
  cases hl : TrainOneIter.loop env b.2.1 b.1 0 b.2.2.num_tree_per_iteration_
      ⟨b.2.2, false, []⟩ with
  | none => simp [hl] at ho
  | some r =>
    simp only [hl] at ho
    obtain ⟨hs, -, hinv⟩ := TrainOneIter.loop_spec env _ _ _ 0 _ r hl
    have hinv := hinv (by simp [Productive])
    have hnr : ¬ RefitDue b.2.2 := fun hd => hrefit ((RefitDue_congr hb).1 hd)
    simp only at hs
    cases hsc : r.should_continue with
    | false =>
      simp only [hsc, Bool.not_false, if_true, Option.some.injEq] at ho
      subst ho
      simp only [hsc, Bool.false_eq_true, false_iff] at hinv
      have hq : ∀ c t, Event.acquired c t ∈ r.log → t.num_leaves ≤ 1 := by
        intro c t hmem
        by_contra hlt
        exact hinv ⟨c, t, hmem, by omega⟩
      obtain ⟨⟨added, ha, la⟩, ht', -, -⟩ := TrainOneIter.loop_quiet env _ _ _ 0 _ r hl hnr
        (fun j hj => by
          simp only [hm, hb.num_tree_per_iteration_, hb.class_need_train_, Nat.zero_add] at hj ⊢
          exact hdef rfl j hj)
        hq
      simp only at ha ht'
      unfold ScoreConsistent
      simp only [ha, hs.num_tree_per_iteration_, ht']
      rw [popBack_append _ _ _ la]
      exact hcons₀
    | true =>
      simp only [hsc, Bool.not_true, Bool.false_eq_true, if_false, Option.some.injEq] at ho
      subst ho
      have := TrainOneIter.loop_consistent env b.2.1 b.1 hbias _ 0 _ r hl hnr
        (by
          obtain ⟨q, hq⟩ := hlen
          exact ⟨q, by simp only [hm, hb.num_tree_per_iteration_, hq, Nat.mul_comm, Nat.add_zero]⟩)
        (by simp) hzero hcons₀
      exact this

/-- C4 (witness): the amended claim at a fresh two-channel booster, with a learner that finds a
split and a zero mean response. -/
theorem C4_witness :
    (freshTwoChannel.num_tree_per_iteration_ ∣ freshTwoChannel.models_.length ∧
      ¬ RefitDue freshTwoChannel ∧
      |(TrainOneIter.boost splittingLearner none none freshTwoChannel).1| ≤
        splittingLearner.kEpsilon ∧
      ScoreConsistent freshTwoChannel) ∧
    ∃ o, TrainOneIter splittingLearner none none freshTwoChannel = some o ∧
      ((∀ c t, Event.acquired c t ∈ o.log → t.num_leaves ≤ 1 → ∀ row, t.Predict row = 0) →
        (o.finished = true → ∀ c, freshTwoChannel.models_.length + c <
            freshTwoChannel.num_tree_per_iteration_ →
          freshTwoChannel.class_need_train_ c = true) →
        ScoreConsistent o.self) :=
  have h₁ : freshTwoChannel.num_tree_per_iteration_ ∣ freshTwoChannel.models_.length :=
    ⟨0, rfl⟩
  have h₂ : ¬ RefitDue freshTwoChannel := by decide
  have h₃ : |(TrainOneIter.boost splittingLearner none none freshTwoChannel).1| ≤
      splittingLearner.kEpsilon := by
    norm_num [TrainOneIter.boost, BoostFromAverage, freshTwoChannel, splittingLearner,
      sampleBooster, sampleCollaborators]
  have h₄ : ScoreConsistent freshTwoChannel := by
    intro c _ i _
    simp [freshTwoChannel, sampleBooster, samplePartition, contribution]
  ⟨⟨h₁, h₂, h₃, h₄⟩, C4_score_consistency splittingLearner none none freshTwoChannel h₁ h₂ h₃ h₄⟩

/-- C5 (counterexample): one channel, first round, cold-start bias `0.2`, the learner fits
`twoLeaves`. The record of the call shows `UpdateScore` before `AddBias`; the scores of data
point 0 (training and validation) grew by `0.1`, the shrunk output of its leaf, while the tree as
appended predicts `0.3` for it. -/
theorem C5_counterexample :
    (TrainOneIter biasedLearner none none freshOneChannel).map
      (fun o => (o.log, o.self.train_score_updater_.score_ 0,
        o.self.valid_score_updater_.map (fun u => u.score_ 0),
        o.self.models_.map (fun t => t.Predict (samplePartition.data_ 0)))) =
      some ([Event.acquired 0 twoLeaves,
          Event.updateScore 0 ⟨[1 / 10, -1 / 10], .split 0 0 (.leaf 0) (.leaf 1)⟩,
          Event.addBias 0 (1 / 5),
          Event.pushBack 0 ⟨[3 / 10, 1 / 10], .split 0 0 (.leaf 0) (.leaf 1)⟩],
        1 / 10, [1 / 10], [3 / 10]) ∧
    freshOneChannel.train_score_updater_.score_ 0 = 0 := by
  refine ⟨?_, rfl⟩
  norm_num [TrainOneIter, TrainOneIter.boost, TrainOneIter.loop, TrainOneIter.refit,
    TrainOneIter.channel, TrainOneIter.acquire, TrainOneIter.renewed, TrainOneIter.renew,
    RefitDue, popBack, UpdateScore, Boosting, BoostFromAverage, biasedLearner, freshOneChannel,
    sampleBooster, sampleCollaborators, samplePartition, twoLeaves, Tree.num_leaves,
    Tree.AddBias, Tree.Shrinkage, Tree.Predict, Tree.LeafOutput, Node.GetLeaf,
    ScoreUpdater.AddScore, abs_of_pos]

/-- C5 (amended): for a channel whose acquired tree has more than one leaf while the cold-start
bias exceeds `kEpsilon` in magnitude, the bias is added to the leaves after shrinkage and after
the score update: `UpdateScore` is called with the shrunk tree, then `AddBias`, then the tree is
appended. The score update adds to the training ScoreCache and to every validation ScoreCache,
for each data point, the shrunk leaf value, which is the leaf output of the tree as it is
appended minus the bias. -/
theorem C5_bias_after_score_update (env : Collaborators L)
    (ext : Option ((Nat → ℚ) × (Nat → ℚ))) (init_score : ℚ) (c : Nat) (r : Round L)
    (hacc : 1 < (TrainOneIter.acquire env ext c r.self).1.num_leaves)
    (hbias : |init_score| > env.kEpsilon) :
    ∃ shrunk : Tree, shrunk =
        (TrainOneIter.renewed env c r.self (TrainOneIter.acquire env ext c r.self)).1 ∧
      (TrainOneIter.channel env ext init_score c r).log =
        r.log ++ [Event.acquired c (TrainOneIter.acquire env ext c r.self).1,
          Event.updateScore c shrunk, Event.addBias c init_score,
          Event.pushBack c (shrunk.AddBias init_score)] ∧
      (TrainOneIter.channel env ext init_score c r).self.models_ =
        r.self.models_ ++ [shrunk.AddBias init_score] ∧
      (TrainOneIter.channel env ext init_score c r).self.train_score_updater_ =
        r.self.train_score_updater_.AddScore shrunk c ∧
      (TrainOneIter.channel env ext init_score c r).self.valid_score_updater_ =
        r.self.valid_score_updater_.map (fun u => u.AddScore shrunk c) ∧
      (∀ (u : ScoreUpdater) (i : Nat), i < u.num_data_ →
        (u.AddScore shrunk c).score_ (u.num_data_ * c + i) =
          u.score_ (u.num_data_ * c + i) + shrunk.Predict (u.data_ i)) ∧
      (∀ row, shrunk.root.GetLeaf row < shrunk.num_leaves →
        shrunk.Predict row = (shrunk.AddBias init_score).Predict row - init_score) := by
  rw [TrainOneIter.channel_accepted_bias env ext init_score c r hacc hbias]
  refine ⟨_, rfl, rfl, rfl, rfl, rfl, ?_, ?_⟩
  · intro u i hi
    rw [ScoreUpdater.AddScore_score _ _ _ _ _ hi, if_pos rfl]
  · intro row hrow
    rw [Tree.Predict_AddBias _ _ _ hrow]
    ring

/-- C5 (witness): the amended claim at the only channel of a fresh one-channel booster with a
cold-start bias of `0.2`. -/
theorem C5_witness :
    (1 < (TrainOneIter.acquire biasedLearner none 0 freshOneChannel).1.num_leaves ∧
      |(1 / 5 : ℚ)| > biasedLearner.kEpsilon) ∧
    ∃ shrunk : Tree, shrunk =
        (TrainOneIter.renewed biasedLearner 0 freshOneChannel
          (TrainOneIter.acquire biasedLearner none 0 freshOneChannel)).1 ∧
      (TrainOneIter.channel biasedLearner none (1 / 5) 0 ⟨freshOneChannel, false, []⟩).log =
        [] ++ [Event.acquired 0 (TrainOneIter.acquire biasedLearner none 0 freshOneChannel).1,
          Event.updateScore 0 shrunk, Event.addBias 0 (1 / 5),
          Event.pushBack 0 (shrunk.AddBias (1 / 5))] ∧
      (TrainOneIter.channel biasedLearner none (1 / 5) 0
          ⟨freshOneChannel, false, []⟩).self.models_ =
        freshOneChannel.models_ ++ [shrunk.AddBias (1 / 5)] ∧
      (TrainOneIter.channel biasedLearner none (1 / 5) 0
          ⟨freshOneChannel, false, []⟩).self.train_score_updater_ =
        freshOneChannel.train_score_updater_.AddScore shrunk 0 ∧
      (TrainOneIter.channel biasedLearner none (1 / 5) 0
          ⟨freshOneChannel, false, []⟩).self.valid_score_updater_ =
        freshOneChannel.valid_score_updater_.map (fun u => u.AddScore shrunk 0) ∧
      (∀ (u : ScoreUpdater) (i : Nat), i < u.num_data_ →
        (u.AddScore shrunk 0).score_ (u.num_data_ * 0 + i) =
          u.score_ (u.num_data_ * 0 + i) + shrunk.Predict (u.data_ i)) ∧
      (∀ row, shrunk.root.GetLeaf row < shrunk.num_leaves →
        shrunk.Predict row = (shrunk.AddBias (1 / 5)).Predict row - 1 / 5) :=
  have h₁ : 1 < (TrainOneIter.acquire biasedLearner none 0 freshOneChannel).1.num_leaves := by
    simp [TrainOneIter.acquire, biasedLearner, freshOneChannel, sampleBooster,
      sampleCollaborators, twoLeaves, Tree.num_leaves]
  have h₂ : |(1 / 5 : ℚ)| > biasedLearner.kEpsilon := by
    norm_num [biasedLearner, sampleCollaborators, abs_of_pos]
  ⟨⟨h₁, h₂⟩, C5_bias_after_score_update biasedLearner none (1 / 5) 0
    ⟨freshOneChannel, false, []⟩ h₁ h₂⟩

/-- C6 (counterexample): the scenario itself, on three data points of which point `i` is mapped
to leaf `i`. The tree of the ensemble gets the leaf outputs `[0.3, 0.15, 0.4]`, not
`[0.3, -0.05, 0.4]`, and the training scores of the three points grow by `[0.1, -0.05, 0.2]`:
the point of leaf 0 gains `0.1`, not `0.3`. -/
theorem C6_counterexample :
    (TrainOneIter scenarioLearner none none freshOneChannel).map
      (fun o => (o.self.models_.map (fun t => t.leaf_value_),
        (List.range 3).map o.self.train_score_updater_.score_)) =
      some ([[3 / 10, 3 / 20, 2 / 5]], [1 / 10, -1 / 20, 1 / 5]) ∧
    (List.range 3).map freshOneChannel.train_score_updater_.score_ = [0, 0, 0] ∧
    (List.range 3).map (fun i => threeLeaves.root.GetLeaf (samplePartition.data_ i)) =
      [0, 1, 2] := by
  refine ⟨?_, ?_, ?_⟩
  · norm_num [TrainOneIter, TrainOneIter.boost, TrainOneIter.loop, TrainOneIter.refit,
      TrainOneIter.channel, TrainOneIter.acquire, TrainOneIter.renewed, TrainOneIter.renew,
      RefitDue, popBack, UpdateScore, Boosting, BoostFromAverage, scenarioLearner,
      freshOneChannel, sampleBooster,
      sampleCollaborators, samplePartition, threeLeaves, Tree.num_leaves, Tree.AddBias,
      Tree.Shrinkage, Tree.Predict, Tree.LeafOutput, Node.GetLeaf,
      ScoreUpdater.AddScore, abs_of_pos, List.range, List.range.loop]
  · simp [freshOneChannel, sampleBooster, samplePartition, List.range, List.range.loop]
  · norm_num [samplePartition, threeLeaves, Node.GetLeaf, List.range, List.range.loop]

/-- C6 (amended): one channel, round 1: when the fitted tree has more than one leaf and is
renewed to the leaf outputs `[1.0, -0.5, 2.0]`, the shrinkage rate is `0.1` and the cold-start
bias is `0.2` (`kEpsilon = 1e-12`), the tree appended to the ensemble has the leaf outputs
`[0.3, 0.15, 0.4]` (shrink, then add the bias), and `TrainOneIter` increases the score of every
data point, in the training and in every validation ScoreCache, by the shrunk output of its
leaf, one of `[0.1, -0.05, 0.2]`. -/
theorem C6_scenario (env : Collaborators L) (s : RGF L) (root : Node)
    (hK : s.num_tree_per_iteration_ = 1) (hiter : s.iter_ = 0)
    (hrate : s.shrinkage_rate_ = 1 / 10) (heps : env.kEpsilon = 1 / 1000000000000)
    (hinit : BoostFromAverage env s = 1 / 5)
    (hfit : 1 < (TrainOneIter.acquire env none 0 (Boosting env s)).1.num_leaves)
    (hren : (TrainOneIter.renew env 0 (Boosting env s)
      (TrainOneIter.acquire env none 0 (Boosting env s))).1 = ⟨[1, -1 / 2, 2], root⟩) :
    ∃ o, TrainOneIter env none none s = some o ∧ o.finished = false ∧
      o.self.models_ = s.models_ ++ [⟨[3 / 10, 3 / 20, 2 / 5], root⟩] ∧
      o.self.train_score_updater_ =
        s.train_score_updater_.AddScore ⟨[1 / 10, -1 / 20, 1 / 5], root⟩ 0 ∧
      o.self.valid_score_updater_ =
        s.valid_score_updater_.map (fun u => u.AddScore ⟨[1 / 10, -1 / 20, 1 / 5], root⟩ 0) ∧
      ∀ (u : ScoreUpdater) (i : Nat), i < u.num_data_ →
        (u.AddScore ⟨[1 / 10, -1 / 20, 1 / 5], root⟩ 0).score_ i =
          u.score_ i + ([1 / 10, -1 / 20, 1 / 5] : List ℚ).getD (root.GetLeaf (u.data_ i)) 0 := by
  have hnr : ¬ RefitDue s := by simp [RefitDue, hiter]
  have hbias : |(1 / 5 : ℚ)| > env.kEpsilon := by
    rw [heps]
    norm_num [abs_of_pos]
  have hshrunk : (TrainOneIter.renewed env 0 (Boosting env s)
      (TrainOneIter.acquire env none 0 (Boosting env s))).1 =
      ⟨[1 / 10, -1 / 20, 1 / 5], root⟩ := by
    have hr : (Boosting env s).shrinkage_rate_ = 1 / 10 := hrate
    unfold TrainOneIter.renewed
    simp only [hren, hr, Tree.Shrinkage]
    norm_num
  have hbiased : (⟨[1 / 10, -1 / 20, 1 / 5], root⟩ : Tree).AddBias (1 / 5) =
      ⟨[3 / 10, 3 / 20, 2 / 5], root⟩ := by
    simp only [Tree.AddBias]
    norm_num
  rw [TrainOneIter_one_channel env none none s hK hnr]
  simp only [TrainOneIter.boost, hinit]
  rw [TrainOneIter.channel_accepted_bias env none (1 / 5) 0 _ hfit hbias, hshrunk, hbiased]
  refine ⟨_, rfl, rfl, rfl, rfl, rfl, ?_⟩
  intro u i hi
  have := ScoreUpdater.AddScore_score u ⟨[1 / 10, -1 / 20, 1 / 5], root⟩ 0 0 i hi
  simpa [Tree.Predict, Tree.LeafOutput] using this

/-- C6 (witness): the amended scenario with the learner `scenarioLearner` on a fresh booster. -/
theorem C6_witness :
    (freshOneChannel.num_tree_per_iteration_ = 1 ∧ freshOneChannel.iter_ = 0 ∧
      freshOneChannel.shrinkage_rate_ = 1 / 10 ∧
      scenarioLearner.kEpsilon = 1 / 1000000000000 ∧
      BoostFromAverage scenarioLearner freshOneChannel = 1 / 5 ∧
      1 < (TrainOneIter.acquire scenarioLearner none 0
        (Boosting scenarioLearner freshOneChannel)).1.num_leaves ∧
      (TrainOneIter.renew scenarioLearner 0 (Boosting scenarioLearner freshOneChannel)
        (TrainOneIter.acquire scenarioLearner none 0
          (Boosting scenarioLearner freshOneChannel))).1 = ⟨[1, -1 / 2, 2], threeLeaves.root⟩) ∧
    ∃ o, TrainOneIter scenarioLearner none none freshOneChannel = some o ∧ o.finished = false ∧
      o.self.models_ =
        freshOneChannel.models_ ++ [⟨[3 / 10, 3 / 20, 2 / 5], threeLeaves.root⟩] ∧
      o.self.train_score_updater_ =
        freshOneChannel.train_score_updater_.AddScore
          ⟨[1 / 10, -1 / 20, 1 / 5], threeLeaves.root⟩ 0 ∧
      o.self.valid_score_updater_ =
        freshOneChannel.valid_score_updater_.map
          (fun u => u.AddScore ⟨[1 / 10, -1 / 20, 1 / 5], threeLeaves.root⟩ 0) ∧
      ∀ (u : ScoreUpdater) (i : Nat), i < u.num_data_ →
        (u.AddScore ⟨[1 / 10, -1 / 20, 1 / 5], threeLeaves.root⟩ 0).score_ i =
          u.score_ i +
            ([1 / 10, -1 / 20, 1 / 5] : List ℚ).getD (threeLeaves.root.GetLeaf (u.data_ i)) 0 :=
  have h₅ : BoostFromAverage scenarioLearner freshOneChannel = 1 / 5 := by
    simp [BoostFromAverage, scenarioLearner, freshOneChannel, sampleBooster, sampleCollaborators]
  have h₆ : 1 < (TrainOneIter.acquire scenarioLearner none 0
      (Boosting scenarioLearner freshOneChannel)).1.num_leaves := by
    simp [TrainOneIter.acquire, Boosting, scenarioLearner, freshOneChannel, sampleBooster,
      sampleCollaborators, threeLeaves, Tree.num_leaves]
  ⟨⟨rfl, rfl, rfl, rfl, h₅, h₆, rfl⟩,
    C6_scenario scenarioLearner freshOneChannel threeLeaves.root rfl rfl rfl rfl h₅ h₆ rfl⟩

/-- C7 (the code at the failing input): a fresh booster with two channels, channel 0 trained by a
learner that finds no split, channel 1 not trained and with the default output `0.7`. The first
call is unproductive: it reports "finished" and leaves the ensemble empty. Two calls in a row
apply the default output of channel 1 twice, and the scores of channel 1 (index
`3 = 1 * num_data_ + 0`) hold `1.4` in the training and in the validation partition. -/
theorem C7_default_output_twice :
    (TrainOneIter stuckLearner none none freshTwoChannel).map
      (fun o => (o.finished, o.self.models_)) = some (true, []) ∧
    (TrainIters stuckLearner [(none, none), (none, none)] freshTwoChannel).map
      (fun res => (res.1.models_, res.1.train_score_updater_.score_ 3,
        res.1.valid_score_updater_.map (fun u => u.score_ 3),
        res.2.filter (fun e => e matches Event.defaultOutput _ _))) =
      some ([], 7 / 5, [7 / 5], [Event.defaultOutput 1 (7 / 10), Event.defaultOutput 1 (7 / 10)]) := by
  constructor
  · norm_num [TrainOneIter, TrainOneIter.boost, TrainOneIter.loop, TrainOneIter.refit,
      TrainOneIter.channel, TrainOneIter.acquire, TrainOneIter.renewed, TrainOneIter.renew,
      RefitDue, popBack, UpdateScore, Boosting, BoostFromAverage, freshTwoChannel, stuckLearner,
      sampleBooster, sampleCollaborators, samplePartition, Tree.new, Tree.num_leaves,
      Tree.AsConstantTree, ScoreUpdater.AddScoreConstant]
  · norm_num [TrainIters, TrainOneIter, TrainOneIter.boost, TrainOneIter.loop,
      TrainOneIter.refit, TrainOneIter.channel, TrainOneIter.acquire, TrainOneIter.renewed,
      TrainOneIter.renew, RefitDue, popBack, UpdateScore, Boosting, BoostFromAverage,
      freshTwoChannel, stuckLearner, sampleBooster, sampleCollaborators, samplePartition,
      Tree.new, Tree.num_leaves, Tree.AsConstantTree, ScoreUpdater.AddScoreConstant]

/-- C8: two channels, channel `a` (A) trained, channel `b` (B) with `needsTraining = false` and
the default output `0.7`, in either order, starting from an empty ensemble at `iter_ = 0`,
whatever buffers the caller supplies. Round 1 returns; if channel A acquires a tree with more
than one leaf the round is productive, the entry of channel B is the constant tree of value
`0.7`, and the score of every data point in channel B grew by exactly `0.7` in the training and
in every validation partition. Round 2 returns; if channel A is productive again, the entry of
channel B is a single-leaf placeholder and no score of channel B changed in any partition. -/
theorem C8_default_output_scenario (env : Collaborators L)
    (gradients₁ hessians₁ gradients₂ hessians₂ : Option (Nat → ℚ)) (s : RGF L) (a b : Nat)
    (hab : (a = 0 ∧ b = 1) ∨ (a = 1 ∧ b = 0))
    (hK : s.num_tree_per_iteration_ = 2) (hiter : s.iter_ = 0) (hm : s.models_ = [])
    (hB : s.class_need_train_ b = false) (hd : s.class_default_output_ b = 7 / 10) :
    ∃ o₁, TrainOneIter env gradients₁ hessians₁ s = some o₁ ∧
      ∀ t₁, Event.acquired a t₁ ∈ o₁.log → 1 < t₁.num_leaves →
        o₁.finished = false ∧ o₁.self.models_.length = 2 ∧
        o₁.self.models_[b]? = some ((Tree.new 2).AsConstantTree (7 / 10)) ∧
        ChannelShift b (7 / 10) s.train_score_updater_ o₁.self.train_score_updater_ ∧
        List.Forall₂ (ChannelShift b (7 / 10)) s.valid_score_updater_
          o₁.self.valid_score_updater_ ∧
        ∃ o₂, TrainOneIter env gradients₂ hessians₂ o₁.self = some o₂ ∧
          ∀ t₂, Event.acquired a t₂ ∈ o₂.log → 1 < t₂.num_leaves →
            o₂.finished = false ∧ o₂.self.models_.length = 4 ∧
            o₂.self.models_[2 + b]? = some (Tree.new 2) ∧
            ChannelShift b 0 o₁.self.train_score_updater_ o₂.self.train_score_updater_ ∧
            List.Forall₂ (ChannelShift b 0) o₁.self.valid_score_updater_
              o₂.self.valid_score_updater_ := by
  have hnr : ¬ RefitDue s := by simp [RefitDue, hiter]
  rcases hab with ⟨rfl, rfl⟩ | ⟨rfl, rfl⟩
  · obtain ⟨o₁, h₁, hrest₁⟩ :=
      TrainOneIter_trained_and_default env gradients₁ hessians₁ s hK hnr hB
    refine ⟨o₁, h₁, fun t₁ hm₁ hacc₁ => ?_⟩
    obtain ⟨hfin₁, hs₁, hiter₁, shrunk₁, accepted₁, hfirst, -⟩ := hrest₁ t₁ hm₁ hacc₁
    obtain ⟨hmod₁, htrain₁, hvalid₁⟩ := hfirst hm
    rw [hd] at hmod₁ htrain₁ hvalid₁
    have hshift : ∀ u : ScoreUpdater, ChannelShift 1 (7 / 10) u
        ((u.AddScore shrunk₁ 0).AddScoreConstant (7 / 10) 1) := by
      intro u
      have := (ChannelShift_AddScore u shrunk₁ 1 0 (by decide)).compose
        (ChannelShift_AddScoreConstant (u.AddScore shrunk₁ 0) (7 / 10) 1)
      rwa [zero_add] at this
    refine ⟨hfin₁, by rw [hmod₁]; rfl, by rw [hmod₁]; rfl, by rw [htrain₁]; exact hshift _,
      ?_, ?_⟩
    · rw [hvalid₁, List.map_map]
      exact Forall₂_map_of_forall _ (fun u => hshift u) _
    · have hK₁ : o₁.self.num_tree_per_iteration_ = 2 := hs₁.num_tree_per_iteration_.trans hK
      have hnr₁ : ¬ RefitDue o₁.self := by simp [RefitDue, hiter₁, hiter]
      have hB₁ : o₁.self.class_need_train_ 1 = false := by
        have := hs₁.class_need_train_
        simp only at this
        rw [this, hB]
      obtain ⟨o₂, h₂, hrest₂⟩ :=
        TrainOneIter_trained_and_default env gradients₂ hessians₂ o₁.self hK₁ hnr₁ hB₁
      refine ⟨o₂, h₂, fun t₂ hm₂ hacc₂ => ?_⟩
      obtain ⟨hfin₂, -, -, shrunk₂, accepted₂, -, hsecond⟩ := hrest₂ t₂ hm₂ hacc₂
      obtain ⟨hmod₂, htrain₂, hvalid₂⟩ := hsecond (by rw [hmod₁]; rfl)
      refine ⟨hfin₂, by rw [hmod₂, hmod₁]; rfl, by rw [hmod₂, hmod₁]; rfl, ?_, ?_⟩
      · rw [htrain₂]
        exact ChannelShift_AddScore _ shrunk₂ 1 0 (by decide)
      · rw [hvalid₂]
        exact Forall₂_map_of_forall _
          (fun u => ChannelShift_AddScore u shrunk₂ 1 0 (by decide)) _
  · obtain ⟨o₁, h₁, hrest₁⟩ :=
      TrainOneIter_default_and_trained env gradients₁ hessians₁ s hK hnr hB
    refine ⟨o₁, h₁, fun t₁ hm₁ hacc₁ => ?_⟩
    obtain ⟨hfin₁, hs₁, hiter₁, shrunk₁, accepted₁, hfirst, -⟩ := hrest₁ t₁ hm₁ hacc₁
    obtain ⟨hmod₁, htrain₁, hvalid₁⟩ := hfirst hm
    rw [hd] at hmod₁ htrain₁ hvalid₁
    have hshift : ∀ u : ScoreUpdater, ChannelShift 0 (7 / 10) u
        ((u.AddScoreConstant (7 / 10) 0).AddScore shrunk₁ 1) := by
      intro u
      have := (ChannelShift_AddScoreConstant u (7 / 10) 0).compose
        (ChannelShift_AddScore (u.AddScoreConstant (7 / 10) 0) shrunk₁ 0 1 (by decide))
      rwa [add_zero] at this
    refine ⟨hfin₁, by rw [hmod₁]; rfl, by rw [hmod₁]; rfl, by rw [htrain₁]; exact hshift _,
      ?_, ?_⟩
    · rw [hvalid₁, List.map_map]
      exact Forall₂_map_of_forall _ (fun u => hshift u) _
    · have hK₁ : o₁.self.num_tree_per_iteration_ = 2 := hs₁.num_tree_per_iteration_.trans hK
      have hnr₁ : ¬ RefitDue o₁.self := by simp [RefitDue, hiter₁, hiter]
      have hB₁ : o₁.self.class_need_train_ 0 = false := by
        have := hs₁.class_need_train_
        simp only at this
        rw [this, hB]
      obtain ⟨o₂, h₂, hrest₂⟩ :=
        TrainOneIter_default_and_trained env gradients₂ hessians₂ o₁.self hK₁ hnr₁ hB₁
      refine ⟨o₂, h₂, fun t₂ hm₂ hacc₂ => ?_⟩
      obtain ⟨hfin₂, -, -, shrunk₂, accepted₂, -, hsecond⟩ := hrest₂ t₂ hm₂ hacc₂
      obtain ⟨hmod₂, htrain₂, hvalid₂⟩ := hsecond (by rw [hmod₁]; rfl)
      refine ⟨hfin₂, by rw [hmod₂, hmod₁]; rfl, by rw [hmod₂, hmod₁]; rfl, ?_, ?_⟩
      · rw [htrain₂]
        exact ChannelShift_AddScore _ shrunk₂ 0 1 (by decide)
      · rw [hvalid₂]
        exact Forall₂_map_of_forall _
          (fun u => ChannelShift_AddScore u shrunk₂ 0 1 (by decide)) _

/-- C8 (witness): the scenario on the fresh two-channel booster, A channel 0 and B channel 1. -/
theorem C8_witness :
    (((0 = 0 ∧ 1 = 1) ∨ (0 = 1 ∧ 1 = 0)) ∧
      freshTwoChannel.num_tree_per_iteration_ = 2 ∧ freshTwoChannel.iter_ = 0 ∧
      freshTwoChannel.models_ = [] ∧ freshTwoChannel.class_need_train_ 1 = false ∧
      freshTwoChannel.class_default_output_ 1 = 7 / 10) ∧
    ∃ o₁, TrainOneIter splittingLearner none none freshTwoChannel = some o₁ ∧
      ∀ t₁, Event.acquired 0 t₁ ∈ o₁.log → 1 < t₁.num_leaves →
        o₁.finished = false ∧ o₁.self.models_.length = 2 ∧
        o₁.self.models_[1]? = some ((Tree.new 2).AsConstantTree (7 / 10)) ∧
        ChannelShift 1 (7 / 10) freshTwoChannel.train_score_updater_
          o₁.self.train_score_updater_ ∧
        List.Forall₂ (ChannelShift 1 (7 / 10)) freshTwoChannel.valid_score_updater_
          o₁.self.valid_score_updater_ ∧
        ∃ o₂, TrainOneIter splittingLearner none none o₁.self = some o₂ ∧
          ∀ t₂, Event.acquired 0 t₂ ∈ o₂.log → 1 < t₂.num_leaves →
            o₂.finished = false ∧ o₂.self.models_.length = 4 ∧
            o₂.self.models_[2 + 1]? = some (Tree.new 2) ∧
            ChannelShift 1 0 o₁.self.train_score_updater_ o₂.self.train_score_updater_ ∧
            List.Forall₂ (ChannelShift 1 0) o₁.self.valid_score_updater_
              o₂.self.valid_score_updater_ :=
  have h₄ : freshTwoChannel.class_need_train_ 1 = false := by
    simp [freshTwoChannel, sampleBooster]
  ⟨⟨Or.inl ⟨rfl, rfl⟩, rfl, rfl, rfl, h₄, rfl⟩,
    C8_default_output_scenario splittingLearner none none none none freshTwoChannel 0 1
      (Or.inl ⟨rfl, rfl⟩) rfl rfl rfl h₄ rfl⟩

/-- C9, as claimed, fails for the score caches: two consecutive calls on a fresh one-channel
booster with the cold-start bias `0.5`, both accepting a tree with the shrunk outputs
`0.1, -0.1`. The first tree is stored with the bias (`0.6, 0.4`), the second without it, so the
trees of the channel predict `0.6 + 0.1 = 0.7` for data point `0`: the bias is in the
contribution of the ensemble once. The score of data point `0` is `0.1 + 0.1 = 0.2` in the
training and in the validation partition: the bias is in the cumulative score not once but
never. -/
theorem C9_counterexample :
    BoostFromAverage coldLearner freshOneChannel = 1 / 2 ∧
    (TrainIters coldLearner [(none, none), (none, none)] freshOneChannel).map
      (fun res => (res.1.models_.map (fun t => t.leaf_value_),
        contribution 1 0 (res.1.train_score_updater_.data_ 0) 0 res.1.models_,
        res.1.train_score_updater_.score_ 0,
        res.1.valid_score_updater_.map (fun u => u.score_ 0))) =
      some ([[3 / 5, 2 / 5], [1 / 10, -1 / 10]], 7 / 10, 1 / 5, [1 / 5]) := by
  constructor
  · norm_num [BoostFromAverage, coldLearner, freshOneChannel, sampleBooster,
      sampleCollaborators]
  · norm_num [TrainIters, TrainOneIter, TrainOneIter.boost, TrainOneIter.loop,
      TrainOneIter.refit, TrainOneIter.channel, TrainOneIter.acquire, TrainOneIter.renewed,
      TrainOneIter.renew, TrainOneIter.buffers, RefitDue, popBack, UpdateScore, Boosting,
      BoostFromAverage, freshOneChannel, coldLearner, sampleBooster, sampleCollaborators,
      samplePartition, twoLeaves, Tree.new, Tree.num_leaves, Tree.AddBias, Tree.Shrinkage,
      Tree.Predict, Tree.LeafOutput, Node.GetLeaf, ScoreUpdater.AddScore, contribution, shift,
      abs_of_pos]

/-- C9, amended: two consecutive calls of `TrainOneIter` with internally computed gradients,
starting at a round boundary, with no refit due in either call, the first with a cold-start
bias above `kEpsilon` (and `kEpsilon` not negative). If the first call acquires for channel `c`
a tree with more than one leaf, it stores at the flat index `models_.size() + c` the renewed
and shrunk tree with the bias added, while the scores of the channel grow, in every partition,
by the predictions of the shrunk tree without the bias. The second call computes the bias `0`,
adds a bias to no tree and leaves the first tree in place; the tree it accepts for the channel
is stored one round further as renewed and shrunk, without bias. After both calls the
contribution of the ensemble to the channel holds the bias exactly once, and the scores of the
channel have grown by the two shrunk trees only: they hold the bias not at all. -/
theorem C9_bias_applied_once (env : Collaborators L) (s : RGF L) (c : Nat)
    (heps : 0 ≤ env.kEpsilon) (hcold : |BoostFromAverage env s| > env.kEpsilon)
    (hnd : ¬ RefitDue s) (hnext : (s.iter_ + 1) % 100 ≠ 0)
    (hdiv : s.num_tree_per_iteration_ ∣ s.models_.length)
    (hc : c < s.num_tree_per_iteration_) :
    ∃ o₁ rc₁, TrainOneIter env none none s = some o₁ ∧
      TrainOneIter.arrival env none none s c = some rc₁ ∧
      (1 < (TrainOneIter.acquire env none c rc₁.self).1.num_leaves →
        ∃ shrunk₁ : Tree,
          shrunk₁ = (env.RenewTreeOutput (TrainOneIter.acquire env none c rc₁.self).2
            (TrainOneIter.acquire env none c rc₁.self).1
            (shift rc₁.self.train_score_updater_.score_ (c * s.num_data_)) s.num_data_
            rc₁.self.bag_data_indices_ rc₁.self.bag_data_cnt_).1.Shrinkage s.shrinkage_rate_ ∧
          o₁.finished = false ∧
          o₁.self.models_[s.models_.length + c]? =
            some (shrunk₁.AddBias (BoostFromAverage env s)) ∧
          ChannelAdds c shrunk₁.Predict s.train_score_updater_ o₁.self.train_score_updater_ ∧
          List.Forall₂ (ChannelAdds c shrunk₁.Predict) s.valid_score_updater_
            o₁.self.valid_score_updater_ ∧
          ∃ o₂ rc₂, TrainOneIter env none none o₁.self = some o₂ ∧
            TrainOneIter.arrival env none none o₁.self c = some rc₂ ∧
            BoostFromAverage env o₁.self = 0 ∧
            (∀ c' b, Event.addBias c' b ∉ o₂.log) ∧
            o₂.self.models_[s.models_.length + c]? =
              some (shrunk₁.AddBias (BoostFromAverage env s)) ∧
            (1 < (TrainOneIter.acquire env none c rc₂.self).1.num_leaves →
              ∃ shrunk₂ : Tree,
                shrunk₂ = (env.RenewTreeOutput (TrainOneIter.acquire env none c rc₂.self).2
                  (TrainOneIter.acquire env none c rc₂.self).1
                  (shift rc₂.self.train_score_updater_.score_ (c * s.num_data_)) s.num_data_
                  rc₂.self.bag_data_indices_ rc₂.self.bag_data_cnt_).1.Shrinkage
                    s.shrinkage_rate_ ∧
                o₂.finished = false ∧
                o₂.self.models_[s.models_.length + s.num_tree_per_iteration_ + c]? =
                  some shrunk₂ ∧
                ChannelAdds c (fun row => shrunk₁.Predict row + shrunk₂.Predict row)
                  s.train_score_updater_ o₂.self.train_score_updater_ ∧
                List.Forall₂
                  (ChannelAdds c (fun row => shrunk₁.Predict row + shrunk₂.Predict row))
                  s.valid_score_updater_ o₂.self.valid_score_updater_ ∧
                ∀ row, shrunk₁.root.GetLeaf row < shrunk₁.num_leaves →
                  contribution s.num_tree_per_iteration_ c row 0 o₂.self.models_ =
                    contribution s.num_tree_per_iteration_ c row 0 s.models_ +
                      shrunk₁.Predict row + shrunk₂.Predict row + BoostFromAverage env s)) := by
  obtain ⟨o₁, ho₁⟩ := TrainOneIter_returns env none none s (Or.inl hnd)
  obtain ⟨rc₁, harr₁, hsetup₁, -, hacc₁⟩ :=
    TrainOneIter_accepted env none none s o₁ ho₁ hnd c hc
  refine ⟨o₁, rc₁, ho₁, harr₁, fun hacc => ?_⟩
  obtain ⟨hfin₁, hst₁, hta₁, hva₁⟩ := hacc₁ hacc
  rw [if_pos (show |(TrainOneIter.boost env none none s).1| > env.kEpsilon from hcold)] at hst₁
  have hst₁' : o₁.self.models_[s.models_.length + c]? =
      some ((TrainOneIter.renewed env c rc₁.self
        (TrainOneIter.acquire env none c rc₁.self)).1.AddBias (BoostFromAverage env s)) := hst₁
  obtain ⟨hK₁, hdata₁, hrate₁, -⟩ := TrainOneIter_setup env none none s o₁ ho₁
  obtain ⟨hiter₁, hlen₁⟩ := (TrainOneIter_spec env none none s o₁ ho₁).2.2.2 hfin₁
  have hnd₂ : ¬ RefitDue o₁.self := by
    unfold RefitDue
    rw [hiter₁]
    exact fun hd => hnext hd.2
  obtain ⟨o₂, ho₂⟩ := TrainOneIter_returns env none none o₁.self (Or.inl hnd₂)
  obtain ⟨rc₂, harr₂, hsetup₂, -, hacc₂⟩ :=
    TrainOneIter_accepted env none none o₁.self o₂ ho₂ hnd₂ c (by rw [hK₁]; exact hc)
  have hinit : BoostFromAverage env o₁.self = 0 :=
    BoostFromAverage_of_models env o₁.self (by omega)
  have hnb : ¬ |(TrainOneIter.boost env none none o₁.self).1| > env.kEpsilon := by
    rw [show (TrainOneIter.boost env none none o₁.self).1 = 0 from hinit, abs_zero]
    exact not_lt.mpr heps
  obtain ⟨hplen₁, hpf₁, -⟩ := TrainOneIter_models env none none s o₁ ho₁ hnd
  obtain ⟨hplen₂, hpf₂, hpt₂⟩ := TrainOneIter_models env none none o₁.self o₂ ho₂ hnd₂
  have hkeep : o₂.self.models_[s.models_.length + c]? =
      some ((TrainOneIter.renewed env c rc₁.self
        (TrainOneIter.acquire env none c rc₁.self)).1.AddBias (BoostFromAverage env s)) := by
    cases hf : o₂.finished with
    | false => rw [hpf₂ hf, List.getElem?_append_left (by omega), hst₁']
    | true => rw [hpt₂ hf, hst₁']
  refine ⟨_, ?_, hfin₁, hst₁', hta₁, hva₁, o₂, rc₂, ho₂, harr₂, hinit,
    TrainOneIter_no_addBias env none none o₁.self o₂ ho₂ hnb, hkeep, fun hacc' => ?_⟩
  · rw [← hsetup₁.num_data_, ← hsetup₁.shrinkage_rate_]
    rfl
  obtain ⟨hfin₂, hst₂, hta₂, hva₂⟩ := hacc₂ hacc'
  rw [if_neg hnb, hlen₁] at hst₂
  refine ⟨_, ?_, hfin₂, hst₂, ChannelAdds_compose hta₁ hta₂,
    Forall₂_adds hva₁ hva₂, fun row hrow => ?_⟩
  · rw [← hdata₁, ← hsetup₂.num_data_, ← hrate₁, ← hsetup₂.shrinkage_rate_]
    rfl
  · have h₁ := hpf₁ hfin₁
    have h₂ := hpf₂ hfin₂
    rw [hK₁] at hplen₂
    have hp₁ : (pushedTrees o₁.log)[c]? = some ((TrainOneIter.renewed env c rc₁.self
        (TrainOneIter.acquire env none c rc₁.self)).1.AddBias (BoostFromAverage env s)) := by
      have := hst₁'
      rw [h₁, List.getElem?_append_right (by omega), Nat.add_sub_cancel_left] at this
      exact this
    have hp₂ : (pushedTrees o₂.log)[c]? = some (TrainOneIter.renewed env c rc₂.self
        (TrainOneIter.acquire env (TrainOneIter.boost env none none o₁.self).2.1 c
          rc₂.self)).1 := by
      have := hst₂
      rw [h₂, List.getElem?_append_right (by omega), hlen₁,
        show s.models_.length + s.num_tree_per_iteration_ + c -
          (s.models_.length + s.num_tree_per_iteration_) = c by omega] at this
      exact this
    have hdiv₂ : s.num_tree_per_iteration_ ∣ o₁.self.models_.length := by
      rw [hlen₁]
      exact Nat.dvd_add hdiv (Nat.dvd_refl _)
    rw [h₂, contribution_round _ c row _ _ _ hdiv₂ hplen₂ hc hp₂, h₁,
      contribution_round _ c row _ _ _ hdiv hplen₁ hc hp₁, Tree.Predict_AddBias _ _ _ hrow]
    ring

/-- C9 (witness): the amended claim for channel 0 of a fresh one-channel booster, cold-start
bias `0.2`. -/
theorem C9_witness :
    (0 ≤ scenarioLearner.kEpsilon ∧
      |BoostFromAverage scenarioLearner freshOneChannel| > scenarioLearner.kEpsilon ∧
      ¬ RefitDue freshOneChannel ∧ (freshOneChannel.iter_ + 1) % 100 ≠ 0 ∧
      freshOneChannel.num_tree_per_iteration_ ∣ freshOneChannel.models_.length ∧
      0 < freshOneChannel.num_tree_per_iteration_) ∧
    (∃ o₁ rc₁, TrainOneIter scenarioLearner none none freshOneChannel = some o₁ ∧
      TrainOneIter.arrival scenarioLearner none none freshOneChannel 0 = some rc₁ ∧
      (1 < (TrainOneIter.acquire scenarioLearner none 0 rc₁.self).1.num_leaves →
        ∃ shrunk₁ : Tree,
          shrunk₁ = (scenarioLearner.RenewTreeOutput (TrainOneIter.acquire scenarioLearner none 0 rc₁.self).2
            (TrainOneIter.acquire scenarioLearner none 0 rc₁.self).1
            (shift rc₁.self.train_score_updater_.score_ (0 * freshOneChannel.num_data_)) freshOneChannel.num_data_
            rc₁.self.bag_data_indices_ rc₁.self.bag_data_cnt_).1.Shrinkage freshOneChannel.shrinkage_rate_ ∧
          o₁.finished = false ∧
          o₁.self.models_[freshOneChannel.models_.length + 0]? =
            some (shrunk₁.AddBias (BoostFromAverage scenarioLearner freshOneChannel)) ∧
          ChannelAdds 0 shrunk₁.Predict freshOneChannel.train_score_updater_ o₁.self.train_score_updater_ ∧
          List.Forall₂ (ChannelAdds 0 shrunk₁.Predict) freshOneChannel.valid_score_updater_
            o₁.self.valid_score_updater_ ∧
          ∃ o₂ rc₂, TrainOneIter scenarioLearner none none o₁.self = some o₂ ∧
            TrainOneIter.arrival scenarioLearner none none o₁.self 0 = some rc₂ ∧
            BoostFromAverage scenarioLearner o₁.self = 0 ∧
            (∀ c' b, Event.addBias c' b ∉ o₂.log) ∧
            o₂.self.models_[freshOneChannel.models_.length + 0]? =
              some (shrunk₁.AddBias (BoostFromAverage scenarioLearner freshOneChannel)) ∧
            (1 < (TrainOneIter.acquire scenarioLearner none 0 rc₂.self).1.num_leaves →
              ∃ shrunk₂ : Tree,
                shrunk₂ = (scenarioLearner.RenewTreeOutput (TrainOneIter.acquire scenarioLearner none 0 rc₂.self).2
                  (TrainOneIter.acquire scenarioLearner none 0 rc₂.self).1
                  (shift rc₂.self.train_score_updater_.score_ (0 * freshOneChannel.num_data_)) freshOneChannel.num_data_
                  rc₂.self.bag_data_indices_ rc₂.self.bag_data_cnt_).1.Shrinkage
                    freshOneChannel.shrinkage_rate_ ∧
                o₂.finished = false ∧
                o₂.self.models_[freshOneChannel.models_.length + freshOneChannel.num_tree_per_iteration_ + 0]? =
                  some shrunk₂ ∧
                ChannelAdds 0 (fun row => shrunk₁.Predict row + shrunk₂.Predict row)
                  freshOneChannel.train_score_updater_ o₂.self.train_score_updater_ ∧
                List.Forall₂
                  (ChannelAdds 0 (fun row => shrunk₁.Predict row + shrunk₂.Predict row))
                  freshOneChannel.valid_score_updater_ o₂.self.valid_score_updater_ ∧
                ∀ row, shrunk₁.root.GetLeaf row < shrunk₁.num_leaves →
                  contribution freshOneChannel.num_tree_per_iteration_ 0 row 0 o₂.self.models_ =
                    contribution freshOneChannel.num_tree_per_iteration_ 0 row 0 freshOneChannel.models_ +
                      shrunk₁.Predict row + shrunk₂.Predict row + BoostFromAverage scenarioLearner freshOneChannel))) :=
  have h₁ : 0 ≤ scenarioLearner.kEpsilon := by
    norm_num [scenarioLearner, sampleCollaborators]
  have h₂ : |BoostFromAverage scenarioLearner freshOneChannel| > scenarioLearner.kEpsilon := by
    norm_num [BoostFromAverage, scenarioLearner, freshOneChannel, sampleBooster,
      sampleCollaborators, abs_of_pos]
  have h₃ : ¬ RefitDue freshOneChannel := by
    simp [RefitDue, freshOneChannel, sampleBooster]
  have h₄ : (freshOneChannel.iter_ + 1) % 100 ≠ 0 := by
    simp [freshOneChannel, sampleBooster]
  ⟨⟨h₁, h₂, h₃, h₄, ⟨0, rfl⟩, Nat.zero_lt_one⟩,
    C9_bias_applied_once scenarioLearner freshOneChannel 0 h₁ h₂ h₃ h₄ ⟨0, rfl⟩
      Nat.zero_lt_one⟩

/-- C10 (counterexample): two channels at `iter_ = 100`. The record of the call has two refits,
one after each append (`false` an append, `true` a refit); the first one ran when only the tree
of channel 0 had been appended and visited the indices 0 and 1 of the earlier round only. -/
theorem C10_counterexample :
    (TrainOneIter splittingLearner none none
        (sampleBooster 100 2 [twoLeaves, Tree.new 2] (fun c => c = 0) (fun _ => 7 / 10))).map
      (fun o => (schedule o.log, o.log.filter Event.isRefit)) =
      some ([false, true, false, true], [Event.refit [0, 1], Event.refit [0, 1, 2, 3]]) := by
  norm_num [TrainOneIter, TrainOneIter.boost, TrainOneIter.loop, TrainOneIter.refit,
    TrainOneIter.channel, TrainOneIter.acquire, TrainOneIter.renewed, TrainOneIter.renew,
    RefitDue, popBack, FullyCorrectiveUpdate, FullyCorrectiveUpdate.iters,
    FullyCorrectiveUpdate.trees, FullyCorrectiveUpdate.body, UpdateScore, Boosting,
    BoostFromAverage, splittingLearner, sampleBooster, sampleCollaborators, samplePartition,
    twoLeaves, Tree.new, Tree.num_leaves, Tree.Shrinkage, schedule, Event.isRefit,
    Event.isPushBack]

/-- C10 (amended): for every number of channels, a call of `TrainOneIter` at a round counter
`iter_` that is non-zero and divisible by 100 invokes `FullyCorrectiveUpdate` once per channel,
each time right after the tree of that channel has been appended (with one channel: exactly
once, after the append); the call returns when the learner keeps the leaf counts. At any other
`iter_`, in particular at 0, the call returns and does not invoke it at all. -/
theorem C10_refit_after_every_append (env : Collaborators L)
    (gradients hessians : Option (Nat → ℚ)) (s : RGF L) :
    (¬ RefitDue s → ∃ o, TrainOneIter env gradients hessians s = some o ∧
      schedule o.log = List.replicate s.num_tree_per_iteration_ false) ∧
    (RefitDue s →
      (RefitKeepsLeaves env → ∃ o, TrainOneIter env gradients hessians s = some o) ∧
      ∀ o, TrainOneIter env gradients hessians s = some o →
        schedule o.log = refitAfterEveryAppend s.num_tree_per_iteration_ ∧
        (o.log.filter Event.isRefit).length = s.num_tree_per_iteration_) := by
  obtain ⟨hb, -, -, -⟩ := TrainOneIter.boost_setup env gradients hessians s
  have key : ∀ o, TrainOneIter env gradients hessians s = some o →
      schedule o.log = if RefitDue s then refitAfterEveryAppend s.num_tree_per_iteration_
        else List.replicate s.num_tree_per_iteration_ false := by
    intro o ho
    obtain ⟨r, hr, hlog, -⟩ := TrainOneIter_loop env gradients hessians s o ho
    rw [hlog, TrainOneIter.loop_schedule env _ _ _ 0 _ r hr]
    simp only [schedule, List.filter_nil, List.map_nil, List.nil_append, RefitDue_congr hb]
  refine ⟨fun hd => ?_, fun hd => ⟨fun hk => TrainOneIter_returns env _ _ s (Or.inr hk),
    fun o ho => ?_⟩⟩
  · obtain ⟨o, ho⟩ := TrainOneIter_returns env gradients hessians s (Or.inl hd)
    exact ⟨o, ho, by rw [key o ho, if_neg hd]⟩
  · have hsched := key o ho
    rw [if_pos hd] at hsched
    refine ⟨hsched, ?_⟩
    have hcount : ∀ n, ((refitAfterEveryAppend n).filter id).length = n := by
      intro n
      induction n with
      | zero => rfl
      | succ n ih => simp [refitAfterEveryAppend, ih]
    have hfilter : ∀ log : List Event,
        (log.filter Event.isRefit).length = ((schedule log).filter id).length := by
      intro log
      induction log with
      | nil => rfl
      | cons e log ih =>
        cases e <;> simp_all [schedule, Event.isRefit, Event.isPushBack, List.filter_cons]
    rw [hfilter, hsched, hcount]

/-- C11, as claimed, fails: on a booster whose training scores equal the contribution of its
only tree, a pass of `FullyCorrectiveUpdate` whose learner returns the tree unchanged (so that
the refit tree minus the replaced tree is zero) leaves the ensemble as it was and still raises
the training score of data point `0` from `1` to `2`, while the contribution of the ensemble
stays `1`. -/
theorem C11_counterexample :
    ScoreConsistent consistentBooster ∧
    consistentBooster.train_score_updater_.score_ 0 = 1 ∧
    (FullyCorrectiveUpdate splittingLearner consistentBooster).map
      (fun res => (res.2.1.models_, res.2.1.train_score_updater_.score_ 0,
        contribution 1 0 (res.2.1.train_score_updater_.data_ 0) 0 res.2.1.models_)) =
      some ([twoLeaves], 2, 1) := by
  refine ⟨?_, ?_, ?_⟩
  · intro c hc i hi
    have hc0 : c = 0 := by
      simp only [consistentBooster, sampleBooster] at hc
      omega
    subst hc0
    have hi3 : i < 3 := hi
    interval_cases i <;>
      norm_num [consistentBooster, sampleBooster, samplePartition, twoLeaves, contribution,
        ScoreUpdater.AddScore, Tree.Predict, Tree.LeafOutput, Node.GetLeaf]
  · norm_num [consistentBooster, sampleBooster, samplePartition, twoLeaves,
      ScoreUpdater.AddScore, Tree.Predict, Tree.LeafOutput, Node.GetLeaf]
  · norm_num [FullyCorrectiveUpdate, FullyCorrectiveUpdate.iters, FullyCorrectiveUpdate.trees,
      FullyCorrectiveUpdate.body, consistentBooster, splittingLearner, sampleBooster,
      sampleCollaborators, samplePartition, twoLeaves, Tree.new, Tree.num_leaves, Tree.Predict,
      Tree.LeafOutput, Node.GetLeaf, ScoreUpdater.AddScoreLearner, ScoreUpdater.AddScore,
      contribution]

/-- C11, amended: every visit of `FullyCorrectiveUpdate` stores the refit tree at the visited
index and adds the contribution of the refit tree to the training score of every data point of
the visited channel, without removing the contribution of the tree it replaces, and changes no
training score of another channel; hence after a completed pass the training scores have grown
by the contributions of the trees now stored at the visited indices, and if they equalled the
sum of the ensemble's contributions before the pass, they equal that sum plus the contributions
of the refit trees after it. -/
theorem C11_refit_adds_without_removing (env : Collaborators L) (s : RGF L) :
    (RefitKeepsLeaves env → ∃ res, FullyCorrectiveUpdate env s = some res) ∧
    ∀ res, FullyCorrectiveUpdate env s = some res →
      (∀ k, k < s.models_.length / s.num_tree_per_iteration_ * s.num_tree_per_iteration_ →
        ∃ st st', FullyCorrectiveUpdate.sweep env 0 k (s, []) = some st ∧
          FullyCorrectiveUpdate.sweep env 0 (k + 1) (s, []) = some st' ∧
          st'.1.models_ = st.1.models_.set k
            (FullyCorrectiveUpdate.fit env k (k % s.num_tree_per_iteration_) st.1).1 ∧
          ∀ c i, i < s.train_score_updater_.num_data_ →
            st'.1.train_score_updater_.score_ (s.train_score_updater_.num_data_ * c + i) =
              st.1.train_score_updater_.score_ (s.train_score_updater_.num_data_ * c + i) +
                (if c = k % s.num_tree_per_iteration_ then
                  (FullyCorrectiveUpdate.fit env k (k % s.num_tree_per_iteration_) st.1).1.Predict
                    (s.train_score_updater_.data_ i)
                else 0)) ∧
      (∀ c i, i < s.train_score_updater_.num_data_ →
        res.2.1.train_score_updater_.score_ (s.train_score_updater_.num_data_ * c + i) =
          s.train_score_updater_.score_ (s.train_score_updater_.num_data_ * c + i) +
            contribution s.num_tree_per_iteration_ c (s.train_score_updater_.data_ i) 0
              (res.2.1.models_.take
                (s.models_.length / s.num_tree_per_iteration_ * s.num_tree_per_iteration_))) ∧
      (ScoreConsistent s → ∀ c < s.num_tree_per_iteration_,
        ∀ i < s.train_score_updater_.num_data_,
        res.2.1.train_score_updater_.score_ (s.train_score_updater_.num_data_ * c + i) =
          contribution s.num_tree_per_iteration_ c (s.train_score_updater_.data_ i) 0 s.models_ +
            contribution s.num_tree_per_iteration_ c (s.train_score_updater_.data_ i) 0
              (res.2.1.models_.take
                (s.models_.length / s.num_tree_per_iteration_ * s.num_tree_per_iteration_))) := by
  refine ⟨fun hk => FullyCorrectiveUpdate_returns env hk s, ?_⟩
  intro res hres
  rw [FullyCorrectiveUpdate_eq_sweep] at hres
  have hbound : s.models_.length / s.num_tree_per_iteration_ * s.num_tree_per_iteration_ ≤
      s.models_.length := Nat.div_mul_le_self _ _
  cases hs : FullyCorrectiveUpdate.sweep env 0
      (s.models_.length / s.num_tree_per_iteration_ * s.num_tree_per_iteration_) (s, []) with
  | none => simp [hs] at hres
  | some fin =>
    simp only [hs, Option.map_some', Option.some.injEq] at hres
    subst hres
    have hpass := (FullyCorrectiveUpdate.sweep_score env _ (s, []) fin hs hbound).2.2
    simp only at hpass
    refine ⟨?_, hpass, ?_⟩
    · intro k hk
      obtain ⟨st, st', h₁, h₂, hb, -⟩ :=
        FullyCorrectiveUpdate.sweep_visit env _ k (s, []) fin hk hs
      have hK := (FullyCorrectiveUpdate.sweep_setup env k 0 (s, []) st h₁).1.num_tree_per_iteration_
      obtain ⟨hnd, hdata, -⟩ :=
        FullyCorrectiveUpdate.sweep_score env k (s, []) st h₁ (by simp only; omega)
      simp only at hK hnd hdata
      obtain ⟨-, hset, -, -⟩ := FullyCorrectiveUpdate.visit_spec env k st st' hb
      obtain ⟨-, -, hscore⟩ := FullyCorrectiveUpdate.visit_score env k st st' hb
      rw [hK] at hset
      rw [hK, hnd, hdata] at hscore
      exact ⟨st, st', h₁, h₂, hset, hscore⟩
    · intro hcons c hc i hi
      rw [hpass c i hi, hcons c hc i hi]

/-- C12: `FullyCorrectiveUpdate` aborts if and only if the sweep reaches a flat index `k`
at which the tree returned by the learner's `FitByExistingTree` has a leaf count different from
the one of `models_[k]`, the tree it would replace; when it completes, the ensemble has the same
number of entries as before and the tree at every index has the leaf count of the tree it
replaced. -/
theorem C12_refit_structure_check (env : Collaborators L) (s : RGF L) :
    (FullyCorrectiveUpdate env s = none ↔
      ∃ k st old,
        k < s.models_.length / s.num_tree_per_iteration_ * s.num_tree_per_iteration_ ∧
        FullyCorrectiveUpdate.sweep env 0 k (s, []) = some st ∧ s.models_[k]? = some old ∧
        (FullyCorrectiveUpdate.fit env k (k % s.num_tree_per_iteration_) st.1).1.num_leaves ≠
          old.num_leaves) ∧
    ∀ res, FullyCorrectiveUpdate env s = some res →
      res.2.1.models_.length = s.models_.length ∧
      ∀ idx : Nat, (res.2.1.models_[idx]?).map Tree.num_leaves =
        (s.models_[idx]?).map Tree.num_leaves := by
  have hbound : s.models_.length / s.num_tree_per_iteration_ * s.num_tree_per_iteration_ ≤
      s.models_.length := Nat.div_mul_le_self _ _
  have harrive : ∀ k st,
      k < s.models_.length / s.num_tree_per_iteration_ * s.num_tree_per_iteration_ →
      FullyCorrectiveUpdate.sweep env 0 k (s, []) = some st →
      st.1.num_tree_per_iteration_ = s.num_tree_per_iteration_ ∧
        ∃ old, s.models_[k]? = some old ∧ st.1.models_.getD k (Tree.new 2) = old := by
    intro k st hk hst
    have hK := (FullyCorrectiveUpdate.sweep_setup env k 0 (s, []) st hst).1.num_tree_per_iteration_
    have hsame := FullyCorrectiveUpdate.sweep_outside env k 0 (s, []) st hst k (Or.inr (by omega))
    have hlt : k < s.models_.length := by omega
    refine ⟨hK, s.models_[k], List.getElem?_eq_getElem hlt, ?_⟩
    simp only at hsame
    rw [List.getD_eq_getElem?_getD, hsame, List.getElem?_eq_getElem hlt]
    rfl
  constructor
  · rw [FullyCorrectiveUpdate_eq_sweep, Option.map_eq_none', FullyCorrectiveUpdate.sweep_none_iff]
    constructor
    · rintro ⟨j, st₁, hj, h₁, h₂⟩
      obtain ⟨hK, old, hold, hget⟩ := harrive j st₁ hj h₁
      rw [Nat.zero_add, FullyCorrectiveUpdate.visit_none_iff, hK, hget] at h₂
      exact ⟨j, st₁, old, hj, h₁, hold, h₂⟩
    · rintro ⟨k, st, old, hk, h₁, hold, h₂⟩
      obtain ⟨hK, old', hold', hget⟩ := harrive k st hk h₁
      rw [hold] at hold'
      simp only [Option.some.injEq] at hold'
      subst hold'
      refine ⟨k, st, hk, h₁, ?_⟩
      rw [Nat.zero_add, FullyCorrectiveUpdate.visit_none_iff, hK, hget]
      exact h₂
  · intro res hres
    rw [FullyCorrectiveUpdate_eq_sweep] at hres
    cases hs : FullyCorrectiveUpdate.sweep env 0
        (s.models_.length / s.num_tree_per_iteration_ * s.num_tree_per_iteration_) (s, []) with
    | none => simp [hs] at hres
    | some st =>
      simp only [hs, Option.map_some', Option.some.injEq] at hres
      subst hres
      exact ⟨(FullyCorrectiveUpdate.sweep_setup env _ 0 (s, []) st hs).2.1,
        FullyCorrectiveUpdate.sweep_leaves env _ 0 (s, []) st hs⟩

/-- C13 (the code at the failing input): a one-channel booster at round 100 holds one tree
with leaf outputs `1, -1`, and the score of data point `0` is `1` in the training and in the
validation partition. A pass of `FullyCorrectiveUpdate` whose refit raises every leaf output by
one stores the leaf outputs `2, 0` and raises the training score to `3`, while the validation
score stays `1`. A whole call of `TrainOneIter` first adds the new tree (`0.1` at data point
`0`) to both partitions and then runs the refit: the training score ends at `4.2`, the
validation score at `1.1`. In general no pass of `FullyCorrectiveUpdate` changes a validation
score. -/
theorem C13_validation_lags_after_refit :
    (validatedBooster.train_score_updater_.score_ 0,
      validatedBooster.valid_score_updater_.map (fun u => u.score_ 0)) = (1, [1]) ∧
    (FullyCorrectiveUpdate shiftingLearner validatedBooster).map
      (fun res => (res.2.1.models_.map (fun t => t.leaf_value_),
        res.2.1.train_score_updater_.score_ 0,
        res.2.1.valid_score_updater_.map (fun u => u.score_ 0))) =
      some ([[2, 0]], 3, [1]) ∧
    (TrainOneIter shiftingLearner none none validatedBooster).map
      (fun o => (o.finished, o.self.models_.map (fun t => t.leaf_value_),
        o.self.train_score_updater_.score_ 0,
        o.self.valid_score_updater_.map (fun u => u.score_ 0))) =
      some (false, [[2, 0], [11 / 10, 9 / 10]], 21 / 5, [11 / 10]) ∧
    ∀ (env : Collaborators Nat) (s : RGF Nat) (res : Bool × RGF Nat × List Nat),
      FullyCorrectiveUpdate env s = some res →
      res.2.1.valid_score_updater_ = s.valid_score_updater_ := by
  refine ⟨?_, ?_, ?_, ?_⟩
  · norm_num [validatedBooster, sampleBooster, samplePartition, twoLeaves,
      ScoreUpdater.AddScore, Tree.Predict, Tree.LeafOutput, Node.GetLeaf]
  · norm_num [FullyCorrectiveUpdate, FullyCorrectiveUpdate.iters, FullyCorrectiveUpdate.trees,
      FullyCorrectiveUpdate.body, validatedBooster, shiftingLearner, sampleBooster,
      sampleCollaborators, samplePartition, twoLeaves, Tree.new, Tree.num_leaves, Tree.AddBias,
      Tree.Predict, Tree.LeafOutput, Node.GetLeaf, ScoreUpdater.AddScoreLearner,
      ScoreUpdater.AddScore]
  · norm_num [TrainOneIter, TrainOneIter.boost, TrainOneIter.loop, TrainOneIter.refit,
      TrainOneIter.channel, TrainOneIter.acquire, TrainOneIter.renewed, TrainOneIter.renew,
      RefitDue, popBack,
      FullyCorrectiveUpdate, FullyCorrectiveUpdate.iters, FullyCorrectiveUpdate.trees,
      FullyCorrectiveUpdate.body, UpdateScore, Boosting, BoostFromAverage, validatedBooster,
      shiftingLearner, sampleBooster,
      sampleCollaborators, samplePartition, twoLeaves, Tree.new, Tree.num_leaves, Tree.AddBias,
      Tree.Shrinkage, Tree.Predict, Tree.LeafOutput, Node.GetLeaf, ScoreUpdater.AddScoreLearner,
      ScoreUpdater.AddScore]
  · intro env s res h
    exact (FullyCorrectiveUpdate_spec env s res h).2.2

/-- C14: with `n = models_.size() / num_tree_per_iteration_`, the nested loops of
`FullyCorrectiveUpdate` are one forward sweep over the flat indices below `n * K`, and a pass
that completes (as every pass does when the learner keeps the leaf counts) has visited the flat
indices `0, 1, ..., n * K - 1` in this order, which are exactly the indices `r * K + c` with
`r < n` and `c < K`, each once and strictly increasing; entries at the indices from `n * K` on
are untouched; and at every visited index `k` the gradients are recomputed from the training
score cache of the state on arrival, which already holds the score changes of all earlier
visits, the tree fitted from them is stored at `k` and added to the training score cache. -/
theorem C14_refit_sweep_order (env : Collaborators L) (s : RGF L) :
    FullyCorrectiveUpdate env s =
      (FullyCorrectiveUpdate.sweep env 0
        (s.models_.length / s.num_tree_per_iteration_ * s.num_tree_per_iteration_)
        (s, [])).map (fun st => (true, st.1, st.2)) ∧
    (RefitKeepsLeaves env → ∃ res, FullyCorrectiveUpdate env s = some res) ∧
    ∀ res, FullyCorrectiveUpdate env s = some res →
      res.2.2 =
        List.range (s.models_.length / s.num_tree_per_iteration_ * s.num_tree_per_iteration_) ∧
      (∀ idx, idx ∈ res.2.2 ↔ ∃ r c, r < s.models_.length / s.num_tree_per_iteration_ ∧
        c < s.num_tree_per_iteration_ ∧ idx = r * s.num_tree_per_iteration_ + c) ∧
      res.2.2.Pairwise (· < ·) ∧
      (∀ idx : Nat,
        s.models_.length / s.num_tree_per_iteration_ * s.num_tree_per_iteration_ ≤ idx →
        res.2.1.models_[idx]? = s.models_[idx]?) ∧
      ∀ k, k < s.models_.length / s.num_tree_per_iteration_ * s.num_tree_per_iteration_ →
        ∃ st st', FullyCorrectiveUpdate.sweep env 0 k (s, []) = some st ∧
          FullyCorrectiveUpdate.sweep env 0 (k + 1) (s, []) = some st' ∧
          st'.1.gradients_ = (env.GetGradients st.1.train_score_updater_.score_).1 ∧
          st'.1.hessians_ = (env.GetGradients st.1.train_score_updater_.score_).2 ∧
          st'.1.train_score_updater_ = st.1.train_score_updater_.AddScoreLearner
            (FullyCorrectiveUpdate.fit env k (k % s.num_tree_per_iteration_) st.1).1
            (k % s.num_tree_per_iteration_) ∧
          res.2.1.models_[k]? =
            some (FullyCorrectiveUpdate.fit env k (k % s.num_tree_per_iteration_) st.1).1 := by
  refine ⟨FullyCorrectiveUpdate_eq_sweep env s,
    fun hk => FullyCorrectiveUpdate_returns env hk s, ?_⟩
  intro res hres
  rw [FullyCorrectiveUpdate_eq_sweep] at hres
  cases hs : FullyCorrectiveUpdate.sweep env 0
      (s.models_.length / s.num_tree_per_iteration_ * s.num_tree_per_iteration_) (s, []) with
  | none => simp [hs] at hres
  | some fin =>
    simp only [hs, Option.map_some', Option.some.injEq] at hres
    subst hres
    have hvis : fin.2 =
        List.range (s.models_.length / s.num_tree_per_iteration_ * s.num_tree_per_iteration_) := by
      rw [FullyCorrectiveUpdate.sweep_visited env _ 0 (s, []) fin hs, List.range_eq_range']
      rfl
    refine ⟨hvis, ?_, ?_, ?_, ?_⟩
    · intro idx
      simp only [hvis, List.mem_range]
      exact flat_index_iff _ _ idx
    · simp only [hvis]
      exact List.pairwise_lt_range _
    · intro idx hidx
      exact FullyCorrectiveUpdate.sweep_outside env _ 0 (s, []) fin hs idx (Or.inr (by omega))
    · intro k hk
      obtain ⟨st, st', h₁, h₂, hb, hrest⟩ :=
        FullyCorrectiveUpdate.sweep_visit env _ k (s, []) fin hk hs
      have hK := (FullyCorrectiveUpdate.sweep_setup env k 0 (s, []) st h₁).1.num_tree_per_iteration_
      have hlen := (FullyCorrectiveUpdate.sweep_setup env k 0 (s, []) st h₁).2.1
      simp only at hK hlen
      obtain ⟨-, hset, -, htrain⟩ := FullyCorrectiveUpdate.visit_spec env k st st' hb
      obtain ⟨hg, hh⟩ := FullyCorrectiveUpdate.visit_gradients env _ _ st st' hb
      rw [hK] at hset htrain
      have hbound : s.models_.length / s.num_tree_per_iteration_ * s.num_tree_per_iteration_ ≤
          s.models_.length := Nat.div_mul_le_self _ _
      refine ⟨st, st', h₁, h₂, hg, hh, htrain, ?_⟩
      rw [FullyCorrectiveUpdate.sweep_outside env _ (k + 1) st' fin hrest k (Or.inl (by omega)),
        hset, List.getElem?_set_eq_of_lt _ (by omega)]

/-- C16, as claimed, fails: at `iter_ = 100` with supplied gradients and hessians (all `0`)
the refit runs, and `FullyCorrectiveUpdate` recomputes the gradient buffers from the objective:
they held `0` before the call and hold the gradients `1` and the hessians `2` of the objective
after it. -/
theorem C16_counterexample :
    (refitBooster.gradients_ 0, refitBooster.hessians_ 0) = (0, 0) ∧
    (TrainOneIter gradientLearner (some fun _ => 0) (some fun _ => 0) refitBooster).map
      (fun o => (o.finished, o.self.gradients_ 0, o.self.hessians_ 0,
        o.log.filter Event.isRefit)) =
      some (false, 1, 2, [Event.refit [0, 1]]) := by
  refine ⟨rfl, ?_⟩
  norm_num [TrainOneIter, TrainOneIter.boost, TrainOneIter.loop, TrainOneIter.refit,
    TrainOneIter.channel, TrainOneIter.acquire, TrainOneIter.renewed, TrainOneIter.renew,
    TrainOneIter.buffers, RefitDue, popBack,
    FullyCorrectiveUpdate, FullyCorrectiveUpdate.iters, FullyCorrectiveUpdate.trees,
    FullyCorrectiveUpdate.body, UpdateScore, Boosting, BoostFromAverage, refitBooster,
    gradientLearner, splittingLearner, sampleBooster, sampleCollaborators, samplePartition,
    twoLeaves, Tree.new, Tree.num_leaves, Tree.Shrinkage, Tree.Predict, Tree.LeafOutput,
    Node.GetLeaf, ScoreUpdater.AddScoreLearner, ScoreUpdater.AddScore, Event.isRefit, shift]

/-- C16, amended: when both gradients and hessians are supplied, the boosting step computes no
bias and leaves the state as it is, no tree receives a bias, every channel that needs training
is fitted by `Train` from its slices of the supplied buffers, and the gradient buffers are
unchanged by the call when no refit is due (when one is due, `FullyCorrectiveUpdate` recomputes
them). When gradients or hessians are absent, the bias is computed by `BoostFromAverage`, the
gradient buffers are populated from the objective at the training scores, and every channel that
needs training is fitted by `Train` from its slices of the internal gradient buffers as they
are on arrival at the channel, which are those of the boosting step when no refit is due. -/
theorem C16_gradient_input_handling (env : Collaborators L) (s : RGF L)
    (h0 : 0 ≤ env.kEpsilon) :
    (∀ g h : Nat → ℚ,
      TrainOneIter.boost env (some g) (some h) s = (0, some (g, h), s) ∧
      ∀ o, TrainOneIter env (some g) (some h) s = some o →
        (∀ c b, Event.addBias c b ∉ o.log) ∧
        (¬ RefitDue s → o.self.gradients_ = s.gradients_ ∧ o.self.hessians_ = s.hessians_) ∧
        ∀ c, c < s.num_tree_per_iteration_ → s.class_need_train_ c = true →
          ∃ rc, TrainOneIter.arrival env (some g) (some h) s c = some rc ∧
            TrainOneIter.acquire env (some (g, h)) c rc.self =
              env.Train rc.self.tree_learner_ (shift g (c * s.num_data_))
                (shift h (c * s.num_data_)) rc.self.is_constant_hessian_ ∧
            Event.acquired c (env.Train rc.self.tree_learner_ (shift g (c * s.num_data_))
              (shift h (c * s.num_data_)) rc.self.is_constant_hessian_).1 ∈ o.log) ∧
    (∀ gradients hessians : Option (Nat → ℚ), gradients = none ∨ hessians = none →
      TrainOneIter.boost env gradients hessians s =
        (BoostFromAverage env s, none, Boosting env s) ∧
      (Boosting env s).gradients_ = (env.GetGradients s.train_score_updater_.score_).1 ∧
      (Boosting env s).hessians_ = (env.GetGradients s.train_score_updater_.score_).2 ∧
      ∀ o, TrainOneIter env gradients hessians s = some o →
        ∀ c, c < s.num_tree_per_iteration_ → s.class_need_train_ c = true →
          ∃ rc, TrainOneIter.arrival env gradients hessians s c = some rc ∧
            TrainOneIter.acquire env none c rc.self =
              env.Train rc.self.tree_learner_ (shift rc.self.gradients_ (c * s.num_data_))
                (shift rc.self.hessians_ (c * s.num_data_)) rc.self.is_constant_hessian_ ∧
            Event.acquired c (env.Train rc.self.tree_learner_
              (shift rc.self.gradients_ (c * s.num_data_))
              (shift rc.self.hessians_ (c * s.num_data_)) rc.self.is_constant_hessian_).1 ∈
                o.log ∧
            (¬ RefitDue s →
              rc.self.gradients_ = (env.GetGradients s.train_score_updater_.score_).1 ∧
              rc.self.hessians_ = (env.GetGradients s.train_score_updater_.score_).2)) ∧
    (¬ RefitDue s ∨ RefitKeepsLeaves env →
      ∀ gradients hessians, ∃ o, TrainOneIter env gradients hessians s = some o) := by
  refine ⟨?_, ?_, fun hret gradients hessians => TrainOneIter_returns env gradients hessians s hret⟩
  · intro g h
    refine ⟨rfl, ?_⟩
    intro o ho
    refine ⟨?_, ?_, ?_⟩
    · intro c b
      refine TrainOneIter_no_addBias env (some g) (some h) s o ho ?_ c b
      show ¬ |(0 : ℚ)| > env.kEpsilon
      rw [abs_zero]
      exact not_lt.2 h0
    · intro hnd
      obtain ⟨r, hl, -, -, hroll, hkeep⟩ := TrainOneIter_outcome env (some g) (some h) s o ho
      have hnd₀ : ¬ RefitDue (TrainOneIter.boost env (some g) (some h) s).2.2 := hnd
      obtain ⟨a, b⟩ := TrainOneIter.loop_gradients env _ _ _ 0 _ r hl hnd₀
      cases hf : o.finished with
      | false => rw [hkeep hf]; exact ⟨a, b⟩
      | true => rw [hroll hf]; exact ⟨a, b⟩
    · intro c hc hneed
      obtain ⟨rc, harr, hacq, hmem, -⟩ :=
        TrainOneIter_trained env (some g) (some h) s o ho c hc hneed
      have hacq' : TrainOneIter.acquire env (some (g, h)) c rc.self =
          env.Train rc.self.tree_learner_ (shift g (c * s.num_data_))
            (shift h (c * s.num_data_)) rc.self.is_constant_hessian_ := hacq
      refine ⟨rc, harr, hacq', ?_⟩
      rw [← hacq']
      exact hmem
  · intro gradients hessians habsent
    have hboost : TrainOneIter.boost env gradients hessians s =
        (BoostFromAverage env s, none, Boosting env s) := by
      rcases habsent with hq | hq
      · subst hq
        rfl
      · subst hq
        cases gradients <;> rfl
    refine ⟨hboost, rfl, rfl, ?_⟩
    intro o ho c hc hneed
    obtain ⟨rc, harr, hacq, hmem, hgrad⟩ :=
      TrainOneIter_trained env gradients hessians s o ho c hc hneed
    rw [hboost] at hacq hmem hgrad
    have hacq' : TrainOneIter.acquire env none c rc.self =
        env.Train rc.self.tree_learner_ (shift rc.self.gradients_ (c * s.num_data_))
          (shift rc.self.hessians_ (c * s.num_data_)) rc.self.is_constant_hessian_ := hacq
    refine ⟨rc, harr, hacq', ?_, hgrad⟩
    rw [← hacq']
    exact hmem

/-- C16 (witness): the fresh one-channel booster, where `kEpsilon` is `1e-12`. -/
theorem C16_witness :
    0 ≤ biasedLearner.kEpsilon ∧
    ((∀ g h : Nat → ℚ,
      TrainOneIter.boost biasedLearner (some g) (some h) freshOneChannel = (0, some (g, h), freshOneChannel) ∧
      ∀ o, TrainOneIter biasedLearner (some g) (some h) freshOneChannel = some o →
        (∀ c b, Event.addBias c b ∉ o.log) ∧
        (¬ RefitDue freshOneChannel → o.self.gradients_ = freshOneChannel.gradients_ ∧ o.self.hessians_ = freshOneChannel.hessians_) ∧
        ∀ c, c < freshOneChannel.num_tree_per_iteration_ → freshOneChannel.class_need_train_ c = true →
          ∃ rc, TrainOneIter.arrival biasedLearner (some g) (some h) freshOneChannel c = some rc ∧
            TrainOneIter.acquire biasedLearner (some (g, h)) c rc.self =
              biasedLearner.Train rc.self.tree_learner_ (shift g (c * freshOneChannel.num_data_))
                (shift h (c * freshOneChannel.num_data_)) rc.self.is_constant_hessian_ ∧
            Event.acquired c (biasedLearner.Train rc.self.tree_learner_ (shift g (c * freshOneChannel.num_data_))
              (shift h (c * freshOneChannel.num_data_)) rc.self.is_constant_hessian_).1 ∈ o.log) ∧
    (∀ gradients hessians : Option (Nat → ℚ), gradients = none ∨ hessians = none →
      TrainOneIter.boost biasedLearner gradients hessians freshOneChannel =
        (BoostFromAverage biasedLearner freshOneChannel, none, Boosting biasedLearner freshOneChannel) ∧
      (Boosting biasedLearner freshOneChannel).gradients_ = (biasedLearner.GetGradients freshOneChannel.train_score_updater_.score_).1 ∧
      (Boosting biasedLearner freshOneChannel).hessians_ = (biasedLearner.GetGradients freshOneChannel.train_score_updater_.score_).2 ∧
      ∀ o, TrainOneIter biasedLearner gradients hessians freshOneChannel = some o →
        ∀ c, c < freshOneChannel.num_tree_per_iteration_ → freshOneChannel.class_need_train_ c = true →
          ∃ rc, TrainOneIter.arrival biasedLearner gradients hessians freshOneChannel c = some rc ∧
            TrainOneIter.acquire biasedLearner none c rc.self =
              biasedLearner.Train rc.self.tree_learner_ (shift rc.self.gradients_ (c * freshOneChannel.num_data_))
                (shift rc.self.hessians_ (c * freshOneChannel.num_data_)) rc.self.is_constant_hessian_ ∧
            Event.acquired c (biasedLearner.Train rc.self.tree_learner_
              (shift rc.self.gradients_ (c * freshOneChannel.num_data_))
              (shift rc.self.hessians_ (c * freshOneChannel.num_data_)) rc.self.is_constant_hessian_).1 ∈
                o.log ∧
            (¬ RefitDue freshOneChannel →
              rc.self.gradients_ = (biasedLearner.GetGradients freshOneChannel.train_score_updater_.score_).1 ∧
              rc.self.hessians_ = (biasedLearner.GetGradients freshOneChannel.train_score_updater_.score_).2)) ∧
    (¬ RefitDue freshOneChannel ∨ RefitKeepsLeaves biasedLearner →
      ∀ gradients hessians, ∃ o, TrainOneIter biasedLearner gradients hessians freshOneChannel = some o)) :=
  have h0 : 0 ≤ biasedLearner.kEpsilon := by
    norm_num [biasedLearner, sampleCollaborators]
  ⟨h0, C16_gradient_input_handling biasedLearner freshOneChannel h0⟩

/-- C17: a call of `TrainOneIter` in which no refit is due returns, and the ensemble before
the call is a beginning of the ensemble after the call, entry by entry unchanged. The call makes
`num_tree_per_iteration_` `push_back` calls; when it reports "not finished" the ensemble is the
old one followed by the pushed trees, and when it reports "finished" the rollback takes the
ensemble of the end of the loop, which is the old one followed by the pushed trees, and removes
exactly the pushed trees, giving back the old ensemble. -/
theorem C17_append_only (env : Collaborators L) (gradients hessians : Option (Nat → ℚ))
    (s : RGF L) (hnd : ¬ RefitDue s) :
    ∃ o, TrainOneIter env gradients hessians s = some o ∧
      s.models_ <+: o.self.models_ ∧
      (∀ idx : Nat, idx < s.models_.length → o.self.models_[idx]? = s.models_[idx]?) ∧
      (pushedTrees o.log).length = s.num_tree_per_iteration_ ∧
      (o.finished = false → o.self.models_ = s.models_ ++ pushedTrees o.log) ∧
      (o.finished = true →
        ∃ r, TrainOneIter.loop env (TrainOneIter.boost env gradients hessians s).2.1
            (TrainOneIter.boost env gradients hessians s).1 0 s.num_tree_per_iteration_
            ⟨(TrainOneIter.boost env gradients hessians s).2.2, false, []⟩ = some r ∧
          r.self.models_ = s.models_ ++ pushedTrees o.log ∧
          o.self.models_ = popBack s.num_tree_per_iteration_ r.self.models_ ∧
          o.self.models_ = s.models_) := by
  obtain ⟨o, ho⟩ := TrainOneIter_returns env gradients hessians s (Or.inl hnd)
  obtain ⟨r, hl, hlog, hfin, hroll, hkeep⟩ := TrainOneIter_outcome env gradients hessians s o ho
  obtain ⟨hb, hm, -, -⟩ := TrainOneIter.boost_setup env gradients hessians s
  have hnd' : ¬ RefitDue (TrainOneIter.boost env gradients hessians s).2.2 := fun hd =>
    hnd ((RefitDue_congr hb).1 hd)
  obtain ⟨evs, hevs, hmodels, hlen⟩ := TrainOneIter.loop_pushed env _ _ _ 0 _ r hl hnd'
  simp only [List.nil_append] at hevs
  rw [hm, ← hevs, ← hlog] at hmodels
  rw [← hevs, ← hlog] at hlen
  have hK := (TrainOneIter.loop_spec env _ _ _ 0 _ r hl).1.num_tree_per_iteration_
  rw [hb.num_tree_per_iteration_] at hK
  have hcases : o.self.models_ = s.models_ ++ pushedTrees o.log ∨ o.self.models_ = s.models_ := by
    cases hf : o.finished with
    | false =>
      left
      rw [hkeep hf]
      exact hmodels
    | true =>
      right
      rw [hroll hf]
      simp only
      rw [hK, hmodels]
      exact popBack_append _ _ _ hlen
  have hprefix : s.models_ <+: o.self.models_ := by
    rcases hcases with hq | hq
    · rw [hq]
      exact List.prefix_append _ _
    · rw [hq]
  refine ⟨o, ho, hprefix, ?_, hlen, ?_, ?_⟩
  · intro idx hidx
    obtain ⟨rest, hrest⟩ := hprefix
    rw [← hrest, List.getElem?_append_left hidx]
  · intro hf
    rw [hkeep hf]
    exact hmodels
  · intro hf
    refine ⟨r, hl, hmodels, ?_, ?_⟩
    · rw [hroll hf, hK]
    · rw [hroll hf]
      simp only
      rw [hK, hmodels]
      exact popBack_append _ _ _ hlen

/-- C17 (witness): an unproductive round of the fresh two-channel booster, which is rolled
back. -/
theorem C17_witness :
    ¬ RefitDue freshTwoChannel ∧
    (∃ o, TrainOneIter stuckLearner none none freshTwoChannel = some o ∧
      freshTwoChannel.models_ <+: o.self.models_ ∧
      (∀ idx : Nat, idx < freshTwoChannel.models_.length → o.self.models_[idx]? = freshTwoChannel.models_[idx]?) ∧
      (pushedTrees o.log).length = freshTwoChannel.num_tree_per_iteration_ ∧
      (o.finished = false → o.self.models_ = freshTwoChannel.models_ ++ pushedTrees o.log) ∧
      (o.finished = true →
        ∃ r, TrainOneIter.loop stuckLearner (TrainOneIter.boost stuckLearner none none freshTwoChannel).2.1
            (TrainOneIter.boost stuckLearner none none freshTwoChannel).1 0 freshTwoChannel.num_tree_per_iteration_
            ⟨(TrainOneIter.boost stuckLearner none none freshTwoChannel).2.2, false, []⟩ = some r ∧
          r.self.models_ = freshTwoChannel.models_ ++ pushedTrees o.log ∧
          o.self.models_ = popBack freshTwoChannel.num_tree_per_iteration_ r.self.models_ ∧
          o.self.models_ = freshTwoChannel.models_)) :=
  have hnd : ¬ RefitDue freshTwoChannel := by
    simp [RefitDue, freshTwoChannel, sampleBooster]
  ⟨hnd, C17_append_only stuckLearner none none freshTwoChannel hnd⟩

/-- C18: a call of `TrainOneIter` in which no refit is due and which starts at a round
boundary (the ensemble consists of complete rounds, as `TrainOneIter` leaves it) returns. A
channel `c` that needs training and for which `Train` returns a tree without a split, and a
channel that does not need training when the ensemble was non-empty at the start of the round
(its tree is the placeholder `Tree(2)`, a single leaf), gets this single-leaf tree appended by
`push_back` (it is the entry at the flat index `models_.size() + c` unless the round is rolled
back), and the scores of the channel are the same after the call as before it, in the training
partition and in every validation partition. -/
theorem C18_quiet_channel (env : Collaborators L) (gradients hessians : Option (Nat → ℚ))
    (s : RGF L) (hnd : ¬ RefitDue s) (hdiv : s.num_tree_per_iteration_ ∣ s.models_.length)
    (c : Nat) (hc : c < s.num_tree_per_iteration_) :
    ∃ o rc, TrainOneIter env gradients hessians s = some o ∧
      TrainOneIter.arrival env gradients hessians s c = some rc ∧
      (s.class_need_train_ c = true →
        TrainOneIter.acquire env (TrainOneIter.boost env gradients hessians s).2.1 c rc.self =
          env.Train rc.self.tree_learner_
            (shift (TrainOneIter.buffers (TrainOneIter.boost env gradients hessians s).2.1 rc.self).1
              (c * s.num_data_))
            (shift (TrainOneIter.buffers (TrainOneIter.boost env gradients hessians s).2.1 rc.self).2
              (c * s.num_data_))
            rc.self.is_constant_hessian_) ∧
      (s.class_need_train_ c = false →
        (TrainOneIter.acquire env (TrainOneIter.boost env gradients hessians s).2.1 c rc.self).1 =
          Tree.new 2 ∧ (Tree.new 2).num_leaves = 1) ∧
      ((s.class_need_train_ c = true ∧
          (TrainOneIter.acquire env (TrainOneIter.boost env gradients hessians s).2.1 c
            rc.self).1.num_leaves ≤ 1) ∨
        (s.class_need_train_ c = false ∧ s.models_ ≠ []) →
        (TrainOneIter.acquire env (TrainOneIter.boost env gradients hessians s).2.1 c
          rc.self).1.num_leaves ≤ 1 ∧
        (TrainOneIter.channel env (TrainOneIter.boost env gradients hessians s).2.1
          (TrainOneIter.boost env gradients hessians s).1 c rc).self.models_ =
            rc.self.models_ ++
              [(TrainOneIter.acquire env (TrainOneIter.boost env gradients hessians s).2.1 c rc.self).1] ∧
        Event.pushBack c
          (TrainOneIter.acquire env (TrainOneIter.boost env gradients hessians s).2.1 c rc.self).1 ∈ o.log ∧
        (o.finished = false → o.self.models_[s.models_.length + c]? =
          some (TrainOneIter.acquire env (TrainOneIter.boost env gradients hessians s).2.1 c rc.self).1) ∧
        ChannelShift c 0 s.train_score_updater_ o.self.train_score_updater_ ∧
        List.Forall₂ (ChannelShift c 0) s.valid_score_updater_ o.self.valid_score_updater_) := by
  obtain ⟨o, ho⟩ := TrainOneIter_returns env gradients hessians s (Or.inl hnd)
  obtain ⟨rc, harr, hsetup, hlen, a₁, b₁, a₂, b₂, ⟨evs, hevs⟩, hidx⟩ :=
    TrainOneIter_channel_frame env gradients hessians s o ho hnd c hc
  have hfalse : s.class_need_train_ c = false →
      TrainOneIter.acquire env (TrainOneIter.boost env gradients hessians s).2.1 c rc.self =
        (Tree.new 2, rc.self.tree_learner_) := by
    intro hneed
    have hneed' : rc.self.class_need_train_ c = false := by
      rw [hsetup.class_need_train_]
      exact hneed
    exact TrainOneIter.acquire_of_not_need env _ c rc.self hneed'
  refine ⟨o, rc, ho, harr, fun hneed => ?_, fun hneed => ?_, fun hcase => ?_⟩
  · have hneed' : rc.self.class_need_train_ c = true := by
      rw [hsetup.class_need_train_]
      exact hneed
    rw [TrainOneIter.acquire_of_need env _ c rc.self hneed', hsetup.num_data_]
  · rw [hfalse hneed]
    exact ⟨rfl, rfl⟩
  · have hle : (TrainOneIter.acquire env (TrainOneIter.boost env gradients hessians s).2.1 c
        rc.self).1.num_leaves ≤ 1 := by
      rcases hcase with ⟨-, hle⟩ | ⟨hneed, -⟩
      · exact hle
      · rw [hfalse hneed]
        exact Nat.le_refl 1
    have hno : rc.self.class_need_train_ c = true ∨
        rc.self.num_tree_per_iteration_ ≤ rc.self.models_.length := by
      rw [hsetup.class_need_train_, hsetup.num_tree_per_iteration_, hlen]
      rcases hcase with ⟨hneed, -⟩ | ⟨-, hne⟩
      · exact Or.inl hneed
      · right
        obtain ⟨q, hq⟩ := hdiv
        have hpos : s.models_.length ≠ 0 := fun h0 => hne (List.length_eq_zero.1 h0)
        rcases Nat.eq_zero_or_pos q with h0 | h0
        · rw [h0, Nat.mul_zero] at hq
          exact absurd hq hpos
        · have : s.num_tree_per_iteration_ * 1 ≤ s.num_tree_per_iteration_ * q :=
            Nat.mul_le_mul_left _ h0
          omega
    have hch := TrainOneIter.channel_placeholder env
      (TrainOneIter.boost env gradients hessians s).2.1
      (TrainOneIter.boost env gradients hessians s).1 c rc hle hno
    rw [hch] at a₂ b₂ hevs hidx
    simp only at a₂ b₂ hevs hidx
    have step : ∀ u v w : ScoreUpdater, ChannelAdds c (fun _ => 0) u v →
        ChannelAdds c (fun _ => 0) v w → ChannelShift c 0 u w := fun _ _ _ a b =>
      have h := ChannelAdds_compose a b
      ⟨h.1, fun i hi => by rw [h.2.2 i hi, add_zero]⟩
    refine ⟨hle, by rw [hch], ?_, ?_, step _ _ _ a₁ a₂, Forall₂_chain step b₁ b₂⟩
    · rw [hevs]
      simp
    · intro hf
      rw [hidx hf _ (by rw [List.length_append, hlen]; simp), ← hlen,
        List.getElem?_append_right (Nat.le_refl _), Nat.sub_self]
      rfl

/-- C18 (witness): channel 1, which is not trained, in the second round of a two-channel
booster. -/
theorem C18_witness :
    (¬ RefitDue secondRoundBooster ∧
      secondRoundBooster.num_tree_per_iteration_ ∣ secondRoundBooster.models_.length ∧
      1 < secondRoundBooster.num_tree_per_iteration_) ∧
    (∃ o rc, TrainOneIter splittingLearner none none secondRoundBooster = some o ∧
      TrainOneIter.arrival splittingLearner none none secondRoundBooster 1 = some rc ∧
      (secondRoundBooster.class_need_train_ 1 = true →
        TrainOneIter.acquire splittingLearner (TrainOneIter.boost splittingLearner none none secondRoundBooster).2.1 1 rc.self =
          splittingLearner.Train rc.self.tree_learner_
            (shift (TrainOneIter.buffers (TrainOneIter.boost splittingLearner none none secondRoundBooster).2.1 rc.self).1
              (1 * secondRoundBooster.num_data_))
            (shift (TrainOneIter.buffers (TrainOneIter.boost splittingLearner none none secondRoundBooster).2.1 rc.self).2
              (1 * secondRoundBooster.num_data_))
            rc.self.is_constant_hessian_) ∧
      (secondRoundBooster.class_need_train_ 1 = false →
        (TrainOneIter.acquire splittingLearner (TrainOneIter.boost splittingLearner none none secondRoundBooster).2.1 1 rc.self).1 =
          Tree.new 2 ∧ (Tree.new 2).num_leaves = 1) ∧
      ((secondRoundBooster.class_need_train_ 1 = true ∧
          (TrainOneIter.acquire splittingLearner (TrainOneIter.boost splittingLearner none none secondRoundBooster).2.1 1
            rc.self).1.num_leaves ≤ 1) ∨
        (secondRoundBooster.class_need_train_ 1 = false ∧ secondRoundBooster.models_ ≠ []) →
        (TrainOneIter.acquire splittingLearner (TrainOneIter.boost splittingLearner none none secondRoundBooster).2.1 1
          rc.self).1.num_leaves ≤ 1 ∧
        (TrainOneIter.channel splittingLearner (TrainOneIter.boost splittingLearner none none secondRoundBooster).2.1
          (TrainOneIter.boost splittingLearner none none secondRoundBooster).1 1 rc).self.models_ =
            rc.self.models_ ++
              [(TrainOneIter.acquire splittingLearner (TrainOneIter.boost splittingLearner none none secondRoundBooster).2.1 1 rc.self).1] ∧
        Event.pushBack 1
          (TrainOneIter.acquire splittingLearner (TrainOneIter.boost splittingLearner none none secondRoundBooster).2.1 1 rc.self).1 ∈ o.log ∧
        (o.finished = false → o.self.models_[secondRoundBooster.models_.length + 1]? =
          some (TrainOneIter.acquire splittingLearner (TrainOneIter.boost splittingLearner none none secondRoundBooster).2.1 1 rc.self).1) ∧
        ChannelShift 1 0 secondRoundBooster.train_score_updater_ o.self.train_score_updater_ ∧
        List.Forall₂ (ChannelShift 1 0) secondRoundBooster.valid_score_updater_ o.self.valid_score_updater_)) :=
  have hnd : ¬ RefitDue secondRoundBooster := by
    simp [RefitDue, secondRoundBooster, sampleBooster]
  ⟨⟨hnd, ⟨1, rfl⟩, Nat.lt_succ_self 1⟩,
    C18_quiet_channel splittingLearner none none secondRoundBooster hnd ⟨1, rfl⟩ 1
      (Nat.lt_succ_self 1)⟩

/-- C19: if the ensemble length is a multiple of `num_tree_per_iteration_` at the start of a
call of `TrainOneIter` that returns, then for every channel `c` of the call, in the state on
arrival at the channel the guard `models_.size() < num_tree_per_iteration_` of line 108 holds if
and only if the ensemble was empty at the start of the call, which is the case if and only if
channel `c` has no entry in the ensemble (at the start of the call, and likewise on arrival at
the channel). -/
theorem C19_default_output_guard (env : Collaborators L)
    (gradients hessians : Option (Nat → ℚ)) (s : RGF L)
    (hdiv : s.num_tree_per_iteration_ ∣ s.models_.length) (c : Nat)
    (hc : c < s.num_tree_per_iteration_) :
    (¬ RefitDue s ∨ RefitKeepsLeaves env → ∃ o, TrainOneIter env gradients hessians s = some o) ∧
    ∀ o, TrainOneIter env gradients hessians s = some o →
      ∃ rc, TrainOneIter.arrival env gradients hessians s c = some rc ∧
        (rc.self.models_.length < rc.self.num_tree_per_iteration_ ↔ s.models_ = []) ∧
        (s.models_ = [] ↔ ChannelHasNoEntry s.num_tree_per_iteration_ c s.models_) ∧
        (s.models_ = [] ↔ ChannelHasNoEntry s.num_tree_per_iteration_ c rc.self.models_) := by
  refine ⟨TrainOneIter_returns env gradients hessians s, ?_⟩
  intro o ho
  obtain ⟨rc, r₁, r', harr, -, -, hsetup, hlen, -⟩ :=
    TrainOneIter_arrival env gradients hessians s o ho c hc
  have hK := hsetup.num_tree_per_iteration_
  obtain ⟨q, hq⟩ := hdiv
  have hbig : s.models_ ≠ [] → s.num_tree_per_iteration_ ≤ s.models_.length := by
    intro hne
    have hpos : s.models_.length ≠ 0 := fun h0 => hne (List.length_eq_zero.1 h0)
    rcases Nat.eq_zero_or_pos q with h0 | h0
    · rw [h0, Nat.mul_zero] at hq
      exact absurd hq hpos
    · calc s.num_tree_per_iteration_ = s.num_tree_per_iteration_ * 1 := (Nat.mul_one _).symm
        _ ≤ s.num_tree_per_iteration_ * q := Nat.mul_le_mul_left _ h0
        _ = s.models_.length := hq.symm
  refine ⟨rc, harr, ?_, ?_, ?_⟩
  · rw [hK, hlen]
    constructor
    · intro hlt
      by_contra hne
      have := hbig hne
      omega
    · intro he
      rw [he]
      simpa using hc
  · constructor
    · intro he j hj
      rw [he] at hj
      simp at hj
    · intro hno
      by_contra hne
      have := hbig hne
      exact hno c (by omega) (Nat.mod_eq_of_lt hc)
  · constructor
    · intro he j hj
      rw [hlen, he] at hj
      simp only [List.length_nil, Nat.zero_add] at hj
      rw [Nat.mod_eq_of_lt (by omega)]
      omega
    · intro hno
      by_contra hne
      have := hbig hne
      exact hno c (by rw [hlen]; omega) (Nat.mod_eq_of_lt hc)

/-- C19 (witness): channel 1 of the fresh two-channel booster. -/
theorem C19_witness :
    (freshTwoChannel.num_tree_per_iteration_ ∣ freshTwoChannel.models_.length ∧
      1 < freshTwoChannel.num_tree_per_iteration_) ∧
    ((¬ RefitDue freshTwoChannel ∨ RefitKeepsLeaves splittingLearner → ∃ o, TrainOneIter splittingLearner none none freshTwoChannel = some o) ∧
    ∀ o, TrainOneIter splittingLearner none none freshTwoChannel = some o →
      ∃ rc, TrainOneIter.arrival splittingLearner none none freshTwoChannel 1 = some rc ∧
        (rc.self.models_.length < rc.self.num_tree_per_iteration_ ↔ freshTwoChannel.models_ = []) ∧
        (freshTwoChannel.models_ = [] ↔ ChannelHasNoEntry freshTwoChannel.num_tree_per_iteration_ 1 freshTwoChannel.models_) ∧
        (freshTwoChannel.models_ = [] ↔ ChannelHasNoEntry freshTwoChannel.num_tree_per_iteration_ 1 rc.self.models_)) :=
  ⟨⟨⟨0, rfl⟩, Nat.lt_succ_self 1⟩,
    C19_default_output_guard splittingLearner none none freshTwoChannel ⟨0, rfl⟩ 1
      (Nat.lt_succ_self 1)⟩

end LightGBM
